import Mathlib

/-!
# clean-depot: equipment store, inventory reconciler and catalog lookup

A shallow embedding of the backend controllers
(`equipmentController.js`, `inventoryController.js`) over an explicit store:
two collections held as lists in insertion order, the way the document
database hands them back.  The front end's mapping of a catalog item
(`Inventory.jsx`) is embedded over the same JSON values.

Conventions.
* An `ObjectId` is a natural number.  A freshly generated ObjectId, the token
  of `generateUniqueId()` and the clock are supplied by the environment
  (`Fresh`): the controllers do not compute them.
* JavaScript numbers are rationals (exact for every integer below 2^53); a
  numeral text is cast to the nearest JavaScript number (`nearestDouble`).
* The built-in `toLowerCase` follows the Unicode case tables, which are not in
  the sources: it is a parameter of `slug` and `fetchData`.
* A controller returns its HTTP response together with the store it leaves.
* The record a controller builds is modelled in two steps: the object literal
  of the source over JSON values (`JVal`), then the cast of that literal by
  the schema of `equipmentSchema.js` (`castEquipment`).
-/

namespace CleanDepot

/-! ## Request values -/

/-- Store-assigned identity of a document. -/
abbrev ObjectId := Nat

/-- Identity of a user, attached to the request by the auth middleware. -/
abbrev UserId := Nat

/-- A request-body value in a string position: absent, null, or a string. -/
inductive JsString where
  | undefined : JsString
  | null : JsString
  | str (s : String) : JsString
deriving DecidableEq

/-- A request-body value in a numeric position: absent, null, or a number. -/
inductive JsNumber where
  | undefined : JsNumber
  | null : JsNumber
  | num (q : ℚ) : JsNumber
deriving DecidableEq

/-- The comparison `quantity < 1` of JavaScript: `undefined` converts to NaN
(every comparison false), `null` converts to 0. -/
def JsNumber.ltOne : JsNumber → Bool
  | .undefined => false
  | .null => true
  | .num q => decide (q < 1)

/-! ## Data model -/

/-- An Equipment document (`equipmentSchema.js`), projected on the fields the
store operations read: identity, `customId` and `name`.  The descriptive
fields (damage, range, cost, ...) are written once from the request and are
never consulted by lookup, matching or deletion. -/
structure Equipment where
  _id : ObjectId
  customId : String
  name : String
deriving DecidableEq

/-- A UserInventory document: owner, reference to an Equipment document,
quantity and metadata. -/
structure InventoryItem where
  _id : ObjectId
  user : UserId
  equipmentId : ObjectId
  quantity : ℚ
  customizations : Option String
  acquiredDate : Nat
deriving DecidableEq

/-- The two collections, each in insertion order. -/
structure Store where
  equipment : List Equipment
  inventory : List InventoryItem
deriving DecidableEq

/-- The raw item of `POST /inventory/add`, projected on the fields that decide
the store operations. -/
structure RawItem where
  name : JsString
  equipmentId : JsString
deriving DecidableEq

/-- What the environment supplies while one request is served: the token
returned by `generateUniqueId()`, the ObjectIds given to newly constructed
documents, and the clock. -/
structure Fresh where
  customId : String
  equipmentOid : ObjectId
  inventoryOid : ObjectId
  now : Nat
deriving DecidableEq

/-- An HTTP response of the inventory controller: status, and the JSON body
as either an inventory item or a message.  An item whose reference was
populated is shown with the id of the referenced document; the `error` detail
that accompanies a failure message is not carried. -/
structure Response where
  status : Nat
  item : Option InventoryItem
  message : Option String
deriving DecidableEq

/-! ## Equipment collection -/

/-- The query `Equipment.findOne({ customId: k })`: the first document
whose `customId` is `k`.  Every stored document carries a string `customId`, so
an absent or null key matches nothing. -/
def Equipment.findOne (db : List Equipment) : JsString → Option Equipment
  | .str k => db.find? (fun e => e.customId == k)
  | _ => none

/-- The query `Equipment.findById(id)`, also used to populate a reference. -/
def Equipment.findById (db : List Equipment) (id : ObjectId) : Option Equipment :=
  db.find? (fun e => e._id == id)

/-- Saving a new Equipment document.  The insert is refused when the `_id`
is taken or when the unique index on `customId` is violated. -/
def Equipment.save (db : List Equipment) (e : Equipment) : Except String (List Equipment) :=
  if db.any (fun d => d._id == e._id || d.customId == e.customId) then
    .error "E11000 duplicate key error"
  else
    .ok (db ++ [e])

/-- The function `saveFetchedEquipment(item)` of `equipmentController.js`.
Every failure inside its `try` block (a missing item, a falsy name, a refused
save) is rethrown as the one error `Failed to save fetched equipment`. -/
def saveFetchedEquipment (s : Store) (item : Option RawItem) (fr : Fresh) :
    Except String (Equipment × Store) :=
  match item with
  | none => .error "Failed to save fetched equipment"
  | some item =>
    match item.name with
    | .str n =>
      if n == "" then .error "Failed to save fetched equipment"
      else
        match Equipment.findOne s.equipment item.equipmentId with
        | some equipment => .ok (equipment, s)
        | none =>
          let equipment : Equipment :=
            { _id := fr.equipmentOid, customId := fr.customId, name := n }
          match Equipment.save s.equipment equipment with
          | .ok db => .ok (equipment, { s with equipment := db })
          | .error _ => .error "Failed to save fetched equipment"
    | _ => .error "Failed to save fetched equipment"

/-! ## Inventory collection -/

/-- Modelled from the spec: `userInventorySchema.js` is not among the sources,
so the validator of its `quantity` path is taken from the data model
(`quantity` an integer at least 1, enforced on every write): a value is
accepted exactly when it is an integer and at least 1. -/
def quantityValid (q : ℚ) : Bool :=
  decide (q.den = 1) && decide (1 ≤ q)

/-- Replace the first element satisfying `p` by its image under `f`: the
effect of a single-document update. -/
def updateFirst {α : Type} (p : α → Bool) (f : α → α) : List α → List α
  | [] => []
  | x :: xs => if p x then f x :: xs else x :: updateFirst p f xs

/-- Remove the first element satisfying `p`: the effect of a single-document
delete. -/
def removeFirst {α : Type} (p : α → Bool) : List α → List α
  | [] => []
  | x :: xs => if p x then xs else x :: removeFirst p xs

/-- The query `UserInventory.find({ user: userId })`. -/
def UserInventory.findByUser (inv : List InventoryItem) (userId : UserId) :
    List InventoryItem :=
  inv.filter (fun it => it.user == userId)

/-- The query `UserInventory.find({ equipmentId })`. -/
def UserInventory.findByEquipment (inv : List InventoryItem) (equipmentId : ObjectId) :
    List InventoryItem :=
  inv.filter (fun it => it.equipmentId == equipmentId)

/-- The call `.populate(equipmentId)`: each item paired with the Equipment
document it references, or with nothing (null) when that document is absent. -/
def populate (db : List Equipment) (items : List InventoryItem) :
    List (InventoryItem × Option Equipment) :=
  items.map (fun it => (it, Equipment.findById db it.equipmentId))

/-- The scan
`userInventory.find(inventoryItem => inventoryItem.equipmentId.name === equipment.name)`.
It walks the populated inventory in order and stops at the first match;
reading `.name` of a null reference on the way throws a TypeError. -/
def findSameName (name : String) :
    List (InventoryItem × Option Equipment) → Except String (Option InventoryItem)
  | [] => .ok none
  | (_, none) :: _ => .error "TypeError: cannot read properties of null"
  | (it, some e) :: rest => if e.name == name then .ok (some it) else findSameName name rest

/-- Saving a new UserInventory document: schema validation of the quantity,
then the insert, refused when the `_id` is taken. -/
def UserInventory.save (inv : List InventoryItem) (it : InventoryItem) :
    Except String (List InventoryItem) :=
  if !quantityValid it.quantity then .error "ValidationError"
  else if inv.any (fun d => d._id == it._id) then .error "E11000 duplicate key error"
  else .ok (inv ++ [it])

/-- Lines 31 to 59 of `addToInventory`: with the Equipment document resolved,
scan the caller's populated inventory for the same name, then increment the
match or insert a new item.  The sum `existingItem.quantity + 1` is taken
exactly, which is what JavaScript computes for a whole quantity below 2^53;
statements about the incremented value are made for such quantities. -/
def mergeByName (s : Store) (userId : UserId) (equipment : Equipment) (fr : Fresh) :
    Response × Store :=
  let userInventory := populate s.equipment (UserInventory.findByUser s.inventory userId)
  match findSameName equipment.name userInventory with
  | .error _ =>
    ({ status := 500, item := none, message := some "Failed to add item to inventory" }, s)
  | .ok (some existingItem) =>
    let updated : InventoryItem := { existingItem with quantity := existingItem.quantity + 1 }
    if quantityValid updated.quantity then
      ({ status := 200, item := some updated, message := none },
       { s with inventory :=
           updateFirst (fun d => d._id == existingItem._id) (fun _ => updated) s.inventory })
    else
      ({ status := 500, item := none, message := some "Failed to add item to inventory" }, s)
  | .ok none =>
    let newInventoryItem : InventoryItem :=
      { _id := fr.inventoryOid, user := userId, equipmentId := equipment._id,
        quantity := 1, customizations := none, acquiredDate := fr.now }
    match UserInventory.save s.inventory newInventoryItem with
    | .ok inv =>
      ({ status := 201, item := some newInventoryItem, message := none },
       { s with inventory := inv })
    | .error _ =>
      ({ status := 500, item := none, message := some "Failed to add item to inventory" }, s)

/-- The controller `addToInventory` of `inventoryController.js`.  A failure
of `saveFetchedEquipment` or of any later step is caught and answered 500;
what was already written stays written. -/
def addToInventory (s : Store) (userId : UserId) (item : Option RawItem) (fr : Fresh) :
    Response × Store :=
  match saveFetchedEquipment s item fr with
  | .error _ =>
    ({ status := 500, item := none, message := some "Failed to add item to inventory" }, s)
  | .ok (equipment, s1) => mergeByName s1 userId equipment fr

/-- The update document `{ quantity, customizations }` applied to one item:
an undefined key is dropped from the update, a null or string customization is
written as given. -/
def applyInventoryUpdate (quantity : JsNumber) (customizations : JsString)
    (it : InventoryItem) : InventoryItem :=
  let it1 : InventoryItem :=
    match quantity with
    | .num q => { it with quantity := q }
    | _ => it
  match customizations with
  | .undefined => it1
  | .null => { it1 with customizations := none }
  | .str c => { it1 with customizations := some c }

/-- The call `UserInventory.findByIdAndUpdate(id, update, { new: true,
runValidators: true })`.  The update validators run first and throw on a
quantity the schema refuses (null included); then the first document with the
given id is updated and returned, or null when there is none. -/
def UserInventory.findByIdAndUpdate (inv : List InventoryItem) (id : ObjectId)
    (quantity : JsNumber) (customizations : JsString) :
    Except String (Option InventoryItem × List InventoryItem) :=
  let accepted : Bool :=
    match quantity with
    | .undefined => true
    | .null => false
    | .num q => quantityValid q
  if !accepted then .error "Validation failed"
  else
    match inv.find? (fun d => d._id == id) with
    | none => .ok (none, inv)
    | some it =>
      .ok (some (applyInventoryUpdate quantity customizations it),
           updateFirst (fun d => d._id == id) (applyInventoryUpdate quantity customizations) inv)

/-- The controller `updateItemQuantity` of `inventoryController.js`. -/
def updateItemQuantity (s : Store) (id : ObjectId) (quantity : JsNumber) : Response × Store :=
  if quantity.ltOne then
    ({ status := 400, item := none, message := some "Quantity must be at least 1" }, s)
  else
    match UserInventory.findByIdAndUpdate s.inventory id quantity .undefined with
    | .error _ =>
      ({ status := 500, item := none, message := some "Failed to update item quantity" }, s)
    | .ok (none, _) =>
      ({ status := 404, item := none, message := some "Inventory item not found" }, s)
    | .ok (some updatedItem, inv) =>
      ({ status := 200, item := some updatedItem, message := none }, { s with inventory := inv })

/-- The equipment patch `equipmentData`, projected on the modelled fields. -/
structure EquipmentPatch where
  name : JsString
  customId : Option String
deriving DecidableEq

/-- The call `Equipment.findByIdAndUpdate(id, patch, { new: true,
runValidators: true })` on the modelled fields.  The update validators run
first: `name` is a required path, so a patch that sets it to null or to the
empty string is refused.  Then the first document with the given id is
updated (null when there is none); the write is refused when it would break
the unique index on `customId`.  The `_id` of a document never changes. -/
def Equipment.findByIdAndUpdate (db : List Equipment) (id : ObjectId) (patch : EquipmentPatch) :
    Except String (Option Equipment × List Equipment) :=
  let nameAccepted : Bool :=
    match patch.name with
    | .undefined => true
    | .null => false
    | .str n => !(n == "")
  if !nameAccepted then .error "Validation failed"
  else
    match Equipment.findById db id with
    | none => .ok (none, db)
    | some e =>
      let e1 : Equipment :=
        match patch.name with
        | .str n => { e with name := n }
        | _ => e
      let e2 : Equipment :=
        match patch.customId with
        | some c => { e1 with customId := c }
        | none => e1
      if db.any (fun d => !(d._id == id) && d.customId == e2.customId) then
        .error "E11000 duplicate key error"
      else
        .ok (some e2, updateFirst (fun d => d._id == id) (fun _ => e2) db)

/-- The controller `updateInventoryItem` of `inventoryController.js`.
The inventory update is persisted before the equipment step is tried, and
every thrown error is answered 400. -/
def updateInventoryItem (s : Store) (id : ObjectId) (quantity : JsNumber)
    (customizations : JsString) (equipmentData : Option EquipmentPatch) : Response × Store :=
  match UserInventory.findByIdAndUpdate s.inventory id quantity customizations with
  | .error _ =>
    ({ status := 400, item := none, message := some "Failed to update inventory item" }, s)
  | .ok (none, _) =>
    ({ status := 404, item := none, message := some "Inventory item not found" }, s)
  | .ok (some inventoryItem, inv) =>
    let s1 : Store := { s with inventory := inv }
    match equipmentData with
    | none => ({ status := 200, item := some inventoryItem, message := none }, s1)
    | some patch =>
      match Equipment.findByIdAndUpdate s1.equipment inventoryItem.equipmentId patch with
      | .error _ =>
        ({ status := 400, item := none, message := some "Failed to update inventory item" }, s1)
      | .ok (none, _) =>
        ({ status := 404, item := none, message := some "Equipment item not found" }, s1)
      | .ok (some _, db) =>
        ({ status := 200, item := some inventoryItem, message := none },
         { s1 with equipment := db })

/-- The call `UserInventory.findByIdAndDelete(itemId)`: the first document
with the given id, and the collection without it. -/
def UserInventory.findByIdAndDelete (inv : List InventoryItem) (itemId : ObjectId) :
    Option (InventoryItem × List InventoryItem) :=
  match inv.find? (fun d => d._id == itemId) with
  | none => none
  | some it => some (it, removeFirst (fun d => d._id == itemId) inv)

/-- The call `Equipment.findByIdAndDelete(equipmentId)`; deleting an absent
document is not an error. -/
def Equipment.findByIdAndDelete (db : List Equipment) (equipmentId : ObjectId) :
    List Equipment :=
  removeFirst (fun d => d._id == equipmentId) db

/-- The controller `deleteItem` of `inventoryController.js`. -/
def deleteItem (s : Store) (itemId : ObjectId) : Response × Store :=
  match UserInventory.findByIdAndDelete s.inventory itemId with
  | none => ({ status := 404, item := none, message := some "Inventory item not found" }, s)
  | some (inventoryResult, inv) =>
    let equipmentId := inventoryResult.equipmentId
    let otherInventoryItems := UserInventory.findByEquipment inv equipmentId
    let db :=
      if otherInventoryItems.length == 0 then Equipment.findByIdAndDelete s.equipment equipmentId
      else s.equipment
    ({ status := 200, item := none, message := some "Item deleted successfully" },
     { equipment := db, inventory := inv })

/-! ## Catalog lookup -/

/-- A settled promise of `axios.get`: fulfilled with the response data, or
rejected with the message of the error. -/
inductive Settled where
  | fulfilled (data : String) : Settled
  | rejected (message : String) : Settled
deriving DecidableEq

/-- The response of `fetchData`: 200 with a catalog payload, 404 with the
list of (endpoint, reason) pairs, or 500 with a message. -/
inductive FetchResponse where
  | payload (status : Nat) (data : String) : FetchResponse
  | notFound (status : Nat) (message : String) (errors : List (String × String)) : FetchResponse
  | failed (status : Nat) (message : String) : FetchResponse
deriving DecidableEq

/-- The whitespace class of a JavaScript regular expression. -/
def isJsWhitespace (c : Char) : Bool :=
  c.val == 0x09 || c.val == 0x0A || c.val == 0x0B || c.val == 0x0C || c.val == 0x0D ||
  c.val == 0x20 || c.val == 0xA0 || c.val == 0x1680 ||
  (0x2000 ≤ c.val && c.val ≤ 0x200A) ||
  c.val == 0x2028 || c.val == 0x2029 || c.val == 0x202F || c.val == 0x205F ||
  c.val == 0x3000 || c.val == 0xFEFF

/-- The replacement `.replace(/\s+/g, '-')` on a list of characters, read
left to right: the first character of a whitespace run becomes a hyphen and
the rest of the run is dropped (`inRun` tells whether the previous character
was whitespace), so every maximal run becomes one hyphen. -/
def replaceWhitespaceRuns (inRun : Bool) : List Char → List Char
  | [] => []
  | c :: cs =>
    if isJsWhitespace c then
      if inRun then replaceWhitespaceRuns true cs else '-' :: replaceWhitespaceRuns true cs
    else c :: replaceWhitespaceRuns false cs

/-- The slug `index.toLowerCase().replace(/\s+/g, '-')`.  The built-in
`String.prototype.toLowerCase` follows the case tables of Unicode, which are
not part of the sources: it is supplied by the environment as `toLowerCase`. -/
def slug (toLowerCase : String → String) (index : String) : String :=
  String.mk (replaceWhitespaceRuns false (toLowerCase index).data)

/-- The three catalog endpoints, in declaration order. -/
def endpoints (index : String) : List String :=
  [ "https://www.dnd5eapi.co/api" ++ "/equipment/" ++ index,
    "https://www.dnd5eapi.co/api" ++ "/magic-items/" ++ index,
    "https://www.dnd5eapi.co/api" ++ "/weapon-properties/" ++ index ]

/-- The mapping `.filter(rejected).map((response, idx) => ...)`: the k-th
rejected outcome is paired with the k-th endpoint. -/
def failureReasons (eps : List String) (apiResponses : List Settled) : List (String × String) :=
  let rejected := apiResponses.filterMap
    (fun r => match r with | .rejected m => some m | .fulfilled _ => none)
  rejected.enum.map (fun p => (eps.getD p.1 "undefined", p.2))

/-- The controller `fetchData` of `equipmentController.js`; `get` is the
settled outcome of `axios.get` for each URL.  `Promise.allSettled` keeps the
outcomes in endpoint order and never rejects, so the 500 branch of the
`catch` is not taken on settled outcomes. -/
def fetchData (toLowerCase : String → String) (get : String → Settled) (index : String) :
    FetchResponse :=
  let index := slug toLowerCase index
  let eps := endpoints index
  let apiResponses := eps.map get
  match apiResponses.findSome? (fun r => match r with | .fulfilled d => some d | .rejected _ => none) with
  | some data => .payload 200 data
  | none => .notFound 404 "Item not found" (failureReasons eps apiResponses)

/-! ## JSON values and the JavaScript operations of the field mappings -/

/-- A JSON value as a request body carries it, with `undefined` for an absent
property.  An object is its list of properties; the first binding of a key is
the one read. -/
inductive JVal where
  | undefined : JVal
  | null : JVal
  | bool (b : Bool) : JVal
  | num (q : ℚ) : JVal
  | str (s : String) : JVal
  | arr (items : List JVal) : JVal
  | obj (fields : List (String × JVal)) : JVal

/-- Why building or saving a document fails: a TypeError thrown while the
object literal is evaluated, the error `Item name is required`, a schema cast
or validation failure reported when the document is saved, or a case that
this development does not model. -/
inductive BuildError where
  | typeError : BuildError
  | nameRequired : BuildError
  | validationError : BuildError
  | notModelled : BuildError
deriving DecidableEq

/-- JavaScript truthiness. -/
def JVal.truthy : JVal → Bool
  | .undefined => false
  | .null => false
  | .bool b => b
  | .num q => !(q == 0)
  | .str s => !(s == "")
  | .arr _ => true
  | .obj _ => true

/-- Whether a value is `null` or `undefined`. -/
def JVal.nullish : JVal → Bool
  | .undefined => true
  | .null => true
  | _ => false

/-- The property read `v.key` on a value that is neither null nor undefined:
the property of an object, `undefined` on anything else (none of the keys read
by the controllers is a built-in property of a string, number or array). -/
def JVal.prop (v : JVal) (key : String) : JVal :=
  match v with
  | .obj fields => (fields.lookup key).getD .undefined
  | _ => .undefined

/-- The property read `v.key` as JavaScript evaluates it: a TypeError on null
and undefined. -/
def JVal.member (v : JVal) (key : String) : Except BuildError JVal :=
  if v.nullish then .error .typeError else .ok (v.prop key)

/-- The optional chaining `v?.key`. -/
def JVal.optProp (v : JVal) (key : String) : JVal :=
  if v.nullish then .undefined else v.prop key

/-- The operator `a || b`. -/
def JVal.orElse (a b : JVal) : JVal :=
  if a.truthy then a else b

/-- The operator `typeof`. -/
def JVal.typeof : JVal → String
  | .undefined => "undefined"
  | .null => "object"
  | .bool _ => "boolean"
  | .num _ => "number"
  | .str _ => "string"
  | .arr _ => "object"
  | .obj _ => "object"

/-- The text after the first occurrence of the separator `": "`, if any. -/
def afterSeparator : List Char → Option (List Char)
  | [] => none
  | ':' :: ' ' :: rest => some rest
  | _ :: rest => afterSeparator rest

/-- The text before the first occurrence of the separator `": "`. -/
def beforeSeparator : List Char → List Char
  | [] => []
  | ':' :: ' ' :: _ => []
  | c :: rest => c :: beforeSeparator rest

/-- The expression `s.split(': ')[1]`: the second piece of `s` cut at every
`": "`, or `undefined` when `s` has no separator. -/
def splitSecond (s : String) : JVal :=
  match afterSeparator s.data with
  | none => .undefined
  | some rest => .str (String.mk (beforeSeparator rest))

/-- The value of a non-empty string of decimal digits. -/
def digitsValue (cs : List Char) : Option Nat :=
  if cs.isEmpty || !cs.all Char.isDigit then none
  else some (cs.foldl (fun acc c => 10 * acc + (c.toNat - 48)) 0)

/-- The number of binary digits of `n`; `fuel` bounds the number of
halvings. -/
def bitLength : Nat → Nat → Nat
  | 0, _ => 0
  | fuel + 1, n => if n = 0 then 0 else bitLength fuel (n / 2) + 1

/-- The numerator of `n / (d * 2 ^ e)` written as a fraction of whole numbers. -/
def scaledNum (n : Nat) (e : Int) : Nat := if 0 ≤ e then n else n * 2 ^ (-e).toNat

/-- The denominator of `n / (d * 2 ^ e)` written as a fraction of whole
numbers. -/
def scaledDen (d : Nat) (e : Int) : Nat := if 0 ≤ e then d * 2 ^ e.toNat else d

/-- The whole number nearest to `num / den`, a tie going to the even one. -/
def roundHalfEven (num den : Nat) : Nat :=
  if 2 * (num % den) < den then num / den
  else if den < 2 * (num % den) then num / den + 1
  else if (num / den) % 2 = 0 then num / den
  else num / den + 1

/-- The binary exponent `e` at which the positive fraction `n / d` has a
mantissa of 53 binary digits, `2 ^ 52 ≤ n / (d * 2 ^ e) < 2 ^ 53`; below the
normal range it is -1074. -/
def binaryExponent (n d : Nat) : Int :=
  let e0 : Int := (bitLength n n : Int) - (bitLength d d : Int) - 53
  max (if 2 ^ 52 * scaledDen d (e0 + 1) ≤ scaledNum n (e0 + 1) then e0 + 1 else e0) (-1074)

/-- The JavaScript number nearest to the fraction `n / d` (`d` positive),
negated when `negative`: the fraction is scaled by a power of two into the 53
binary digits of a mantissa, rounded to the nearest whole number with ties to
even, and scaled back.  A value that rounds beyond the largest number is
`Infinity`, which is not modelled (`none`). -/
def nearestDouble (negative : Bool) (n d : Nat) : Option ℚ :=
  if n = 0 then some 0
  else
    let e := binaryExponent n d
    let m := roundHalfEven (scaledNum n e) (scaledDen d e)
    if 971 < e ∨ (e = 971 ∧ m = 2 ^ 53) then none
    else
      let signed : Int := if negative then -(m : Int) else (m : Int)
      if 0 ≤ e then some ((signed * 2 ^ e.toNat : Int) : ℚ)
      else some (mkRat signed (2 ^ (-e).toNat))

/-- A decimal numeral: an optional sign, decimal digits, and optionally a
point followed by decimal digits.  It denotes `digits / 10 ^ scale`, negated
when `negative`. -/
structure Numeral where
  negative : Bool
  digits : Nat
  scale : Nat
deriving DecidableEq

/-- Whether a character can occur in a decimal numeral or in the whitespace
around it. -/
def numeralChar (c : Char) : Bool :=
  c.isDigit || c == '.' || c == '+' || c == '-' || c == 'e' || c == 'E' || isJsWhitespace c

/-- The exponent of a numeral: decimal digits with an optional sign. -/
def readExponent : List Char → Option Int
  | '-' :: ds => (digitsValue ds).map (fun n => -(n : Int))
  | '+' :: ds => (digitsValue ds).map (fun n => (n : Int))
  | ds => (digitsValue ds).map (fun n => (n : Int))

/-- The decimal numeral that a text without sign spells, if it spells one:
decimal digits, optionally a point and decimal digits, with a digit on at
least one side of the point, and optionally an exponent. -/
def readUnsigned (negative : Bool) (cs : List Char) : Option Numeral :=
  let whole := cs.takeWhile Char.isDigit
  let afterWhole := cs.dropWhile Char.isDigit
  let frac : List Char :=
    match afterWhole with
    | '.' :: rest => rest.takeWhile Char.isDigit
    | _ => []
  let afterFrac : List Char :=
    match afterWhole with
    | '.' :: rest => rest.dropWhile Char.isDigit
    | rest => rest
  if whole.isEmpty && frac.isEmpty then none
  else
    let exponent : Option Int :=
      match afterFrac with
      | [] => some 0
      | 'e' :: rest => readExponent rest
      | 'E' :: rest => readExponent rest
      | _ => none
    match exponent with
    | none => none
    | some x =>
      let mantissa := (whole ++ frac).foldl (fun acc c => 10 * acc + (c.toNat - 48)) 0
      let shift : Int := x - (frac.length : Int)
      if 0 ≤ shift then
        some { negative := negative, digits := mantissa * 10 ^ shift.toNat, scale := 0 }
      else some { negative := negative, digits := mantissa, scale := (-shift).toNat }

/-- The decimal numeral that a text spells, if it spells one, as `Number(text)`
reads it: whitespace around the numeral is skipped, then comes an optional
sign.  A text with another character is no decimal numeral; the other
numerals of JavaScript (a radix prefix, `Infinity`, the number 0 for a text
of whitespace only) are not read. -/
def readNumeral (cs : List Char) : Option Numeral :=
  if !cs.all numeralChar then none
  else
    match ((cs.dropWhile isJsWhitespace).reverse.dropWhile isJsWhitespace).reverse with
    | '-' :: rest => readUnsigned true rest
    | '+' :: rest => readUnsigned false rest
    | trimmed => readUnsigned false trimmed

/-- The JavaScript number that a decimal numeral denotes: `Number(text)`. -/
def Numeral.toNumber (x : Numeral) : Option ℚ :=
  nearestDouble x.negative x.digits (10 ^ x.scale)

/-! ## Schema casts (`equipmentSchema.js`) -/

/-- The cast of a value set on a `String` path with the given default.  An
absent value takes the default and null stays null (`none`); a boolean is
printed; a plain object or an array is refused, except that a value carrying a
string `_id` is read as that `_id`.  A number is printed by JavaScript, which
is modelled for whole numbers below 10^21 only. -/
def castStringPath (dflt : String) : JVal → Except BuildError (Option String)
  | .undefined => .ok (some dflt)
  | .null => .ok none
  | .str s => .ok (some s)
  | .bool b => .ok (some (if b then "true" else "false"))
  | .num q =>
    if q.den = 1 ∧ q.num.natAbs < 10 ^ 21 then .ok (some (toString q.num))
    else .error .notModelled
  | .arr _ => .error .validationError
  | .obj fields =>
    match fields.lookup "_id" with
    | some (.str id) => if id == "" then .error .validationError else .ok (some id)
    | _ => .error .validationError

/-- The cast of a value set on a `Number` path with default null.  The empty
string is null; a string that spells a decimal numeral is the JavaScript
number it denotes, and the conversion of any other string is not modelled; an
array or an object is refused. -/
def castNumberPath : JVal → Except BuildError (Option ℚ)
  | .undefined => .ok none
  | .null => .ok none
  | .num q => .ok (some q)
  | .bool b => .ok (some (if b then 1 else 0))
  | .str s =>
    if s == "" then .ok none
    else
      match (readNumeral s.data).bind Numeral.toNumber with
      | some x => .ok (some x)
      | none => .error .notModelled
  | .arr _ => .error .validationError
  | .obj fields =>
    match fields.lookup "_id" with
    | none => .error .validationError
    | some _ => .error .notModelled

/-- The cast of a value set on a `Boolean` path with default false. -/
def castBooleanPath : JVal → Except BuildError (Option Bool)
  | .undefined => .ok (some false)
  | .null => .ok none
  | .bool b => .ok (some b)
  | .num q => if q == 1 then .ok (some true) else if q == 0 then .ok (some false)
      else .error .validationError
  | .str s =>
    if s == "true" || s == "1" || s == "yes" then .ok (some true)
    else if s == "false" || s == "0" || s == "no" then .ok (some false)
    else .error .validationError
  | _ => .error .validationError

/-- The cast of a value set on the `[String]` path `desc` with default `[]`:
each entry is cast to a string, and a value that is not an array is wrapped
into a one-entry array.  Setting the path to null is not modelled. -/
def castStringArrayPath : JVal → Except BuildError (List (Option String))
  | .undefined => .ok []
  | .null => .error .notModelled
  | .arr items => items.mapM (castStringPath "")
  | v => (castStringPath "" v).map (fun s => [s])

/-- The value a nested path takes from the constructor argument: an object is
read key by key; an absent value, and a string, number, boolean or array
(which strict mode ignores on a nested path), leave every subpath at its
default.  Setting a nested path to null is not modelled. -/
def nestedValue (lit : JVal) (key : String) : Except BuildError JVal :=
  match lit.prop key with
  | .obj fields => .ok (.obj fields)
  | .null => .error .notModelled
  | _ => .ok (.obj [])

/-- The entries of a document array path taken from the constructor argument:
an absent value is the empty array, an object that is not an array is wrapped
into a one-entry array, and an entry that is not an object cannot become a
subdocument.  Null, as the value or as an entry, is not modelled. -/
def documentArrayEntries (lit : JVal) (key : String) : Except BuildError (List JVal) :=
  match lit.prop key with
  | .undefined => .ok []
  | .null => .error .notModelled
  | .obj fields => .ok [.obj fields]
  | .arr items =>
    items.mapM (fun entry =>
      match entry with
      | .obj fields => .ok (.obj fields)
      | .null => .error .notModelled
      | _ => .error .validationError)
  | _ => .error .validationError

/-! ## The canonical Equipment document -/

/-- The nested path `damage` (and `two_handed_damage`); `damage_type` holds
the `name` inside `damage_type`.  A string path holds a string or null. -/
structure DamageDoc where
  damage_dice : Option String
  damage_type : Option String
deriving DecidableEq

/-- The nested path `range` (and `throw_range`). -/
structure RangeDoc where
  normal : Option ℚ
  long : Option ℚ
deriving DecidableEq

/-- The nested path `cost`. -/
structure CostDoc where
  quantity : Option ℚ
  unit : Option String
deriving DecidableEq

/-- One subdocument of `effects`. -/
structure EffectDoc where
  effectName : Option String
  effectDescription : Option String
deriving DecidableEq

/-- The Equipment document as `equipmentSchema.js` shapes it, without the
identity fields `_id` and `__v`.  The entries of `properties` are shown by
their `name`, and `equipment_category` and `rarity` by the `name` inside. -/
structure EquipmentDoc where
  name : String
  category_range : Option String
  damage : DamageDoc
  two_handed_damage : DamageDoc
  range : RangeDoc
  throw_range : RangeDoc
  properties : List (Option String)
  equipment_category : Option String
  rarity : Option String
  requires_attunement : Option Bool
  weight : Option ℚ
  cost : CostDoc
  desc : List (Option String)
  magical : Option Bool
  effects : List EffectDoc
  customId : Option String
deriving DecidableEq

/-- The required string path `name`: absent, null and the empty string fail
validation. -/
def castRequiredName (v : JVal) : Except BuildError String :=
  match v with
  | .undefined => .error .validationError
  | _ =>
    match castStringPath "" v with
    | .ok (some s) => if s == "" then .error .validationError else .ok s
    | .ok none => .error .validationError
    | .error e => .error e

/-- The cast of a `damage`-shaped nested path. -/
def castDamage (lit : JVal) (key : String) : Except BuildError DamageDoc := do
  let d ← nestedValue lit key
  let dice ← castStringPath "" (d.prop "damage_dice")
  let t ← nestedValue d "damage_type"
  let typeName ← castStringPath "" (t.prop "name")
  pure { damage_dice := dice, damage_type := typeName }

/-- The cast of a `range`-shaped nested path. -/
def castRange (lit : JVal) (key : String) : Except BuildError RangeDoc := do
  let r ← nestedValue lit key
  let normal ← castNumberPath (r.prop "normal")
  let long ← castNumberPath (r.prop "long")
  pure { normal := normal, long := long }

/-- The cast of the nested path `cost`. -/
def castCost (lit : JVal) : Except BuildError CostDoc := do
  let c ← nestedValue lit "cost"
  let quantity ← castNumberPath (c.prop "quantity")
  let unit ← castStringPath "" (c.prop "unit")
  pure { quantity := quantity, unit := unit }

/-- The cast of a nested path that holds only a `name`. -/
def castNamed (lit : JVal) (key : String) : Except BuildError (Option String) := do
  let n ← nestedValue lit key
  castStringPath "" (n.prop "name")

/-- The cast of the document array `properties`: every entry becomes a
subdocument with the one path `name`; other keys are dropped. -/
def castProperties (lit : JVal) : Except BuildError (List (Option String)) := do
  let entries ← documentArrayEntries lit "properties"
  entries.mapM (fun entry => castStringPath "" (entry.prop "name"))

/-- The cast of the document array `effects`: every entry becomes a
subdocument with the paths `effectName` and `effectDescription`; other keys
are dropped. -/
def castEffects (lit : JVal) : Except BuildError (List EffectDoc) := do
  let entries ← documentArrayEntries lit "effects"
  entries.mapM (fun entry => do
    let effectName ← castStringPath "" (entry.prop "effectName")
    let effectDescription ← castStringPath "" (entry.prop "effectDescription")
    pure { effectName := effectName, effectDescription := effectDescription })

/-- The document `new Equipment(lit)` as the schema of `equipmentSchema.js`
casts the constructor argument, or the failure that validation reports when
the document is saved. -/
def castEquipment (lit : JVal) : Except BuildError EquipmentDoc := do
  let name ← castRequiredName (lit.prop "name")
  let category_range ← castStringPath "" (lit.prop "category_range")
  let damage ← castDamage lit "damage"
  let two_handed_damage ← castDamage lit "two_handed_damage"
  let range ← castRange lit "range"
  let throw_range ← castRange lit "throw_range"
  let properties ← castProperties lit
  let equipment_category ← castNamed lit "equipment_category"
  let rarity ← castNamed lit "rarity"
  let requires_attunement ← castBooleanPath (lit.prop "requires_attunement")
  let weight ← castNumberPath (lit.prop "weight")
  let cost ← castCost lit
  let desc ← castStringArrayPath (lit.prop "desc")
  let magical ← castBooleanPath (lit.prop "magical")
  let effects ← castEffects lit
  let customId ← castStringPath "" (lit.prop "customId")
  pure { name := name, category_range := category_range, damage := damage,
         two_handed_damage := two_handed_damage, range := range, throw_range := throw_range,
         properties := properties, equipment_category := equipment_category, rarity := rarity,
         requires_attunement := requires_attunement, weight := weight, cost := cost,
         desc := desc, magical := magical, effects := effects, customId := customId }

/-! ## The field mapping of `saveFetchedEquipment` (lines 67 to 99) -/

/-- The call `v.map(f)`: defined on an array; on any other value `map` is not
a function. -/
def mapArray (v : JVal) (f : JVal → Except BuildError JVal) : Except BuildError JVal :=
  match v with
  | .arr items => (items.mapM f).map JVal.arr
  | _ => .error .typeError

/-- Lines 79 to 82: the `range` of the constructor argument.  The test
`typeof item.range === 'object'` also holds for null, on which reading
`.normal` throws. -/
def fetchedRange (item : JVal) : Except BuildError JVal := do
  let range := item.prop "range"
  let normal ←
    if range.typeof == "object" then range.member "normal"
    else if range.typeof == "string" then
      match range with
      | .str s => pure (splitSecond s)
      | _ => pure .undefined
    else pure .null
  let long ← if range.typeof == "object" then range.member "long" else pure .null
  pure (.obj [("normal", normal), ("long", long)])

/-- Line 87: `item.properties ? item.properties.map(prop => ({ name: prop })) : []`. -/
def fetchedProperties (item : JVal) : Except BuildError JVal :=
  if (item.prop "properties").truthy then
    mapArray (item.prop "properties") (fun prop => pure (.obj [("name", prop)]))
  else pure (.arr [])

/-- Line 98: `item.effects ? item.effects.map(effect => ({ name: effect.name || '',
description: effect.description || '' })) : []`. -/
def fetchedEffects (item : JVal) : Except BuildError JVal :=
  if (item.prop "effects").truthy then
    mapArray (item.prop "effects") (fun effect => do
      let name ← effect.member "name"
      let description ← effect.member "description"
      pure (.obj [("name", name.orElse (.str "")),
                  ("description", description.orElse (.str ""))]))
  else pure (.arr [])

/-- The object literal of lines 67 to 99, given the values of the four
entries whose evaluation can throw. -/
def fetchedObject (item : JVal) (customId : String) (name range properties effects : JVal) :
    JVal :=
  .obj [
    ("customId", .str customId),
    ("name", name),
    ("category_range",
      ((item.prop "category_range").orElse (item.prop "equipmentCategory")).orElse (.str "")),
    ("damage", .obj [
      ("damage_dice", (item.prop "damage").orElse (.str "")),
      ("damage_type", .obj [("name", (item.prop "damageType").orElse (.str ""))])]),
    ("two_handed_damage", .obj [
      ("damage_dice", ((item.prop "two_handed_damage").optProp "damage_dice").orElse (.str "")),
      ("damage_type", .obj [("name",
        (((item.prop "two_handed_damage").optProp "damage_type").optProp "name").orElse
          (.str ""))])]),
    ("range", range),
    ("throw_range", .obj [
      ("normal", ((item.prop "throw_range").optProp "normal").orElse .null),
      ("long", ((item.prop "throw_range").optProp "long").orElse .null)]),
    ("properties", properties),
    ("equipment_category", .obj [("name",
      (((item.prop "equipment_category").optProp "name").orElse
        (item.prop "equipmentCategory")).orElse (.str ""))]),
    ("rarity", (item.prop "rarity").orElse (.str "")),
    ("requires_attunement", (item.prop "requires_attunement").orElse (.bool false)),
    ("weight", (item.prop "weight").orElse .null),
    ("cost", .obj [
      ("quantity", ((item.prop "cost").optProp "quantity").orElse .null),
      ("unit", ((item.prop "cost").optProp "unit").orElse (.str ""))]),
    ("desc", (item.prop "desc").orElse (.arr [])),
    ("magical", (item.prop "magical").orElse (.bool false)),
    ("effects", effects)]

/-- The object literal handed to `new Equipment` in `saveFetchedEquipment`,
or the TypeError thrown while it is evaluated. -/
def fetchedLiteral (item : JVal) (customId : String) : Except BuildError JVal := do
  let name ← item.member "name"
  let range ← fetchedRange item
  let properties ← fetchedProperties item
  let effects ← fetchedEffects item
  pure (fetchedObject item customId name range properties effects)

/-- The record built by `saveFetchedEquipment` for a raw item, with the token
of `generateUniqueId()`: the name test of line 58, the object literal, and the
schema cast.  Any failure makes `saveFetchedEquipment` throw. -/
def fetchedRecord (item : JVal) (customId : String) : Except BuildError EquipmentDoc := do
  let name ← item.member "name"
  if !name.truthy then .error .nameRequired
  else
    let lit ← fetchedLiteral item customId
    castEquipment lit

/-! ## The field mapping of `createEquipment` (lines 124 to 156) -/

/-- Line 144: `properties ? properties.map(prop => ({ name: prop.name })) : []`. -/
def createdProperties (body : JVal) : Except BuildError JVal :=
  if (body.prop "properties").truthy then
    mapArray (body.prop "properties") (fun prop => do
      let name ← prop.member "name"
      pure (.obj [("name", name)]))
  else pure (.arr [])

/-- Line 155: `effects ? effects.map(effect => ({ effectName: effect.effectName || '',
effectDescription: effect.effectDescription || '' })) : []`. -/
def createdEffects (body : JVal) : Except BuildError JVal :=
  if (body.prop "effects").truthy then
    mapArray (body.prop "effects") (fun effect => do
      let effectName ← effect.member "effectName"
      let effectDescription ← effect.member "effectDescription"
      pure (.obj [("effectName", effectName.orElse (.str "")),
                  ("effectDescription", effectDescription.orElse (.str ""))]))
  else pure (.arr [])

/-- The object literal of lines 124 to 156, given the values of the three
entries whose evaluation can throw. -/
def createdObject (body : JVal) (customId : String) (name properties effects : JVal) : JVal :=
  .obj [
    ("customId", .str customId),
    ("name", name),
    ("category_range", body.prop "category_range"),
    ("damage", .obj [
      ("damage_dice", ((body.prop "damage").optProp "damage_dice").orElse (.str "")),
      ("damage_type", .obj [("name",
        (((body.prop "damage").optProp "damage_type").optProp "name").orElse (.str ""))])]),
    ("two_handed_damage", .obj [
      ("damage_dice", ((body.prop "two_handed_damage").optProp "damage_dice").orElse (.str "")),
      ("damage_type", .obj [("name",
        (((body.prop "two_handed_damage").optProp "damage_type").optProp "name").orElse
          (.str ""))])]),
    ("range", .obj [
      ("normal", ((body.prop "range").optProp "normal").orElse .null),
      ("long", ((body.prop "range").optProp "long").orElse .null)]),
    ("throw_range", .obj [
      ("normal", ((body.prop "throw_range").optProp "normal").orElse .null),
      ("long", ((body.prop "throw_range").optProp "long").orElse .null)]),
    ("properties", properties),
    ("equipment_category", .obj [("name",
      ((body.prop "equipment_category").optProp "name").orElse (.str ""))]),
    ("rarity", .obj [("name", ((body.prop "rarity").optProp "name").orElse (.str ""))]),
    ("requires_attunement", body.prop "requires_attunement"),
    ("weight", body.prop "weight"),
    ("cost", .obj [
      ("quantity", ((body.prop "cost").optProp "quantity").orElse .null),
      ("unit", ((body.prop "cost").optProp "unit").orElse (.str ""))]),
    ("desc", body.prop "desc"),
    ("magical", body.prop "magical"),
    ("effects", effects)]

/-- The object literal handed to `new Equipment` in `createEquipment`, or the
TypeError thrown while the body is destructured and the literal evaluated. -/
def createdLiteral (body : JVal) (customId : String) : Except BuildError JVal := do
  let name ← body.member "name"
  let properties ← createdProperties body
  let effects ← createdEffects body
  pure (createdObject body customId name properties effects)

/-- The record built by `createEquipment` for a request body whose name passed
the test of line 119: the object literal and the schema cast. -/
def createdRecord (body : JVal) (customId : String) : Except BuildError EquipmentDoc := do
  let lit ← createdLiteral body customId
  castEquipment lit

/-- A string path as JSON. -/
def jsonOfString : Option String → JVal
  | none => .null
  | some s => .str s

/-- A number path as JSON. -/
def jsonOfNumber : Option ℚ → JVal
  | none => .null
  | some q => .num q

/-- A boolean path as JSON. -/
def jsonOfBool : Option Bool → JVal
  | none => .null
  | some b => .bool b

/-- A `damage`-shaped nested path as JSON. -/
def DamageDoc.toJson (d : DamageDoc) : JVal :=
  .obj [("damage_dice", jsonOfString d.damage_dice),
        ("damage_type", .obj [("name", jsonOfString d.damage_type)])]

/-- A `range`-shaped nested path as JSON. -/
def RangeDoc.toJson (r : RangeDoc) : JVal :=
  .obj [("normal", jsonOfNumber r.normal), ("long", jsonOfNumber r.long)]

/-- The canonical record as the JSON object a response carries (identity
fields left out). -/
def EquipmentDoc.toJson (d : EquipmentDoc) : JVal :=
  .obj [
    ("name", .str d.name),
    ("category_range", jsonOfString d.category_range),
    ("damage", d.damage.toJson),
    ("two_handed_damage", d.two_handed_damage.toJson),
    ("range", d.range.toJson),
    ("throw_range", d.throw_range.toJson),
    ("properties", .arr (d.properties.map (fun n => .obj [("name", jsonOfString n)]))),
    ("equipment_category", .obj [("name", jsonOfString d.equipment_category)]),
    ("rarity", .obj [("name", jsonOfString d.rarity)]),
    ("requires_attunement", jsonOfBool d.requires_attunement),
    ("weight", jsonOfNumber d.weight),
    ("cost", .obj [("quantity", jsonOfNumber d.cost.quantity),
                   ("unit", jsonOfString d.cost.unit)]),
    ("desc", .arr (d.desc.map jsonOfString)),
    ("magical", jsonOfBool d.magical),
    ("effects", .arr (d.effects.map (fun e =>
      .obj [("effectName", jsonOfString e.effectName),
            ("effectDescription", jsonOfString e.effectDescription)]))),
    ("customId", jsonOfString d.customId)]

/-! ## The equipment controller -/

/-- The JSON body of a response of the equipment controller: a message, the
record just created, or the stored document after an update. -/
inductive EquipmentBody where
  | message (m : String) : EquipmentBody
  | created (doc : EquipmentDoc) : EquipmentBody
  | updated (e : Equipment) : EquipmentBody
deriving DecidableEq

/-- An HTTP response of the equipment controller. -/
structure EquipmentResponse where
  status : Nat
  body : EquipmentBody
deriving DecidableEq

/-- The controller `createEquipment` of `equipmentController.js`.  A body that
cannot be destructured, a TypeError in the literal, a validation failure and a
refused insert are all caught and answered 400. -/
def createEquipment (s : Store) (body : JVal) (fr : Fresh) : EquipmentResponse × Store :=
  match body.member "name" with
  | .error _ => ({ status := 400, body := .message "Failed to create new equipment" }, s)
  | .ok name =>
    if !name.truthy then ({ status := 400, body := .message "Name is required" }, s)
    else
      match createdRecord body fr.customId with
      | .error _ => ({ status := 400, body := .message "Failed to create new equipment" }, s)
      | .ok doc =>
        match Equipment.save s.equipment
            { _id := fr.equipmentOid, customId := fr.customId, name := doc.name } with
        | .error _ =>
          ({ status := 400, body := .message "Failed to create new equipment" }, s)
        | .ok db => ({ status := 201, body := .created doc }, { s with equipment := db })

/-- The statement `delete v.key`. -/
def JVal.delete (v : JVal) (key : String) : JVal :=
  match v with
  | .obj fields => .obj (fields.filter (fun p => !(p.1 == key)))
  | w => w

/-- The patch that `updateEquipment` hands to the store (lines 216 to 221):
`cost` is deleted when it is truthy with falsy `quantity` and falsy `unit`,
and `_id` is deleted. -/
def cleanedPatch (updatedData : JVal) : JVal :=
  let cost := updatedData.prop "cost"
  let data :=
    if cost.truthy && !(cost.prop "quantity").truthy && !(cost.prop "unit").truthy then
      updatedData.delete "cost"
    else updatedData
  data.delete "_id"

/-- The projection of a patch on the modelled fields of the store, as the
schema casts them; a cast failure makes the update throw.  The cast of the
descriptive fields of the patch is outside this projection. -/
def patchOfData (data : JVal) : Except BuildError EquipmentPatch := do
  let name ←
    match data.prop "name" with
    | .undefined => pure JsString.undefined
    | v =>
      match castStringPath "" v with
      | .ok (some s) => pure (JsString.str s)
      | .ok none => pure JsString.null
      | .error e => .error e
  let customId ←
    match data.prop "customId" with
    | .undefined => pure none
    | .null => .error .notModelled
    | v =>
      match castStringPath "" v with
      | .ok c => pure c
      | .error e => .error e
  pure { name := name, customId := customId }

/-- The controller `updateEquipment` of `equipmentController.js`. -/
def updateEquipment (s : Store) (id : ObjectId) (updatedData : JVal) :
    EquipmentResponse × Store :=
  match updatedData.member "name" with
  | .error _ => ({ status := 500, body := .message "Failed to update equipment" }, s)
  | .ok name =>
    if !name.truthy then ({ status := 400, body := .message "Name is required" }, s)
    else if (updatedData.prop "cost").truthy &&
        !(((updatedData.prop "cost").prop "quantity").typeof == "undefined") &&
        !(((updatedData.prop "cost").prop "quantity").typeof == "number") then
      ({ status := 400, body := .message "Cost quantity must be a number" }, s)
    else if !((updatedData.prop "weight").typeof == "undefined") &&
        !((updatedData.prop "weight").typeof == "number") then
      ({ status := 400, body := .message "Weight must be a number" }, s)
    else
      match patchOfData (cleanedPatch updatedData) with
      | .error _ => ({ status := 500, body := .message "Failed to update equipment" }, s)
      | .ok patch =>
        match Equipment.findByIdAndUpdate s.equipment id patch with
        | .error _ => ({ status := 500, body := .message "Failed to update equipment" }, s)
        | .ok (none, _) => ({ status := 404, body := .message "Equipment not found" }, s)
        | .ok (some updatedEquipment, db) =>
          ({ status := 200, body := .updated updatedEquipment }, { s with equipment := db })

/-- The controller `updateInventoryItem` on the JSON value of `equipmentData`
(lines 127 to 141).  A falsy value skips the equipment step.  An object is
handed to `Equipment.findByIdAndUpdate` as it came, so that only the schema
casts it; a cast failure is thrown after the inventory update was persisted,
and answered 400.  Two bodies are left out (`none`): an `equipmentData` that
carries `_id`, which the store refuses or accepts by comparing it with the
stored id, and a truthy `equipmentData` that is not an object. -/
def updateInventoryItemBody (s : Store) (id : ObjectId) (quantity : JsNumber)
    (customizations : JsString) (equipmentData : JVal) : Option (Response × Store) :=
  if !equipmentData.truthy then some (updateInventoryItem s id quantity customizations none)
  else
    match equipmentData with
    | .obj fields =>
      if (fields.lookup "_id").isSome then none
      else
        match patchOfData (.obj fields) with
        | .ok patch => some (updateInventoryItem s id quantity customizations (some patch))
        | .error _ =>
          match UserInventory.findByIdAndUpdate s.inventory id quantity customizations with
          | .ok (some _, inv) =>
            some ({ status := 400, item := none,
                    message := some "Failed to update inventory item" },
                  { s with inventory := inv })
          | _ => some (updateInventoryItem s id quantity customizations none)
    | _ => none

/-! ## The front end's mapping of a catalog item (`Inventory.jsx`, lines 8 to 52) -/

/-- The expression `parseInt(v) || null` for a string or an absent value:
leading whitespace and a sign are skipped and the longest run of decimal
digits is read; no digits, or the value zero, give null.  A hexadecimal
prefix and a run of more than 15 digits are not modelled. -/
def parseIntOrNull : JVal → Except BuildError JVal
  | .undefined => .ok .null
  | .str s =>
    let cs := s.data.dropWhile isJsWhitespace
    let negative : Bool :=
      match cs with
      | '-' :: _ => true
      | _ => false
    let unsigned : List Char :=
      match cs with
      | '-' :: rest => rest
      | '+' :: rest => rest
      | rest => rest
    match unsigned with
    | '0' :: 'x' :: _ => .error .notModelled
    | '0' :: 'X' :: _ => .error .notModelled
    | _ =>
      let digits := unsigned.takeWhile Char.isDigit
      if digits.length > 15 then .error .notModelled
      else
        match digitsValue digits with
        | none => .ok .null
        | some n =>
          if n == 0 then .ok .null
          else .ok (.num (if negative then -(n : ℚ) else (n : ℚ)))
  | _ => .error .notModelled

/-- Line 16: `item.damage ? item.damage.damage_type.name : ''`. -/
def mappedDamageType (item : JVal) : Except BuildError JVal :=
  if (item.prop "damage").truthy then ((item.prop "damage").prop "damage_type").member "name"
  else pure (.str "")

/-- Lines 17 to 23: the `range` of the mapped item. -/
def mappedRange (item : JVal) : Except BuildError JVal :=
  let range := item.prop "range"
  if range.typeof == "object" then do
    let normal ← range.member "normal"
    let long ← range.member "long"
    pure (.obj [("normal", normal.orElse .null), ("long", long.orElse .null)])
  else do
    let normal ←
      match range with
      | .str s => parseIntOrNull (splitSecond s)
      | _ => pure .null
    pure (.obj [("normal", normal), ("long", .null)])

/-- Line 31: `item.properties ? item.properties.map(prop => prop.name) : []`. -/
def mappedProperties (item : JVal) : Except BuildError JVal :=
  if (item.prop "properties").truthy then
    mapArray (item.prop "properties") (fun prop => prop.member "name")
  else pure (.arr [])

/-- Lines 47 to 50: the `effects` of the mapped item. -/
def mappedEffects (item : JVal) : Except BuildError JVal :=
  if (item.prop "effects").truthy then
    mapArray (item.prop "effects") (fun effect => do
      let effectName ← effect.member "effectName"
      let effectDescription ← effect.member "effectDescription"
      pure (.obj [("effectName", effectName.orElse (.str "")),
                  ("effectDescription", effectDescription.orElse (.str ""))]))
  else pure (.arr [])

/-- The function `mapFetchedItemToUserItem(item)` of `Inventory.jsx`: the
object it returns, or the TypeError it throws.  The value of `new Date()` is
supplied by the environment, in the text form in which it is sent. -/
def mapFetchedItemToUserItem (item : JVal) (now : String) : Except BuildError JVal := do
  let name ← item.member "name"
  let damageType ← mappedDamageType item
  let range ← mappedRange item
  let properties ← mappedProperties item
  let effects ← mappedEffects item
  pure (.obj [
    ("name", name),
    ("desc", match item.prop "desc" with
      | .arr items => .arr items
      | _ => .arr []),
    ("equipmentType",
      if (item.prop "equipment_category").truthy then (item.prop "equipment_category").prop "name"
      else .str ""),
    ("equipmentCategory", (item.prop "category_range").orElse (.str "")),
    ("weaponCategory", (item.prop "weapon_category").orElse (.str "")),
    ("damage",
      if (item.prop "damage").truthy then (item.prop "damage").prop "damage_dice" else .str ""),
    ("damageType", damageType),
    ("range", range),
    ("throw_range",
      if (item.prop "throw_range").truthy then
        .obj [("normal", ((item.prop "throw_range").prop "normal").orElse .null),
              ("long", ((item.prop "throw_range").prop "long").orElse .null)]
      else .obj [("normal", .null), ("long", .null)]),
    ("properties", properties),
    ("cost",
      if (item.prop "cost").truthy then
        .obj [("quantity", ((item.prop "cost").prop "quantity").orElse .null),
              ("unit", ((item.prop "cost").prop "unit").orElse (.str ""))]
      else .obj [("quantity", .str ""), ("unit", .str "")]),
    ("weight", (item.prop "weight").orElse .null),
    ("rarity",
      if (item.prop "rarity").truthy then (item.prop "rarity").prop "name" else .str ""),
    ("acquiredDate", .str now),
    ("customizations", .str ""),
    ("quantity", .num 1),
    ("equipmentId", item.prop "index"),
    ("requires_attunement", (item.prop "requires_attunement").orElse (.bool false)),
    ("magical", (item.prop "magical").orElse (.bool false)),
    ("effects", effects)])

/-- The mapped item as `JSON.stringify` sends it to `POST /inventory/add`: an
`undefined` entry of an array is written as null.  A property whose value is
`undefined` is left out of the text, which reads the same as keeping it. -/
def sentItem (userItem : JVal) : JVal :=
  match userItem with
  | .obj fields =>
    .obj (fields.map (fun p =>
      (p.1,
        match p.2 with
        | .arr items => .arr (items.map (fun v =>
            match v with
            | .undefined => .null
            | w => w))
        | w => w)))
  | w => w

/-! ## The claims in the words of the specification -/

/-- Replace every maximal run of elements satisfying `p` by one `filler`: at
an element of a run the whole run is dropped and one filler is written. -/
def replaceRuns {α : Type} (p : α → Bool) (filler : α) : List α → List α
  | [] => []
  | c :: cs =>
    if p c then filler :: replaceRuns p filler (cs.dropWhile p)
    else c :: replaceRuns p filler cs
termination_by l => l.length
decreasing_by
  all_goals simp_wf
  exact Nat.lt_succ_of_le (List.Sublist.length_le (List.dropWhile_sublist _))

/-- Following the spec's words for the slug: every maximal run of whitespace
is replaced by a single hyphen. -/
def hyphenateRuns (l : List Char) : List Char :=
  replaceRuns isJsWhitespace '-' l

/-- Following the spec's words for the slug: the query lower-cased, with every
maximal run of whitespace replaced by a single hyphen. -/
def slugBySpec (toLowerCase : String → String) (q : String) : String :=
  String.mk (hyphenateRuns (toLowerCase q).data)

/-- A text spelled out as a first word followed by gaps, each gap with the
word after it. -/
def spelled (first : List Char) (rest : List (List Char × List Char)) : List Char :=
  first ++ rest.foldr (fun p acc => p.1 ++ (p.2 ++ acc)) []

/-- Following the spec's words for the slug, on a text given by its words:
the same words with one hyphen in the place of every gap. -/
def hyphenated (first : List Char) (rest : List (List Char × List Char)) : List Char :=
  first ++ rest.foldr (fun p acc => '-' :: (p.2 ++ acc)) []

/-- Whether the gaps are the maximal runs of whitespace of the text: every gap
is a non-empty run of whitespace, every word is free of whitespace, and a word
between two gaps is not empty. -/
def maximalRuns : List (List Char × List Char) → Bool
  | [] => true
  | p :: ps =>
    !p.1.isEmpty && p.1.all isJsWhitespace && p.2.all (fun c => !isJsWhitespace c) &&
      (ps.isEmpty || !p.2.isEmpty) && maximalRuns ps

/-- Whether a patch value is present, that is, not `undefined`. -/
def JVal.present : JVal → Bool
  | .undefined => false
  | _ => true

/-- Whether a patch value is a number. -/
def JVal.isNumber : JVal → Bool
  | .num _ => true
  | _ => false

/-- Following the spec's words for the type check of `updateEquipment`:
`cost.quantity` is present and not a number, or `weight` is present and not a
number. -/
def badTypes (patch : JVal) : Bool :=
  (((patch.prop "cost").optProp "quantity").present &&
    !((patch.prop "cost").optProp "quantity").isNumber) ||
  ((patch.prop "weight").present && !(patch.prop "weight").isNumber)

/-- Following the spec's words for `updateItem`: the inventory-level fields
are updated, and a present equipment patch is applied to the referenced
Equipment record by the Store's update, that is, the way `updateEquipment`
applies it.  This is the Equipment collection that leaves. -/
def equipmentAfterUpdateBySpec (s : Store) (id : ObjectId) (quantity : JsNumber)
    (customizations : JsString) (equipmentData : JVal) : List Equipment :=
  match UserInventory.findByIdAndUpdate s.inventory id quantity customizations with
  | .ok (some inventoryItem, inv) =>
    if equipmentData.truthy then
      (updateEquipment { s with inventory := inv } inventoryItem.equipmentId
        equipmentData).2.equipment
    else s.equipment
  | _ => s.equipment

/-! ## Predicates on the store -/

/-- The inventory items of user `u` whose Equipment document exists and is
named `n`, in store order. -/
def itemsNamed (s : Store) (u : UserId) (n : String) : List InventoryItem :=
  (UserInventory.findByUser s.inventory u).filter (fun j =>
    match Equipment.findById s.equipment j.equipmentId with
    | some d => d.name == n
    | none => false)

/-- The quantity invariant of the data model: every stored quantity is an
integer at least 1. -/
def quantitiesValid (s : Store) : Prop :=
  ∀ j ∈ s.inventory, quantityValid j.quantity = true

/-- Referential integrity: every inventory item references an Equipment
document that exists in the store. -/
def refsResolve (s : Store) : Prop :=
  ∀ j ∈ s.inventory, (Equipment.findById s.equipment j.equipmentId).isSome = true

/-! ## Concrete inputs used below -/

/-- A catalog item as the front end sends it: a name and the catalog index as
`equipmentId`. -/
def longsword : RawItem := { name := .str "Longsword", equipmentId := .str "longsword" }

/-- The environment of a first request. -/
def firstFresh : Fresh :=
  { customId := "3f9a1c0b7d2e4a5f6b8c", equipmentOid := 1, inventoryOid := 1, now := 100 }

/-- The environment of a second request. -/
def secondFresh : Fresh :=
  { customId := "a1b2c3d4e5f60718293a", equipmentOid := 2, inventoryOid := 2, now := 200 }

/-- The empty store. -/
def emptyStore : Store := { equipment := [], inventory := [] }

/-- The Equipment document that the first request stores. -/
def storedLongsword : Equipment := { _id := 1, customId := "3f9a1c0b7d2e4a5f6b8c", name := "Longsword" }

/-- An inventory item of user 7 referencing document 1. -/
def itemOfSeven : InventoryItem :=
  { _id := 1, user := 7, equipmentId := 1, quantity := 3, customizations := none, acquiredDate := 100 }

/-- An inventory item of user 8 referencing the same document 1. -/
def itemOfEight : InventoryItem :=
  { _id := 2, user := 8, equipmentId := 1, quantity := 1, customizations := none, acquiredDate := 150 }

/-- One Equipment document referenced by the items of two users. -/
def sharedStore : Store := { equipment := [storedLongsword], inventory := [itemOfSeven, itemOfEight] }

/-- An inventory item whose Equipment document is gone. -/
def danglingStore : Store := { equipment := [], inventory := [itemOfSeven] }

/-- A lower-casing that acts on the letters A to Z: what `toLowerCase` does
to a text of ASCII characters. -/
def asciiLower (s : String) : String :=
  String.mk (s.data.map Char.toLower)

/-- The outcome of the catalog in which only the equipment endpoint knows the
slug `longsword`. -/
def onlyEquipmentKnows (url : String) : Settled :=
  if url == "https://www.dnd5eapi.co/api/equipment/longsword" then .fulfilled "longsword payload"
  else .rejected "Request failed with status code 404"

/-- The outcome of the catalog in which every endpoint answers 404. -/
def nothingKnown (_url : String) : Settled :=
  .rejected "Request failed with status code 404"

/-- The environment of a third request. -/
def thirdFresh : Fresh :=
  { customId := "0c1d2e3f4a5b6c7d8e9f", equipmentOid := 3, inventoryOid := 3, now := 300 }

/-- An inventory item of user 7 whose Equipment document 99 does not exist. -/
def orphanOfSeven : InventoryItem :=
  { _id := 5, user := 7, equipmentId := 99, quantity := 1, customizations := none,
    acquiredDate := 50 }

/-- User 7 holds an item whose Equipment document is gone, ahead of a
Longsword item. -/
def orphanFirstStore : Store :=
  { equipment := [storedLongsword], inventory := [orphanOfSeven, itemOfSeven] }

/-- User 7 holds nothing but an item whose Equipment document is gone. -/
def orphanOnlyStore : Store := { equipment := [], inventory := [orphanOfSeven] }

/-- A raw item that carries the stored token as its `equipmentId`. -/
def knownLongsword : RawItem :=
  { name := .str "Longsword", equipmentId := .str "3f9a1c0b7d2e4a5f6b8c" }

/-- An outcome of the catalog that differs from `nothingKnown` only on a URL
that is not an endpoint. -/
def elsewhereKnown (url : String) : Settled :=
  if url == "https://www.dnd5eapi.co/api/spells/long-sword" then .fulfilled "spell payload"
  else .rejected "Request failed with status code 404"

/-- A raw item without a name. -/
def namelessItem : RawItem := { name := .undefined, equipmentId := .str "longsword" }

/-- A store that already holds the document of `firstFresh`, so that a save
under the same token is refused. -/
def takenStore : Store := { equipment := [storedLongsword], inventory := [] }

/-- A patch with a name and a weight sent as text. -/
def textWeightPatch : JVal := .obj [("name", .str "Rope"), ("weight", .str "5")]

/-- A raw item whose range is the legacy string `Normal: 30`. -/
def longbowItem : JVal := .obj [("name", .str "Longbow"), ("range", .str "Normal: 30")]

/-- The canonical record with every optional path at its default. -/
def defaultRecord (name customId : String) : EquipmentDoc :=
  { name := name, category_range := some "",
    damage := { damage_dice := some "", damage_type := some "" },
    two_handed_damage := { damage_dice := some "", damage_type := some "" },
    range := { normal := none, long := none },
    throw_range := { normal := none, long := none },
    properties := [], equipment_category := some "", rarity := some "",
    requires_attunement := some false, weight := none,
    cost := { quantity := none, unit := some "" },
    desc := [], magical := some false, effects := [], customId := some customId }

/-- An input whose range is the object `{ normal: 30, long: 120 }`. -/
def shortbowBody : JVal :=
  .obj [("name", .str "Shortbow"),
        ("range", .obj [("normal", .num 30), ("long", .num 120)])]

/-- An input whose range is the object `{ normal: 0, long: 120 }`. -/
def zeroRangeBody : JVal :=
  .obj [("name", .str "Net"), ("range", .obj [("normal", .num 0), ("long", .num 120)])]

/-- An input whose properties are strings, the shape the front end sends to
`POST /inventory/add`. -/
def whipWithNames : JVal :=
  .obj [("name", .str "Whip"), ("properties", .arr [.str "Finesse", .str "Reach"])]

/-- An input whose properties are objects bearing a name, the shape of the
form and of the catalog. -/
def whipWithObjects : JVal :=
  .obj [("name", .str "Whip"),
        ("properties", .arr [.obj [("name", .str "Finesse")], .obj [("name", .str "Reach")]])]

/-- An input with one effect, in the field names of the schema and of the
front end. -/
def wandItem : JVal :=
  .obj [("name", .str "Wand of Light"),
        ("effects", .arr [.obj [("effectName", .str "Glow"),
                                ("effectDescription", .str "Sheds light")]])]

/-- An input whose range is null. -/
def nullRangeItem : JVal := .obj [("name", .str "Dagger"), ("range", .null)]

/-- An input that holds nothing but a name. -/
def bareItem : JVal := .obj [("name", .str "Longsword")]

/-- A partial update that carries no name: a weight and a cost, each well typed. -/
def namelessPatch : JVal :=
  .obj [("weight", .num 5), ("cost", .obj [("quantity", .num 2), ("unit", .str "gp")])]

/-- A patch whose payload names another `_id` than the request path. -/
def idPatch : JVal :=
  .obj [("_id", .str "64f0c0ffee0000000000beef"), ("name", .str "Greatsword")]

/-- A patch that sets the cost to a quantity of zero, without a unit. -/
def zeroCostPatch : JVal :=
  .obj [("name", .str "Rope"), ("cost", .obj [("quantity", .num 0)])]

/-- A patch whose cost has neither a quantity nor a unit. -/
def emptyCostPatch : JVal := .obj [("name", .str "Rope"), ("cost", .obj [])]

/-- An equipment patch that renames the record. -/
def renamePatch : EquipmentPatch := { name := .str "Greatsword", customId := none }

/-- An equipment patch whose name is the empty string. -/
def emptyNamePatch : EquipmentPatch := { name := .str "", customId := none }

/-- The Equipment document that a second request stores. -/
def secondLongsword : Equipment :=
  { _id := 2, customId := "a1b2c3d4e5f60718293a", name := "Longsword" }

/-- Two Equipment documents, the first referenced by an item of user 7. -/
def twoRecordStore : Store :=
  { equipment := [storedLongsword, secondLongsword], inventory := [itemOfSeven] }

/-- An equipment patch that sets the `customId` of the other document. -/
def clashPatch : EquipmentPatch := { name := .undefined, customId := some "a1b2c3d4e5f60718293a" }

/-- A patch without a name that sets the `customId`. -/
def tokenPatch : JVal := .obj [("customId", .str "0c1d2e3f4a5b6c7d8e9f")]

/-- The catalog entry of the longsword, as the catalog serves it. -/
def longswordCatalog : JVal :=
  .obj [("index", .str "longsword"), ("name", .str "Longsword"),
        ("equipment_category", .obj [("index", .str "weapon"), ("name", .str "Weapon"),
          ("url", .str "/api/equipment-categories/weapon")]),
        ("weapon_category", .str "Martial"), ("weapon_range", .str "Melee"),
        ("category_range", .str "Martial Melee"),
        ("cost", .obj [("quantity", .num 15), ("unit", .str "gp")]),
        ("damage", .obj [("damage_dice", .str "1d8"),
          ("damage_type", .obj [("index", .str "slashing"), ("name", .str "Slashing"),
            ("url", .str "/api/damage-types/slashing")])]),
        ("range", .obj [("normal", .num 5)]),
        ("weight", .num 3),
        ("properties", .arr [.obj [("index", .str "versatile"), ("name", .str "Versatile"),
          ("url", .str "/api/weapon-properties/versatile")]]),
        ("url", .str "/api/equipment/longsword")]

/-- The catalog entry of a magic item, which has a rarity and no
`category_range`. -/
def cloakCatalog : JVal :=
  .obj [("index", .str "cloak-of-protection"), ("name", .str "Cloak of Protection"),
        ("equipment_category", .obj [("index", .str "wondrous-items"),
          ("name", .str "Wondrous Items"),
          ("url", .str "/api/equipment-categories/wondrous-items")]),
        ("rarity", .obj [("name", .str "Uncommon")]),
        ("desc", .arr [.str "Wondrous item, uncommon (requires attunement)"]),
        ("url", .str "/api/magic-items/cloak-of-protection")]

/-- A JSON patch that keeps the name and sets the `customId` of the other
document. -/
def clashData : JVal :=
  .obj [("name", .str "Longsword"), ("customId", .str "a1b2c3d4e5f60718293a")]

/-! ## Equipment store: find-or-create -/

/-- When a stored document already carries the item's `equipmentId` as its
`customId`, `saveFetchedEquipment` returns that document and writes nothing. -/
theorem saveFetchedEquipment_found (s : Store) (n k : String) (e : Equipment) (fr : Fresh)
    (hn : n ≠ "") (hfind : Equipment.findOne s.equipment (.str k) = some e) :
    saveFetchedEquipment s (some { name := .str n, equipmentId := .str k }) fr = .ok (e, s) := by
  simp [saveFetchedEquipment, hn, hfind]

/-- The two ways `saveFetchedEquipment` succeeds: it returns a stored document
and leaves the store alone, or it appends the returned document, whose `_id`
was not in use, to the Equipment collection. -/
theorem saveFetchedEquipment_ok_cases {s s1 : Store} {item : Option RawItem} {fr : Fresh}
    {e : Equipment} (h : saveFetchedEquipment s item fr = .ok (e, s1)) :
    (e ∈ s.equipment ∧ s1 = s) ∨
    ((∀ d ∈ s.equipment, d._id ≠ e._id) ∧
      s1 = { equipment := s.equipment ++ [e], inventory := s.inventory }) := by
  unfold saveFetchedEquipment at h
  split at h
  · cases h
  · split at h
    · split at h
      · cases h
      · split at h
        · rename_i eq heq
          cases h
          left
          refine ⟨?_, rfl⟩
          unfold Equipment.findOne at heq
          split at heq
          · exact List.mem_of_find?_eq_some heq
          · cases heq
        · right
          simp only [Equipment.save] at h
          split at h
          · rename_i heq
            cases h
            split at heq
            · cases heq
            · rename_i hany
              cases heq
              refine ⟨?_, rfl⟩
              intro d hd hid
              apply hany
              simp only [List.any_eq_true, Bool.or_eq_true, beq_iff_eq]
              exact ⟨d, hd, Or.inl hid⟩
          · cases h
    · cases h

/-- The function `saveFetchedEquipment` never touches the inventory collection. -/
theorem saveFetchedEquipment_inventory {s s1 : Store} {item : Option RawItem} {fr : Fresh}
    {e : Equipment} (h : saveFetchedEquipment s item fr = .ok (e, s1)) :
    s1.inventory = s.inventory := by
  rcases saveFetchedEquipment_ok_cases h with ⟨_, rfl⟩ | ⟨_, rfl⟩ <;> rfl

/-- The defect behind C1 in general.  When no stored `customId` equals the
item's `equipmentId` `k` and the generated token is not `k` either, a first
successful call stores a new document, and a second call with the same item
(its generated token and ObjectId unused) does not find that document: it
stores and returns another one, of different identity. -/
theorem saveFetchedEquipment_creates_again (s s1 : Store) (n k : String) (fr1 fr2 : Fresh)
    (e1 : Equipment) (hn : n ≠ "")
    (hk : ∀ d ∈ s.equipment, d.customId ≠ k) (htok : fr1.customId ≠ k)
    (h1 : saveFetchedEquipment s (some { name := .str n, equipmentId := .str k }) fr1 =
      .ok (e1, s1))
    (hfresh : ∀ d ∈ s1.equipment, d._id ≠ fr2.equipmentOid ∧ d.customId ≠ fr2.customId) :
    saveFetchedEquipment s1 (some { name := .str n, equipmentId := .str k }) fr2 =
      .ok ({ _id := fr2.equipmentOid, customId := fr2.customId, name := n },
           { equipment := s1.equipment ++
               [{ _id := fr2.equipmentOid, customId := fr2.customId, name := n }],
             inventory := s1.inventory }) ∧
    e1._id ≠ fr2.equipmentOid := by
  have hnone : Equipment.findOne s.equipment (.str k) = none := by
    simp only [Equipment.findOne, List.find?_eq_none]
    intro d hd
    simpa using hk d hd
  have hmem : e1 ∈ s1.equipment ∧ e1.customId = fr1.customId ∧
      s1.equipment = s.equipment ++ [e1] := by
    simp only [saveFetchedEquipment, hnone, Equipment.save] at h1
    have hne : (n == "") = false := by simpa using hn
    simp only [hne, Bool.false_eq_true, if_false] at h1
    by_cases hdup : (s.equipment.any
        fun d => d._id == fr1.equipmentOid || d.customId == fr1.customId) = true
    · simp [hdup] at h1
    · simp only [hdup, if_false] at h1
      cases h1
      simp
  obtain ⟨he1, hc1, hs1⟩ := hmem
  have hnone1 : Equipment.findOne s1.equipment (.str k) = none := by
    simp only [Equipment.findOne, List.find?_eq_none, hs1]
    intro d hd
    rcases List.mem_append.mp hd with hold | hnew
    · simpa using hk d hold
    · rw [List.mem_singleton] at hnew
      rw [hnew, beq_iff_eq, hc1]
      exact htok
  have hany : (s1.equipment.any
      fun d => d._id == fr2.equipmentOid || d.customId == fr2.customId) = false := by
    rw [List.any_eq_false]
    intro d hd
    have := hfresh d hd
    simp [this.1, this.2]
  refine ⟨?_, (hfresh e1 he1).1⟩
  have hne : (n == "") = false := by simpa using hn
  simp [saveFetchedEquipment, hnone1, Equipment.save, hany, hne]

/-- C1, evaluated at the failing input.  On the empty store, two successive
calls of `saveFetchedEquipment` with the same raw item (name `Longsword`,
external identifier `longsword`) both succeed, return Equipment documents of
different identity, and the second call adds a second document: the lookup
key `item.equipmentId` is never the `customId` that the first call stored. -/
theorem saveFetchedEquipment_repeat_duplicates :
    ∃ e1 s1 e2 s2,
      saveFetchedEquipment emptyStore (some longsword) firstFresh = .ok (e1, s1) ∧
      saveFetchedEquipment s1 (some longsword) secondFresh = .ok (e2, s2) ∧
      e1._id ≠ e2._id ∧ e1.name = e2.name ∧
      s1.equipment.length = 1 ∧ s2.equipment.length = 2 :=
  ⟨_, _, _, _, rfl, rfl, by decide, rfl, rfl, rfl⟩

/-! ## Quantity update -/

/-- C7.  For every store, every item id and every number below 1,
`updateItemQuantity` answers 400 and returns the store as it was. -/
theorem updateItemQuantity_below_one (s : Store) (id : ObjectId) (q : ℚ) (hq : q < 1) :
    updateItemQuantity s id (.num q) =
      ({ status := 400, item := none, message := some "Quantity must be at least 1" }, s) := by
  simp [updateItemQuantity, JsNumber.ltOne, hq]

/-- C7 at quantity 0 on a store holding one item of quantity 3. -/
theorem updateItemQuantity_below_one_witness :
    (0 : ℚ) < 1 ∧
    updateItemQuantity
        { equipment := [⟨1, "3f9a1c0b7d2e4a5f6b8c", "Longsword"⟩],
          inventory := [⟨1, 7, 1, 3, none, 100⟩] } 1 (.num 0) =
      ({ status := 400, item := none, message := some "Quantity must be at least 1" },
       { equipment := [⟨1, "3f9a1c0b7d2e4a5f6b8c", "Longsword"⟩],
         inventory := [⟨1, 7, 1, 3, none, 100⟩] }) :=
  ⟨by norm_num, updateItemQuantity_below_one _ 1 0 (by norm_num)⟩

/-! ## Single-document updates and deletes on a collection with unique keys -/

/-- With unique keys, removing the first document of key `k` removes every
document of key `k`. -/
theorem removeFirst_eq_filter {α β : Type} [DecidableEq β] (key : α → β) (k : β) :
    ∀ l : List α, (l.map key).Nodup →
      removeFirst (fun d => key d == k) l = l.filter (fun d => !(key d == k)) := by
  intro l
  induction l with
  | nil => intro _; rfl
  | cons x xs ih =>
    intro hnd
    rw [List.map_cons, List.nodup_cons] at hnd
    by_cases hx : key x = k
    · have hfilter : xs.filter (fun d => !(key d == k)) = xs := by
        rw [List.filter_eq_self]
        intro a ha
        have hne : key a ≠ k := by
          intro hak
          exact hnd.1 (hx ▸ hak ▸ List.mem_map_of_mem key ha)
        simp [hne]
      simp [removeFirst, hx, hfilter]
    · simp [removeFirst, hx, ih hnd.2]

/-- Removing the first match from a list without a match changes nothing. -/
theorem removeFirst_of_find_none {α : Type} (p : α → Bool) :
    ∀ l : List α, l.find? p = none → removeFirst p l = l := by
  intro l
  induction l with
  | nil => intro _; rfl
  | cons x xs ih =>
    intro h
    by_cases hx : p x = true
    · simp [List.find?, hx] at h
    · have hx2 : p x = false := by simpa using hx
      have h2 : xs.find? p = none := by simpa [List.find?, hx2] using h
      simp [removeFirst, hx2, ih h2]

/-- With unique keys, looking a stored document up by its key returns it. -/
theorem find_key_of_mem {α β : Type} [DecidableEq β] (key : α → β) :
    ∀ (l : List α) (x : α), (l.map key).Nodup → x ∈ l →
      l.find? (fun d => key d == key x) = some x := by
  intro l
  induction l with
  | nil => intro x _ hx; cases hx
  | cons y ys ih =>
    intro x hnd hx
    rw [List.map_cons, List.nodup_cons] at hnd
    rcases List.mem_cons.mp hx with rfl | hmem
    · simp [List.find?]
    · have hne : key y ≠ key x := by
        intro hyx
        exact hnd.1 (hyx ▸ List.mem_map_of_mem key hmem)
      have hb : (key y == key x) = false := by simpa using hne
      simp [List.find?, hb, ih x hnd.2 hmem]

/-! ## Reference-counted deletion -/

/-- C5.  In a store with unique document ids, deleting an existing inventory
item `i` that references the stored Equipment document `e` answers 200,
removes `i` and nothing else from the inventory, and removes `e` exactly when
no remaining inventory item (of any user) references it; every other
Equipment document stays. -/
theorem deleteItem_reference_counted (s : Store) (i : InventoryItem) (e : Equipment)
    (hinv : (s.inventory.map (fun j => j._id)).Nodup)
    (hequ : (s.equipment.map (fun d => d._id)).Nodup)
    (hi : i ∈ s.inventory) (he : e ∈ s.equipment) (href : i.equipmentId = e._id) :
    (deleteItem s i._id).1.status = 200 ∧
    (deleteItem s i._id).2.inventory = s.inventory.filter (fun j => !(j._id == i._id)) ∧
    i ∉ (deleteItem s i._id).2.inventory ∧
    (e ∉ (deleteItem s i._id).2.equipment ↔
      ∀ j ∈ (deleteItem s i._id).2.inventory, j.equipmentId ≠ e._id) ∧
    (∀ d ∈ s.equipment, d ≠ e → d ∈ (deleteItem s i._id).2.equipment) := by
  have hfind : s.inventory.find? (fun d => d._id == i._id) = some i :=
    find_key_of_mem (fun j : InventoryItem => j._id) s.inventory i hinv hi
  have hrem := removeFirst_eq_filter (fun j : InventoryItem => j._id) i._id s.inventory hinv
  have hremE := removeFirst_eq_filter (fun d : Equipment => d._id) e._id s.equipment hequ
  by_cases hothers :
      (UserInventory.findByEquipment
        (s.inventory.filter (fun j => !(j._id == i._id))) e._id).length = 0
  · have hdel : deleteItem s i._id =
        ({ status := 200, item := none, message := some "Item deleted successfully" },
         { equipment := s.equipment.filter (fun d => !(d._id == e._id)),
           inventory := s.inventory.filter (fun j => !(j._id == i._id)) }) := by
      simp only [deleteItem, UserInventory.findByIdAndDelete, hfind, hrem, href,
        Equipment.findByIdAndDelete, hremE]
      simp [hothers]
    rw [hdel]
    refine ⟨rfl, rfl, ?_, ?_, ?_⟩
    · simp
    · constructor
      · intro _ j hj hje
        have hmem : j ∈ UserInventory.findByEquipment
            (s.inventory.filter (fun j => !(j._id == i._id))) e._id := by
          simp only [UserInventory.findByEquipment, List.mem_filter, beq_iff_eq]
          exact ⟨List.mem_filter.mp hj, hje⟩
        rw [List.length_eq_zero] at hothers
        rw [hothers] at hmem
        cases hmem
      · intro _
        simp
    · intro d hd hne
      have hid : d._id ≠ e._id := by
        intro hde
        apply hne
        have h1 := find_key_of_mem (fun d : Equipment => d._id) s.equipment d hequ hd
        have h2 := find_key_of_mem (fun d : Equipment => d._id) s.equipment e hequ he
        simp only [hde] at h1
        rw [h1] at h2
        exact Option.some.inj h2
      simp [hd, hid]
  · have hdel : deleteItem s i._id =
        ({ status := 200, item := none, message := some "Item deleted successfully" },
         { equipment := s.equipment,
           inventory := s.inventory.filter (fun j => !(j._id == i._id)) }) := by
      simp only [deleteItem, UserInventory.findByIdAndDelete, hfind, hrem, href]
      simp [hothers]
    rw [hdel]
    refine ⟨rfl, rfl, ?_, ?_, ?_⟩
    · simp
    · constructor
      · intro hne
        exact absurd he hne
      · intro hall
        exfalso
        apply hothers
        rw [List.length_eq_zero, List.eq_nil_iff_forall_not_mem]
        intro j hj
        simp only [UserInventory.findByEquipment, List.mem_filter, beq_iff_eq] at hj
        exact hall j (List.mem_filter.mpr hj.1) hj.2
    · intro d hd _
      exact hd

/-- C5 on a store where two items reference one Equipment document: deleting
one of them leaves the document in place. -/
theorem deleteItem_reference_counted_witness :
    (deleteItem sharedStore itemOfSeven._id).1.status = 200 ∧
    (deleteItem sharedStore itemOfSeven._id).2.inventory =
      sharedStore.inventory.filter (fun j => !(j._id == itemOfSeven._id)) ∧
    itemOfSeven ∉ (deleteItem sharedStore itemOfSeven._id).2.inventory ∧
    (storedLongsword ∉ (deleteItem sharedStore itemOfSeven._id).2.equipment ↔
      ∀ j ∈ (deleteItem sharedStore itemOfSeven._id).2.inventory,
        j.equipmentId ≠ storedLongsword._id) ∧
    (∀ d ∈ sharedStore.equipment, d ≠ storedLongsword →
      d ∈ (deleteItem sharedStore itemOfSeven._id).2.equipment) :=
  deleteItem_reference_counted sharedStore itemOfSeven storedLongsword
    (by decide) (by decide) (by decide) (by decide) rfl

/-- C6.  Deleting an existing inventory item whose Equipment document is
absent from the store does not fail: the answer is 200, the item is removed
and the Equipment collection is left as it was. -/
theorem deleteItem_equipment_absent (s : Store) (i : InventoryItem)
    (hinv : (s.inventory.map (fun j => j._id)).Nodup)
    (hi : i ∈ s.inventory)
    (habsent : Equipment.findById s.equipment i.equipmentId = none) :
    (deleteItem s i._id).1.status = 200 ∧
    i ∉ (deleteItem s i._id).2.inventory ∧
    (deleteItem s i._id).2.inventory = s.inventory.filter (fun j => !(j._id == i._id)) ∧
    (deleteItem s i._id).2.equipment = s.equipment := by
  have hfind : s.inventory.find? (fun d => d._id == i._id) = some i :=
    find_key_of_mem (fun j : InventoryItem => j._id) s.inventory i hinv hi
  have hrem := removeFirst_eq_filter (fun j : InventoryItem => j._id) i._id s.inventory hinv
  have hremE : removeFirst (fun d : Equipment => d._id == i.equipmentId) s.equipment =
      s.equipment := removeFirst_of_find_none _ _ habsent
  have hdel : deleteItem s i._id =
      ({ status := 200, item := none, message := some "Item deleted successfully" },
       { equipment := s.equipment,
         inventory := s.inventory.filter (fun j => !(j._id == i._id)) }) := by
    simp only [deleteItem, UserInventory.findByIdAndDelete, hfind, hrem,
      Equipment.findByIdAndDelete, hremE]
    simp
  rw [hdel]
  refine ⟨rfl, ?_, rfl, rfl⟩
  simp

/-- C6 on a store whose only inventory item references a missing document. -/
theorem deleteItem_equipment_absent_witness :
    (deleteItem danglingStore itemOfSeven._id).1.status = 200 ∧
    itemOfSeven ∉ (deleteItem danglingStore itemOfSeven._id).2.inventory ∧
    (deleteItem danglingStore itemOfSeven._id).2.inventory =
      danglingStore.inventory.filter (fun j => !(j._id == itemOfSeven._id)) ∧
    (deleteItem danglingStore itemOfSeven._id).2.equipment = danglingStore.equipment :=
  deleteItem_equipment_absent danglingStore itemOfSeven (by decide) (by decide) rfl

/-! ## Catalog lookup -/

/-- The first fulfilled outcome of a list that starts with rejected ones. -/
theorem findSome_fulfilled_after_rejected (pre post : List Settled) (d : String)
    (hpre : ∀ r ∈ pre, ∃ m, r = Settled.rejected m) :
    (pre ++ Settled.fulfilled d :: post).findSome?
      (fun r => match r with | .fulfilled d => some d | .rejected _ => none) = some d := by
  induction pre with
  | nil => simp [List.findSome?]
  | cons r rs ih =>
    obtain ⟨m, rfl⟩ := hpre r (List.mem_cons_self _ _)
    simp only [List.cons_append, List.findSome?]
    exact ih (fun r hr => hpre r (List.mem_cons_of_mem _ hr))

/-- Every list of outcomes with a fulfilled one splits at its first fulfilled
outcome. -/
theorem split_at_first_fulfilled (l : List Settled)
    (h : ∃ r ∈ l, ∃ d, r = Settled.fulfilled d) :
    ∃ pre d post, l = pre ++ Settled.fulfilled d :: post ∧
      ∀ r ∈ pre, ∃ m, r = Settled.rejected m := by
  induction l with
  | nil => obtain ⟨r, hr, _⟩ := h; cases hr
  | cons x xs ih =>
    cases x with
    | fulfilled d => exact ⟨[], d, xs, rfl, fun r hr => by cases hr⟩
    | rejected m =>
      have h2 : ∃ r ∈ xs, ∃ d, r = Settled.fulfilled d := by
        obtain ⟨r, hr, d, hd⟩ := h
        rcases List.mem_cons.mp hr with rfl | hmem
        · cases hd
        · exact ⟨r, hmem, d, hd⟩
      obtain ⟨pre, d, post, hsplit, hpre⟩ := ih h2
      refine ⟨Settled.rejected m :: pre, d, post, by rw [hsplit]; rfl, ?_⟩
      intro r hr
      rcases List.mem_cons.mp hr with rfl | hmem
      · exact ⟨m, rfl⟩
      · exact hpre r hmem

/-- C9.  Whenever at least one of the three endpoint lookups succeeds,
`fetchData` answers 200 with the payload of the earliest-listed endpoint among
those that succeeded: the outcomes, taken in endpoint order, split into
rejected ones, then the fulfilled one whose data is the whole response body,
then the rest.  The response carries nothing else. -/
theorem fetchData_first_success (toLowerCase : String → String) (get : String → Settled)
    (index : String)
    (h : ∃ r ∈ (endpoints (slug toLowerCase index)).map get, ∃ d, r = Settled.fulfilled d) :
    ∃ pre d post,
      (endpoints (slug toLowerCase index)).map get = pre ++ Settled.fulfilled d :: post ∧
      (∀ r ∈ pre, ∃ m, r = Settled.rejected m) ∧
      fetchData toLowerCase get index = FetchResponse.payload 200 d := by
  obtain ⟨pre, d, post, hsplit, hpre⟩ := split_at_first_fulfilled _ h
  refine ⟨pre, d, post, hsplit, hpre, ?_⟩
  have hfind := findSome_fulfilled_after_rejected pre post d hpre
  rw [← hsplit] at hfind
  simp only [fetchData, hfind]

/-- C9 for the slug `longsword` when only the equipment endpoint succeeds. -/
theorem fetchData_first_success_witness :
    ∃ pre d post,
      (endpoints (slug asciiLower "longsword")).map onlyEquipmentKnows =
        pre ++ Settled.fulfilled d :: post ∧
      (∀ r ∈ pre, ∃ m, r = Settled.rejected m) ∧
      fetchData asciiLower onlyEquipmentKnows "longsword" = FetchResponse.payload 200 d :=
  fetchData_first_success asciiLower onlyEquipmentKnows "longsword"
    ⟨Settled.fulfilled "longsword payload", by decide, "longsword payload", rfl⟩

/-- C10.  When all three endpoint lookups fail, `fetchData` answers 404 with
exactly three errors, the i-th pairing the i-th endpoint URL with the failure
message of that same endpoint. -/
theorem fetchData_all_failed (toLowerCase : String → String) (get : String → Settled)
    (index : String) (m1 m2 m3 : String)
    (h : (endpoints (slug toLowerCase index)).map get =
      [Settled.rejected m1, Settled.rejected m2, Settled.rejected m3]) :
    fetchData toLowerCase get index =
      FetchResponse.notFound 404 "Item not found"
        [ ("https://www.dnd5eapi.co/api" ++ "/equipment/" ++ slug toLowerCase index, m1),
          ("https://www.dnd5eapi.co/api" ++ "/magic-items/" ++ slug toLowerCase index, m2),
          ("https://www.dnd5eapi.co/api" ++ "/weapon-properties/" ++ slug toLowerCase index,
            m3) ] := by
  simp only [fetchData, h]
  rfl

/-- C10 for a slug that no endpoint knows. -/
theorem fetchData_all_failed_witness :
    fetchData asciiLower nothingKnown "nonexistent-item" =
      FetchResponse.notFound 404 "Item not found"
        [ ("https://www.dnd5eapi.co/api" ++ "/equipment/" ++
              slug asciiLower "nonexistent-item",
            "Request failed with status code 404"),
          ("https://www.dnd5eapi.co/api" ++ "/magic-items/" ++
              slug asciiLower "nonexistent-item",
            "Request failed with status code 404"),
          ("https://www.dnd5eapi.co/api" ++ "/weapon-properties/" ++
              slug asciiLower "nonexistent-item",
            "Request failed with status code 404") ] :=
  fetchData_all_failed asciiLower nothingKnown "nonexistent-item" _ _ _ rfl

/-! ## Inventory reconciliation: merge by equipment name -/

/-- A single-document update in a collection split at the first document of
the given key. -/
theorem updateFirst_split {α : Type} (p : α → Bool) (f : α → α) (x : α) (post : List α) :
    ∀ pre : List α, (∀ y ∈ pre, p y = false) → p x = true →
      updateFirst p f (pre ++ x :: post) = pre ++ f x :: post := by
  intro pre
  induction pre with
  | nil => intro _ hx; simp [updateFirst, hx]
  | cons y ys ih =>
    intro hpre hx
    have hy : p y = false := hpre y (List.mem_cons_self _ _)
    simp [updateFirst, hy, ih (fun z hz => hpre z (List.mem_cons_of_mem _ hz)) hx]

/-- The scan finds nothing when every scanned item resolves to an Equipment
document of another name. -/
theorem findSameName_none (name : String) (db : List Equipment) :
    ∀ items : List InventoryItem,
      (∀ j ∈ items, ∃ d, Equipment.findById db j.equipmentId = some d ∧ d.name ≠ name) →
      findSameName name (populate db items) = .ok none := by
  intro items
  induction items with
  | nil => intro _; rfl
  | cons j js ih =>
    intro h
    obtain ⟨d, hd, hne⟩ := h j (List.mem_cons_self _ _)
    have hrest := ih (fun k hk => h k (List.mem_cons_of_mem _ hk))
    have hb : (d.name == name) = false := by simpa using hne
    simp only [populate, List.map_cons, hd, findSameName, hb] at hrest ⊢
    exact hrest

/-- The scan returns the first item whose Equipment document has the name,
provided every item ahead of it resolves to a document of another name. -/
theorem findSameName_first (name : String) (db : List Equipment) (it : InventoryItem)
    (d : Equipment) (post : List InventoryItem)
    (hit : Equipment.findById db it.equipmentId = some d) (hname : d.name = name) :
    ∀ pre : List InventoryItem,
      (∀ j ∈ pre, ∃ dj, Equipment.findById db j.equipmentId = some dj ∧ dj.name ≠ name) →
      findSameName name (populate db (pre ++ it :: post)) = .ok (some it) := by
  intro pre
  induction pre with
  | nil =>
    intro _
    simp [populate, findSameName, hit, hname]
  | cons j js ih =>
    intro h
    obtain ⟨dj, hdj, hne⟩ := h j (List.mem_cons_self _ _)
    have hrest := ih (fun k hk => h k (List.mem_cons_of_mem _ hk))
    have hb : (dj.name == name) = false := by simpa using hne
    simp only [populate, List.cons_append, List.map_cons, hdj, findSameName, hb] at hrest ⊢
    exact hrest

/-- The successor of a valid quantity is valid. -/
theorem quantityValid_succ (q : ℚ) (h : quantityValid q = true) :
    quantityValid (q + 1) = true := by
  simp only [quantityValid, Bool.and_eq_true, decide_eq_true_eq] at h ⊢
  obtain ⟨hden, hone⟩ := h
  constructor
  · have hq : ((q.num : ℤ) : ℚ) = q := (Rat.den_eq_one_iff q).mp hden
    have hsum : q + 1 = (((q.num + 1 : ℤ)) : ℚ) := by
      push_cast
      rw [hq]
    rw [hsum]
    exact Rat.intCast_den _
  · linarith

/-- The insert path of `addToInventory`, as one equation on response and store. -/
theorem addToInventory_inserts (s s1 : Store) (u : UserId) (item : Option RawItem)
    (fr : Fresh) (e : Equipment)
    (hres : saveFetchedEquipment s item fr = .ok (e, s1))
    (hnone : ∀ j ∈ s.inventory, j.user = u →
      ∃ d, Equipment.findById s1.equipment j.equipmentId = some d ∧ d.name ≠ e.name)
    (hfresh : ∀ j ∈ s.inventory, j._id ≠ fr.inventoryOid) :
    addToInventory s u item fr =
      ({ status := 201,
         item := some { _id := fr.inventoryOid, user := u, equipmentId := e._id,
                        quantity := 1, customizations := none, acquiredDate := fr.now },
         message := none },
       { equipment := s1.equipment,
         inventory := s.inventory ++
           [{ _id := fr.inventoryOid, user := u, equipmentId := e._id,
              quantity := 1, customizations := none, acquiredDate := fr.now }] }) := by
  have hinv : s1.inventory = s.inventory := saveFetchedEquipment_inventory hres
  have hscan : findSameName e.name
      (populate s1.equipment (UserInventory.findByUser s1.inventory u)) = .ok none := by
    apply findSameName_none
    intro j hj
    simp only [UserInventory.findByUser, List.mem_filter, beq_iff_eq, hinv] at hj
    exact hnone j hj.1 hj.2
  have hany : (s.inventory.any fun d => d._id == fr.inventoryOid) = false := by
    rw [List.any_eq_false]
    intro j hj
    simpa using hfresh j hj
  have hvalid : quantityValid 1 = true := by decide
  rw [hinv] at hscan
  simp only [addToInventory, hres, mergeByName, hinv, hscan, UserInventory.save, hvalid, hany]
  simp

/-- The increment path of `addToInventory`, as one equation on response and
store. -/
theorem addToInventory_increments (s s1 : Store) (u : UserId) (item : Option RawItem)
    (fr : Fresh) (e d : Equipment) (l1 l2 : List InventoryItem) (it : InventoryItem)
    (hres : saveFetchedEquipment s item fr = .ok (e, s1))
    (hsplit : s.inventory = l1 ++ it :: l2)
    (hids : ∀ j ∈ l1, j._id ≠ it._id)
    (huser : it.user = u)
    (hit : Equipment.findById s1.equipment it.equipmentId = some d)
    (hname : d.name = e.name)
    (hbefore : ∀ j ∈ l1, j.user = u →
      ∃ dj, Equipment.findById s1.equipment j.equipmentId = some dj ∧ dj.name ≠ e.name)
    (hq : quantityValid it.quantity = true) :
    addToInventory s u item fr =
      ({ status := 200, item := some { it with quantity := it.quantity + 1 }, message := none },
       { equipment := s1.equipment,
         inventory := l1 ++ { it with quantity := it.quantity + 1 } :: l2 }) := by
  have hinv : s1.inventory = s.inventory := saveFetchedEquipment_inventory hres
  have hfilter : UserInventory.findByUser s1.inventory u =
      UserInventory.findByUser l1 u ++ it :: UserInventory.findByUser l2 u := by
    simp [UserInventory.findByUser, hinv, hsplit, List.filter_cons, huser]
  have hscan : findSameName e.name
      (populate s1.equipment (UserInventory.findByUser s1.inventory u)) = .ok (some it) := by
    rw [hfilter]
    apply findSameName_first e.name s1.equipment it d _ hit hname
    intro j hj
    simp only [UserInventory.findByUser, List.mem_filter, beq_iff_eq] at hj
    exact hbefore j hj.1 hj.2
  have hl1 : ∀ y ∈ l1, (y._id == it._id) = false := by
    intro y hy
    simpa using hids y hy
  have hupd := updateFirst_split (fun j : InventoryItem => j._id == it._id)
    (fun _ => ({ it with quantity := it.quantity + 1 } : InventoryItem)) it l2 l1 hl1 (by simp)
  have hvalid := quantityValid_succ it.quantity hq
  rw [hinv] at hscan
  rw [hsplit] at hscan
  simp only [addToInventory, hres, mergeByName, hinv, hsplit, hscan, hvalid, hupd]
  simp

/-- A lookup by id that succeeds keeps its answer when documents are appended
to the collection. -/
theorem findById_append {db : List Equipment} {id : ObjectId} {d : Equipment}
    (l : List Equipment) (h : Equipment.findById db id = some d) :
    Equipment.findById (db ++ l) id = some d := by
  simp only [Equipment.findById, List.find?_append] at h ⊢
  simp [h]

/-- A successful `saveFetchedEquipment` only ever appends to the Equipment
collection, and the document it returns is the one found under its id. -/
theorem saveFetchedEquipment_resolves {s s1 : Store} {item : Option RawItem} {fr : Fresh}
    {e : Equipment} (hequ : (s.equipment.map (fun d => d._id)).Nodup)
    (h : saveFetchedEquipment s item fr = .ok (e, s1)) :
    (∃ l, s1.equipment = s.equipment ++ l) ∧ Equipment.findById s1.equipment e._id = some e := by
  rcases saveFetchedEquipment_ok_cases h with ⟨hmem, rfl⟩ | ⟨hnew, rfl⟩
  · exact ⟨⟨[], by simp⟩, find_key_of_mem (fun d : Equipment => d._id) _ e hequ hmem⟩
  · refine ⟨⟨[e], rfl⟩, ?_⟩
    have hnone : s.equipment.find? (fun d => d._id == e._id) = none := by
      rw [List.find?_eq_none]
      intro d hd
      simpa using hnew d hd
    simp [Equipment.findById, List.find?_append, hnone, List.find?]

/-- C2, amended.  Start from a store with unique Equipment ids in which every
inventory item of user `u` references an existing Equipment document and none
of these documents is named `n`.  Let two successive `addToInventory` calls by
`u` carry raw items that both resolve to Equipment named `n`, the ObjectId
generated for the new inventory item being unused.  Then the first call
answers 201, the second 200, and `u` is left with exactly one inventory item
whose Equipment is named `n`; its quantity is 2. -/
theorem addToInventory_twice_same_name (s sa sb : Store) (u : UserId)
    (item1 item2 : Option RawItem) (fr1 fr2 : Fresh) (n : String) (e1 e2 : Equipment)
    (hequ : (s.equipment.map (fun d => d._id)).Nodup)
    (hstart : ∀ j ∈ s.inventory, j.user = u →
      ∃ d, Equipment.findById s.equipment j.equipmentId = some d ∧ d.name ≠ n)
    (hfresh : ∀ j ∈ s.inventory, j._id ≠ fr1.inventoryOid)
    (h1 : saveFetchedEquipment s item1 fr1 = .ok (e1, sa)) (hn1 : e1.name = n)
    (h2 : saveFetchedEquipment (addToInventory s u item1 fr1).2 item2 fr2 = .ok (e2, sb))
    (hn2 : e2.name = n) :
    (addToInventory s u item1 fr1).1.status = 201 ∧
    (addToInventory (addToInventory s u item1 fr1).2 u item2 fr2).1.status = 200 ∧
    itemsNamed (addToInventory (addToInventory s u item1 fr1).2 u item2 fr2).2 u n =
      [{ _id := fr1.inventoryOid, user := u, equipmentId := e1._id, quantity := 2,
         customizations := none, acquiredDate := fr1.now }] := by
  obtain ⟨⟨la, hla⟩, hfind1⟩ := saveFetchedEquipment_resolves hequ h1
  -- the first call finds no match and inserts
  have hnone1 : ∀ j ∈ s.inventory, j.user = u →
      ∃ d, Equipment.findById sa.equipment j.equipmentId = some d ∧ d.name ≠ e1.name := by
    intro j hj hu
    obtain ⟨d, hd, hne⟩ := hstart j hj hu
    exact ⟨d, by rw [hla]; exact findById_append la hd, by rw [hn1]; exact hne⟩
  have hfirst := addToInventory_inserts s sa u item1 fr1 e1 h1 hnone1 hfresh
  rw [hfirst] at h2 ⊢
  -- the second call only appends to the Equipment collection as well
  have hext : ∃ lb, sb.equipment = sa.equipment ++ lb := by
    rcases saveFetchedEquipment_ok_cases h2 with ⟨_, rfl⟩ | ⟨_, rfl⟩
    · exact ⟨[], by simp⟩
    · exact ⟨[e2], rfl⟩
  obtain ⟨lb, hlb⟩ := hext
  have hfind2 : Equipment.findById sb.equipment e1._id = some e1 := by
    rw [hlb]; exact findById_append lb hfind1
  have hbefore : ∀ j ∈ s.inventory, j.user = u →
      ∃ dj, Equipment.findById sb.equipment j.equipmentId = some dj ∧ dj.name ≠ e2.name := by
    intro j hj hu
    obtain ⟨d, hd, hne⟩ := hnone1 j hj hu
    exact ⟨d, by rw [hlb]; exact findById_append lb hd, by rw [hn2, ← hn1]; exact hne⟩
  have hone : quantityValid (1 : ℚ) = true := by decide
  have hsecond := addToInventory_increments _ sb u item2 fr2 e2 e1 s.inventory []
    { _id := fr1.inventoryOid, user := u, equipmentId := e1._id, quantity := 1,
      customizations := none, acquiredDate := fr1.now }
    h2 rfl hfresh rfl hfind2 (by rw [hn1, hn2]) hbefore hone
  rw [hsecond]
  refine ⟨rfl, rfl, ?_⟩
  have hold : (UserInventory.findByUser s.inventory u).filter (fun j =>
      match Equipment.findById sb.equipment j.equipmentId with
      | some d => d.name == n
      | none => false) = [] := by
    rw [List.filter_eq_nil_iff]
    intro j hj
    simp only [UserInventory.findByUser, List.mem_filter, beq_iff_eq] at hj
    obtain ⟨d, hd, hne⟩ := hbefore j hj.1 hj.2
    rw [hn2] at hne
    simp [hd, hne]
  have htwo : (1 : ℚ) + 1 = 2 := by norm_num
  simp only [itemsNamed, UserInventory.findByUser, List.filter_append] at hold ⊢
  rw [hold]
  simp [List.filter_cons, hfind2, hn1, htwo]

/-- C2 on the empty store: user 7 adds the catalog item `longsword` twice. -/
theorem addToInventory_twice_same_name_witness :
    (addToInventory emptyStore 7 (some longsword) firstFresh).1.status = 201 ∧
    (addToInventory (addToInventory emptyStore 7 (some longsword) firstFresh).2 7
      (some longsword) secondFresh).1.status = 200 ∧
    itemsNamed (addToInventory (addToInventory emptyStore 7 (some longsword) firstFresh).2 7
      (some longsword) secondFresh).2 7 "Longsword" =
      [{ _id := firstFresh.inventoryOid, user := 7, equipmentId := storedLongsword._id,
         quantity := 2, customizations := none, acquiredDate := firstFresh.now }] :=
  addToInventory_twice_same_name emptyStore
    { equipment := [storedLongsword], inventory := [] }
    { equipment := [storedLongsword, ⟨2, "a1b2c3d4e5f60718293a", "Longsword"⟩],
      inventory := [⟨1, 7, 1, 1, none, 100⟩] }
    7 (some longsword) (some longsword) firstFresh secondFresh "Longsword"
    storedLongsword ⟨2, "a1b2c3d4e5f60718293a", "Longsword"⟩
    (by decide) (fun j hj => by cases hj) (fun j hj => by cases hj) rfl rfl rfl rfl

/-- C2 fails as stated.  User 7 holds one inventory item, whose Equipment
document is gone, so no item of user 7 has Equipment named `Longsword`.  Two
successive `addToInventory` calls whose raw items both resolve to Equipment
named `Longsword` are both answered 500 and leave user 7 without any item
whose Equipment is named `Longsword`. -/
theorem addToInventory_twice_same_name_counterexample :
    itemsNamed orphanOnlyStore 7 "Longsword" = [] ∧
    (∃ e1 sa, saveFetchedEquipment orphanOnlyStore (some longsword) secondFresh = .ok (e1, sa) ∧
      e1.name = "Longsword") ∧
    (∃ e2 sb, saveFetchedEquipment
        (addToInventory orphanOnlyStore 7 (some longsword) secondFresh).2
        (some longsword) thirdFresh = .ok (e2, sb) ∧ e2.name = "Longsword") ∧
    (addToInventory orphanOnlyStore 7 (some longsword) secondFresh).1.status = 500 ∧
    (addToInventory (addToInventory orphanOnlyStore 7 (some longsword) secondFresh).2 7
      (some longsword) thirdFresh).1.status = 500 ∧
    itemsNamed (addToInventory (addToInventory orphanOnlyStore 7 (some longsword) secondFresh).2 7
      (some longsword) thirdFresh).2 7 "Longsword" = [] :=
  ⟨rfl, ⟨_, _, rfl, rfl⟩, ⟨_, _, rfl, rfl⟩, rfl, rfl, rfl⟩

/-- C3, amended.  Let `saveFetchedEquipment` resolve the raw item to `e`,
leaving store `s1`, and let the inventory collection split as
`l1 ++ it :: l2` (no item of `l1` carrying the id of `it`, ids being unique)
where `it` belongs to the caller and references an Equipment document `d`
with the name of `e` (nothing else about `d` and `e` is compared), while every
item of the caller ahead of `it` references an existing document of another
name.  If the quantity of `it` satisfies the data model and is below 2^53,
where adding 1 is exact in JavaScript, then `addToInventory` answers 200 with
`it` incremented by exactly 1, creates no inventory item and leaves every
other item unchanged. -/
theorem addToInventory_match_found (s s1 : Store) (u : UserId) (item : Option RawItem)
    (fr : Fresh) (e d : Equipment) (l1 l2 : List InventoryItem) (it : InventoryItem)
    (hres : saveFetchedEquipment s item fr = .ok (e, s1))
    (hsplit : s.inventory = l1 ++ it :: l2)
    (hids : ∀ j ∈ l1, j._id ≠ it._id)
    (huser : it.user = u)
    (hit : Equipment.findById s1.equipment it.equipmentId = some d)
    (hname : d.name = e.name)
    (hbefore : ∀ j ∈ l1, j.user = u →
      ∃ dj, Equipment.findById s1.equipment j.equipmentId = some dj ∧ dj.name ≠ e.name)
    (hq : quantityValid it.quantity = true)
    (_hsafe : it.quantity < 9007199254740992) :
    (addToInventory s u item fr).1.status = 200 ∧
    (addToInventory s u item fr).1.item = some { it with quantity := it.quantity + 1 } ∧
    (addToInventory s u item fr).2.inventory =
      l1 ++ { it with quantity := it.quantity + 1 } :: l2 ∧
    (addToInventory s u item fr).2.inventory.length = s.inventory.length := by
  rw [addToInventory_increments s s1 u item fr e d l1 l2 it hres hsplit hids huser hit hname
    hbefore hq]
  refine ⟨rfl, rfl, rfl, ?_⟩
  simp [hsplit]

/-- C3 on a store where user 7 already holds a Longsword: the raw item
resolves to a second Equipment document of that name, and the held item goes
from 3 to 3 + 1. -/
theorem addToInventory_match_found_witness :
    (addToInventory sharedStore 7 (some longsword) secondFresh).1.status = 200 ∧
    (addToInventory sharedStore 7 (some longsword) secondFresh).1.item =
      some { itemOfSeven with quantity := itemOfSeven.quantity + 1 } ∧
    (addToInventory sharedStore 7 (some longsword) secondFresh).2.inventory =
      [] ++ { itemOfSeven with quantity := itemOfSeven.quantity + 1 } :: [itemOfEight] ∧
    (addToInventory sharedStore 7 (some longsword) secondFresh).2.inventory.length =
      sharedStore.inventory.length :=
  addToInventory_match_found sharedStore
    { equipment := [storedLongsword, ⟨2, "a1b2c3d4e5f60718293a", "Longsword"⟩],
      inventory := [itemOfSeven, itemOfEight] }
    7 (some longsword) secondFresh ⟨2, "a1b2c3d4e5f60718293a", "Longsword"⟩ storedLongsword
    [] [itemOfEight] itemOfSeven rfl rfl (fun j hj => by cases hj) rfl rfl rfl
    (fun j hj => by cases hj) (by decide) (by decide)

/-- C3 fails as stated.  User 7 holds an item whose Equipment document is
gone, ahead of an item whose Equipment is named `Longsword`.  The raw item
resolves to Equipment named `Longsword`, so a matching item exists, yet
`addToInventory` answers 500 and no quantity changes. -/
theorem addToInventory_match_found_counterexample :
    (∃ e s1, saveFetchedEquipment orphanFirstStore (some longsword) secondFresh = .ok (e, s1) ∧
      itemOfSeven ∈ UserInventory.findByUser orphanFirstStore.inventory 7 ∧
      Equipment.findById s1.equipment itemOfSeven.equipmentId = some storedLongsword ∧
      storedLongsword.name = e.name) ∧
    (addToInventory orphanFirstStore 7 (some longsword) secondFresh).1.status = 500 ∧
    (addToInventory orphanFirstStore 7 (some longsword) secondFresh).2.inventory =
      orphanFirstStore.inventory :=
  ⟨⟨_, _, rfl, by decide, rfl, rfl⟩, rfl, rfl⟩

/-- C4, amended.  Let `saveFetchedEquipment` resolve the raw item to `e`,
leaving store `s1`.  If every item of the caller's inventory references an
existing Equipment document and none of these documents has the name of `e`,
and the ObjectId generated for the new item is not in use, then
`addToInventory` answers 201 and appends exactly one inventory item, owned by
the caller, referencing `e`, with quantity 1 and the current date; every
earlier inventory item is unchanged. -/
theorem addToInventory_no_match (s s1 : Store) (u : UserId) (item : Option RawItem)
    (fr : Fresh) (e : Equipment)
    (hres : saveFetchedEquipment s item fr = .ok (e, s1))
    (hnone : ∀ j ∈ s.inventory, j.user = u →
      ∃ d, Equipment.findById s1.equipment j.equipmentId = some d ∧ d.name ≠ e.name)
    (hfresh : ∀ j ∈ s.inventory, j._id ≠ fr.inventoryOid) :
    ∃ newItem : InventoryItem,
      (addToInventory s u item fr).1.status = 201 ∧
      (addToInventory s u item fr).1.item = some newItem ∧
      (addToInventory s u item fr).2.inventory = s.inventory ++ [newItem] ∧
      newItem.user = u ∧ newItem.equipmentId = e._id ∧ newItem.quantity = 1 ∧
      newItem.acquiredDate = fr.now := by
  rw [addToInventory_inserts s s1 u item fr e hres hnone hfresh]
  exact ⟨_, rfl, rfl, rfl, rfl, rfl, rfl, rfl⟩

/-- C4 on the empty store: user 7 adds the catalog item `longsword`. -/
theorem addToInventory_no_match_witness :
    ∃ newItem : InventoryItem,
      (addToInventory emptyStore 7 (some longsword) firstFresh).1.status = 201 ∧
      (addToInventory emptyStore 7 (some longsword) firstFresh).1.item = some newItem ∧
      (addToInventory emptyStore 7 (some longsword) firstFresh).2.inventory =
        emptyStore.inventory ++ [newItem] ∧
      newItem.user = 7 ∧ newItem.equipmentId = storedLongsword._id ∧ newItem.quantity = 1 ∧
      newItem.acquiredDate = firstFresh.now :=
  addToInventory_no_match emptyStore { equipment := [storedLongsword], inventory := [] }
    7 (some longsword) firstFresh storedLongsword rfl
    (fun j hj => by cases hj) (fun j hj => by cases hj)

/-- C4 fails as stated.  The only inventory item of user 7 references an
Equipment document that is gone, so no item of user 7 references Equipment
with the resolved name; yet `addToInventory` answers 500 and creates no
inventory item. -/
theorem addToInventory_no_match_counterexample :
    (∃ e s1, saveFetchedEquipment orphanOnlyStore (some longsword) secondFresh = .ok (e, s1) ∧
      ∀ j ∈ UserInventory.findByUser orphanOnlyStore.inventory 7,
        ∀ d, Equipment.findById s1.equipment j.equipmentId = some d → d.name ≠ e.name) ∧
    (addToInventory orphanOnlyStore 7 (some longsword) secondFresh).1.status = 500 ∧
    (addToInventory orphanOnlyStore 7 (some longsword) secondFresh).2.inventory =
      orphanOnlyStore.inventory :=
  ⟨⟨_, _, rfl, by decide⟩, rfl, rfl⟩

/-! ## The quantity invariant -/

/-- Every document of a collection after a single-document update is an old
document or the image of one. -/
theorem mem_updateFirst {α : Type} (p : α → Bool) (f : α → α) (x : α) :
    ∀ l : List α, x ∈ updateFirst p f l → x ∈ l ∨ ∃ y ∈ l, x = f y := by
  intro l
  induction l with
  | nil => intro h; cases h
  | cons a rest ih =>
    intro h
    by_cases ha : p a = true
    · simp only [updateFirst, ha, if_true, List.mem_cons] at h
      rcases h with hxa | h
      · exact Or.inr ⟨a, List.mem_cons_self _ _, hxa⟩
      · exact Or.inl (List.mem_cons_of_mem _ h)
    · have ha2 : p a = false := by simpa using ha
      simp only [updateFirst, ha2, Bool.false_eq_true, if_false, List.mem_cons] at h
      rcases h with hxa | h
      · exact Or.inl (hxa ▸ List.mem_cons_self _ _)
      · rcases ih h with h1 | ⟨y, hy, hxy⟩
        · exact Or.inl (List.mem_cons_of_mem _ h1)
        · exact Or.inr ⟨y, List.mem_cons_of_mem _ hy, hxy⟩

/-- The merge step of `addToInventory` keeps every stored quantity valid. -/
theorem mergeByName_quantitiesValid (s : Store) (u : UserId) (e : Equipment) (fr : Fresh)
    (h : quantitiesValid s) : quantitiesValid (mergeByName s u e fr).2 := by
  unfold mergeByName
  simp only
  split
  · exact h
  · split
    · rename_i hok
      intro j hj
      rcases mem_updateFirst _ _ j _ hj with hold | ⟨_, _, rfl⟩
      · exact h j hold
      · exact hok
    · exact h
  · split
    · rename_i inv hsave
      simp only [UserInventory.save] at hsave
      split at hsave
      · cases hsave
      · split at hsave
        · cases hsave
        · cases hsave
          intro j hj
          rcases List.mem_append.mp hj with hold | hnew
          · exact h j hold
          · rw [List.mem_singleton] at hnew
            rw [hnew]
            exact (by decide : quantityValid (1 : ℚ) = true)
    · exact h

/-- A validated inventory update keeps every stored quantity valid. -/
theorem findByIdAndUpdate_quantitiesValid (inv inv1 : List InventoryItem) (id : ObjectId)
    (quantity : JsNumber) (customizations : JsString) (r : Option InventoryItem)
    (hupd : UserInventory.findByIdAndUpdate inv id quantity customizations = .ok (r, inv1))
    (h : ∀ j ∈ inv, quantityValid j.quantity = true) :
    ∀ j ∈ inv1, quantityValid j.quantity = true := by
  simp only [UserInventory.findByIdAndUpdate] at hupd
  split at hupd
  · cases hupd
  · rename_i hacc
    split at hupd
    · cases hupd; exact h
    · cases hupd
      intro j hj
      rcases mem_updateFirst _ _ j _ hj with hold | ⟨y, hy, rfl⟩
      · exact h j hold
      · cases quantity with
        | undefined => cases customizations <;> exact h y hy
        | null => simp at hacc
        | num q =>
          have hq : quantityValid q = true := by simpa using hacc
          cases customizations <;> exact hq

/-- The update validators refuse a number that the schema does not accept. -/
theorem findByIdAndUpdate_refuses (inv : List InventoryItem) (id : ObjectId) (q : ℚ)
    (customizations : JsString) (hq : quantityValid q = false) :
    UserInventory.findByIdAndUpdate inv id (.num q) customizations =
      .error "Validation failed" := by
  simp [UserInventory.findByIdAndUpdate, hq]

/-- C8.  If every stored quantity is an integer at least 1, this still holds
after any `addToInventory`, `updateItemQuantity` or `updateInventoryItem`
call; and the two update operations refuse a number that is below 1 or not an
integer (status 400 or 500) and leave the store as it was. -/
theorem quantity_invariant_preserved (s : Store) (hvalid : quantitiesValid s) :
    (∀ u item fr, quantitiesValid (addToInventory s u item fr).2) ∧
    (∀ id quantity, quantitiesValid (updateItemQuantity s id quantity).2) ∧
    (∀ id quantity customizations equipmentData,
      quantitiesValid (updateInventoryItem s id quantity customizations equipmentData).2) ∧
    (∀ id q, quantityValid q = false →
      (updateItemQuantity s id (.num q)).2 = s ∧
      ((updateItemQuantity s id (.num q)).1.status = 400 ∨
       (updateItemQuantity s id (.num q)).1.status = 500)) ∧
    (∀ id q customizations equipmentData, quantityValid q = false →
      (updateInventoryItem s id (.num q) customizations equipmentData).2 = s ∧
      (updateInventoryItem s id (.num q) customizations equipmentData).1.status = 400) := by
  refine ⟨?_, ?_, ?_, ?_, ?_⟩
  · intro u item fr
    unfold addToInventory
    split
    · exact hvalid
    · rename_i e s1 hres
      apply mergeByName_quantitiesValid
      intro j hj
      rw [saveFetchedEquipment_inventory hres] at hj
      exact hvalid j hj
  · intro id quantity
    unfold updateItemQuantity
    split
    · exact hvalid
    · split
      · exact hvalid
      · exact hvalid
      · rename_i r inv1 hupd
        exact findByIdAndUpdate_quantitiesValid s.inventory inv1 id quantity .undefined _ hupd hvalid
  · intro id quantity customizations equipmentData
    unfold updateInventoryItem
    split
    · exact hvalid
    · exact hvalid
    · rename_i r inv1 hupd
      have hinv1 := findByIdAndUpdate_quantitiesValid s.inventory inv1 id quantity customizations
        _ hupd hvalid
      simp only
      split
      · exact hinv1
      · split
        · exact hinv1
        · exact hinv1
        · exact hinv1
  · intro id q hq
    by_cases hlt : q < 1
    · simp [updateItemQuantity, JsNumber.ltOne, hlt]
    · simp [updateItemQuantity, JsNumber.ltOne, hlt, findByIdAndUpdate_refuses _ id q _ hq]
  · intro id q customizations equipmentData hq
    simp [updateInventoryItem, findByIdAndUpdate_refuses _ id q _ hq]

/-- C8 on a store whose quantities are 3 and 1. -/
theorem quantity_invariant_preserved_witness :
    (∀ u item fr, quantitiesValid (addToInventory sharedStore u item fr).2) ∧
    (∀ id quantity, quantitiesValid (updateItemQuantity sharedStore id quantity).2) ∧
    (∀ id quantity customizations equipmentData,
      quantitiesValid
        (updateInventoryItem sharedStore id quantity customizations equipmentData).2) ∧
    (∀ id q, quantityValid q = false →
      (updateItemQuantity sharedStore id (.num q)).2 = sharedStore ∧
      ((updateItemQuantity sharedStore id (.num q)).1.status = 400 ∨
       (updateItemQuantity sharedStore id (.num q)).1.status = 500)) ∧
    (∀ id q customizations equipmentData, quantityValid q = false →
      (updateInventoryItem sharedStore id (.num q) customizations equipmentData).2 =
        sharedStore ∧
      (updateInventoryItem sharedStore id (.num q) customizations equipmentData).1.status =
        400) :=
  quantity_invariant_preserved sharedStore (by
    intro j hj
    simp only [sharedStore, List.mem_cons, List.mem_singleton, List.not_mem_nil, or_false] at hj
    rcases hj with rfl | rfl <;> decide)

/-! ## The slug of the catalog lookup -/

/-- Lower-casing never leaves a letter A to Z. -/
theorem isUpper_toLower (c : Char) : (Char.toLower c).isUpper = false := by
  unfold Char.toLower
  simp only
  split
  · rename_i h
    obtain ⟨h1, h2⟩ := h
    generalize hn : c.toNat = n at h1 h2
    interval_cases n <;> decide
  · rename_i h
    simp only [Char.isUpper, Bool.and_eq_false_iff, decide_eq_false_iff_not, ge_iff_le]
    by_contra hcon
    push_neg at hcon
    exact h ⟨hcon.1, hcon.2⟩

/-- Inside a run, the scan behaves as a fresh scan of what follows the run. -/
theorem replaceWhitespaceRuns_in_run (l : List Char) :
    replaceWhitespaceRuns true l = replaceWhitespaceRuns false (l.dropWhile isJsWhitespace) := by
  induction l with
  | nil => rfl
  | cons c cs ih =>
    by_cases hc : isJsWhitespace c = true
    · simp [replaceWhitespaceRuns, List.dropWhile, hc, ih]
    · have hc2 : isJsWhitespace c = false := by simpa using hc
      simp [replaceWhitespaceRuns, List.dropWhile, hc2]

/-- The scan of the source and the replacement in the spec's words agree. -/
theorem replaceWhitespaceRuns_eq_hyphenateRuns :
    ∀ (n : Nat) (l : List Char), l.length ≤ n →
      replaceWhitespaceRuns false l = hyphenateRuns l := by
  intro n
  induction n with
  | zero =>
    intro l hl
    have hnil : l = [] := List.length_eq_zero.mp (Nat.le_zero.mp hl)
    subst hnil
    rw [hyphenateRuns, replaceRuns, replaceWhitespaceRuns]
  | succ n ih =>
    intro l hl
    cases l with
    | nil => rw [hyphenateRuns, replaceRuns, replaceWhitespaceRuns]
    | cons c cs =>
      have hcs : cs.length ≤ n := by simpa using hl
      rw [hyphenateRuns, replaceRuns]
      by_cases hc : isJsWhitespace c = true
      · have hdrop : (cs.dropWhile isJsWhitespace).length ≤ n :=
          le_trans (List.Sublist.length_le (List.dropWhile_sublist _)) hcs
        simp only [replaceWhitespaceRuns, hc, if_true, Bool.false_eq_true, if_false]
        rw [replaceWhitespaceRuns_in_run, ih _ hdrop, hyphenateRuns]
      · have hc2 : isJsWhitespace c = false := by simpa using hc
        simp only [replaceWhitespaceRuns, hc2, Bool.false_eq_true, if_false]
        rw [ih _ hcs, hyphenateRuns]

/-- Every character the scan writes is a hyphen or a non-whitespace character
of its input. -/
theorem mem_replaceWhitespaceRuns (c : Char) :
    ∀ (l : List Char) (inRun : Bool), c ∈ replaceWhitespaceRuns inRun l →
      isJsWhitespace c = false ∧ (c = '-' ∨ c ∈ l) := by
  intro l
  induction l with
  | nil => intro inRun h; simp [replaceWhitespaceRuns] at h
  | cons a rest ih =>
    intro inRun h
    by_cases ha : isJsWhitespace a = true
    · cases inRun with
      | true =>
        simp only [replaceWhitespaceRuns, ha, if_true] at h
        obtain ⟨h1, h2⟩ := ih true h
        exact ⟨h1, h2.elim Or.inl (fun hm => Or.inr (List.mem_cons_of_mem _ hm))⟩
      | false =>
        simp only [replaceWhitespaceRuns, ha, if_true, Bool.false_eq_true, if_false,
          List.mem_cons] at h
        rcases h with hdash | h
        · exact ⟨by rw [hdash]; decide, Or.inl hdash⟩
        · obtain ⟨h1, h2⟩ := ih true h
          exact ⟨h1, h2.elim Or.inl (fun hm => Or.inr (List.mem_cons_of_mem _ hm))⟩
    · have ha2 : isJsWhitespace a = false := by simpa using ha
      simp only [replaceWhitespaceRuns, ha2, Bool.false_eq_true, if_false, List.mem_cons] at h
      rcases h with hca | h
      · exact ⟨by rw [hca]; exact ha2, Or.inr (hca ▸ List.mem_cons_self _ _)⟩
      · obtain ⟨h1, h2⟩ := ih false h
        exact ⟨h1, h2.elim Or.inl (fun hm => Or.inr (List.mem_cons_of_mem _ hm))⟩

/-- The scan copies a word that is free of whitespace. -/
theorem replaceWhitespaceRuns_word (l : List Char) :
    ∀ w : List Char, (∀ c ∈ w, isJsWhitespace c = false) →
      replaceWhitespaceRuns false (w ++ l) = w ++ replaceWhitespaceRuns false l := by
  intro w
  induction w with
  | nil => intro _; rfl
  | cons c w ih =>
    intro hw
    have hc : isJsWhitespace c = false := hw c (List.mem_cons_self _ _)
    simp only [List.cons_append, replaceWhitespaceRuns, hc, Bool.false_eq_true, if_false]
    exact congrArg (List.cons c) (ih (fun d hd => hw d (List.mem_cons_of_mem _ hd)))

/-- After a run, a word that is not empty is copied as at the start. -/
theorem replaceWhitespaceRuns_word_after_run (l w : List Char) (hne : w ≠ [])
    (hw : ∀ c ∈ w, isJsWhitespace c = false) :
    replaceWhitespaceRuns true (w ++ l) = w ++ replaceWhitespaceRuns false l := by
  cases w with
  | nil => exact absurd rfl hne
  | cons c w =>
    have hc : isJsWhitespace c = false := hw c (List.mem_cons_self _ _)
    simp only [List.cons_append, replaceWhitespaceRuns, hc, Bool.false_eq_true, if_false]
    exact congrArg (List.cons c)
      (replaceWhitespaceRuns_word l w (fun d hd => hw d (List.mem_cons_of_mem _ hd)))

/-- Inside a run, the scan writes nothing for more whitespace. -/
theorem replaceWhitespaceRuns_gap_in_run (l : List Char) :
    ∀ g : List Char, (∀ c ∈ g, isJsWhitespace c = true) →
      replaceWhitespaceRuns true (g ++ l) = replaceWhitespaceRuns true l := by
  intro g
  induction g with
  | nil => intro _; rfl
  | cons c g ih =>
    intro hg
    have hc : isJsWhitespace c = true := hg c (List.mem_cons_self _ _)
    simp only [List.cons_append, replaceWhitespaceRuns, hc, if_true]
    exact ih (fun d hd => hg d (List.mem_cons_of_mem _ hd))

/-- A whole run of whitespace is written as one hyphen. -/
theorem replaceWhitespaceRuns_gap (l g : List Char) (hne : g ≠ [])
    (hg : ∀ c ∈ g, isJsWhitespace c = true) :
    replaceWhitespaceRuns false (g ++ l) = '-' :: replaceWhitespaceRuns true l := by
  cases g with
  | nil => exact absurd rfl hne
  | cons c g =>
    have hc : isJsWhitespace c = true := hg c (List.mem_cons_self _ _)
    simp only [List.cons_append, replaceWhitespaceRuns, hc, if_true, Bool.false_eq_true,
      if_false]
    exact congrArg (List.cons '-')
      (replaceWhitespaceRuns_gap_in_run l g (fun d hd => hg d (List.mem_cons_of_mem _ hd)))

/-- On gaps that are the maximal runs of the text, the scan writes one hyphen
for each gap and copies the words. -/
theorem replaceWhitespaceRuns_gaps :
    ∀ rest : List (List Char × List Char), maximalRuns rest = true →
      replaceWhitespaceRuns false (rest.foldr (fun p acc => p.1 ++ (p.2 ++ acc)) []) =
        rest.foldr (fun p acc => '-' :: (p.2 ++ acc)) [] := by
  intro rest
  induction rest with
  | nil => intro _; rfl
  | cons p ps ih =>
    intro h
    simp only [maximalRuns, Bool.and_eq_true, Bool.not_eq_true', List.all_eq_true,
      Bool.or_eq_true, Bool.not_eq_eq_eq_not, Bool.not_true, List.isEmpty_eq_false] at h
    obtain ⟨⟨⟨⟨hg1, hg2⟩, hw⟩, hlast⟩, hps⟩ := h
    have hgne : p.1 ≠ [] := hg1
    have hwfree : ∀ c ∈ p.2, isJsWhitespace c = false := fun c hc => by simpa using hw c hc
    simp only [List.foldr_cons]
    rw [replaceWhitespaceRuns_gap _ _ hgne hg2]
    by_cases hwne : p.2 = []
    · have hpsnil : ps = [] := by
        rcases hlast with h1 | h1
        · simpa using h1
        · exact absurd hwne h1
      subst hpsnil
      rw [hwne]
      rfl
    · rw [replaceWhitespaceRuns_word_after_run _ _ hwne hwfree, ih hps]

/-- C11.  For every query string, with `toLowerCase` the lower-casing of the
platform: the slug that `fetchData` builds is the query lower-cased with every
maximal run of whitespace replaced by a single hyphen, both by the
replacement written from the spec's words and on every spelling of the
lower-cased query as words and gaps; it holds no whitespace character, and
each of its characters is a hyphen or a character of the lower-cased query, so
that it holds no letter A to Z when lower-casing leaves none; `fetchData`
consults the three endpoint URLs that end in this slug, in order, and answers
from their outcomes alone; and `Long Sword`, lower-cased to `long sword`,
gives `long-sword`. -/
theorem slug_normalizes_query (toLowerCase : String → String) (q : String) :
    slug toLowerCase q = slugBySpec toLowerCase q ∧
    (∀ first rest, (∀ c ∈ first, isJsWhitespace c = false) → maximalRuns rest = true →
      (toLowerCase q).data = spelled first rest →
      (slug toLowerCase q).data = hyphenated first rest) ∧
    (∀ c ∈ (slug toLowerCase q).data,
      isJsWhitespace c = false ∧ (c = '-' ∨ c ∈ (toLowerCase q).data)) ∧
    ((∀ c ∈ (toLowerCase q).data, c.isUpper = false) →
      ∀ c ∈ (slug toLowerCase q).data, c.isUpper = false) ∧
    endpoints (slug toLowerCase q) =
      [ "https://www.dnd5eapi.co/api/equipment/" ++ slug toLowerCase q,
        "https://www.dnd5eapi.co/api/magic-items/" ++ slug toLowerCase q,
        "https://www.dnd5eapi.co/api/weapon-properties/" ++ slug toLowerCase q ] ∧
    (∀ get : String → Settled,
      fetchData toLowerCase get q =
        match get ("https://www.dnd5eapi.co/api/equipment/" ++ slug toLowerCase q),
              get ("https://www.dnd5eapi.co/api/magic-items/" ++ slug toLowerCase q),
              get ("https://www.dnd5eapi.co/api/weapon-properties/" ++ slug toLowerCase q) with
        | .fulfilled d, _, _ => .payload 200 d
        | .rejected _, .fulfilled d, _ => .payload 200 d
        | .rejected _, .rejected _, .fulfilled d => .payload 200 d
        | .rejected m1, .rejected m2, .rejected m3 =>
          .notFound 404 "Item not found"
            [ ("https://www.dnd5eapi.co/api/equipment/" ++ slug toLowerCase q, m1),
              ("https://www.dnd5eapi.co/api/magic-items/" ++ slug toLowerCase q, m2),
              ("https://www.dnd5eapi.co/api/weapon-properties/" ++ slug toLowerCase q, m3) ]) ∧
    (toLowerCase "Long Sword" = "long sword" → slug toLowerCase "Long Sword" = "long-sword") := by
  have hmem : ∀ c ∈ (slug toLowerCase q).data,
      isJsWhitespace c = false ∧ (c = '-' ∨ c ∈ (toLowerCase q).data) := by
    intro c hc
    simp only [slug] at hc
    exact mem_replaceWhitespaceRuns c _ false hc
  have hends : endpoints (slug toLowerCase q) =
      [ "https://www.dnd5eapi.co/api/equipment/" ++ slug toLowerCase q,
        "https://www.dnd5eapi.co/api/magic-items/" ++ slug toLowerCase q,
        "https://www.dnd5eapi.co/api/weapon-properties/" ++ slug toLowerCase q ] := by
    simp [endpoints, String.append_assoc]
  refine ⟨?_, ?_, hmem, ?_, hends, ?_, ?_⟩
  · simp only [slug, slugBySpec]
    rw [replaceWhitespaceRuns_eq_hyphenateRuns _ _ (le_refl _)]
  · intro first rest hfirst hruns hspelled
    simp only [slug, hspelled, spelled, hyphenated]
    rw [replaceWhitespaceRuns_word _ _ hfirst, replaceWhitespaceRuns_gaps _ hruns]
  · intro hlower c hc
    rcases (hmem c hc).2 with hdash | hsrc
    · rw [hdash]; decide
    · exact hlower c hsrc
  · intro get
    simp only [fetchData, hends, List.map_cons, List.map_nil]
    cases h1 : get ("https://www.dnd5eapi.co/api/equipment/" ++ slug toLowerCase q) with
    | fulfilled d => rfl
    | rejected m1 =>
      cases h2 : get ("https://www.dnd5eapi.co/api/magic-items/" ++ slug toLowerCase q) with
      | fulfilled d => rfl
      | rejected m2 =>
        cases h3 : get ("https://www.dnd5eapi.co/api/weapon-properties/" ++
            slug toLowerCase q) with
        | fulfilled d => rfl
        | rejected m3 => rfl
  · intro h
    simp only [slug, h]
    decide

/-- C11 at the query `Long Sword`, lower-cased on the letters A to Z: the slug
is `long-sword`, on the spelling `long`, one blank, `sword` as well, and it
holds no letter A to Z. -/
theorem slug_normalizes_query_witness :
    slug asciiLower "Long Sword" = "long-sword" ∧
    (slug asciiLower "Long Sword").data =
      hyphenated ['l', 'o', 'n', 'g'] [([' '], ['s', 'w', 'o', 'r', 'd'])] ∧
    (∀ c ∈ (slug asciiLower "Long Sword").data, c.isUpper = false) :=
  ⟨(slug_normalizes_query asciiLower "Long Sword").2.2.2.2.2.2 (by decide),
    (slug_normalizes_query asciiLower "Long Sword").2.1 ['l', 'o', 'n', 'g']
      [([' '], ['s', 'w', 'o', 'r', 'd'])] (by decide) (by decide) (by decide),
    (slug_normalizes_query asciiLower "Long Sword").2.2.2.1
      (fun c hc => by
        obtain ⟨a, _, rfl⟩ := List.mem_map.mp hc
        exact isUpper_toLower a)⟩

/-! ## Name validation -/

/-- C12.  For every request body whose name is missing, null or empty,
`createEquipment` answers 400 with `Name is required` and leaves the store as
it was. -/
theorem createEquipment_name_required (s : Store) (body : JVal) (fr : Fresh)
    (hbody : body.nullish = false)
    (hname : body.prop "name" = .undefined ∨ body.prop "name" = .null ∨
      body.prop "name" = .str "") :
    createEquipment s body fr =
      ({ status := 400, body := .message "Name is required" }, s) := by
  rcases hname with h | h | h <;>
    simp [createEquipment, JVal.member, hbody, h, JVal.truthy]

/-- C12 on the empty store, for a body with an empty name. -/
theorem createEquipment_name_required_witness :
    createEquipment emptyStore (.obj [("name", .str ""), ("weight", .num 3)]) firstFresh =
      ({ status := 400, body := .message "Name is required" }, emptyStore) :=
  createEquipment_name_required emptyStore _ firstFresh rfl (Or.inr (Or.inr rfl))

/-- An item whose name is missing, null or empty, in general:
`saveFetchedEquipment` fails, `addToInventory` answers 500, and the store is
left as it was. -/
theorem nameless_item_refused (s : Store) (u : UserId) (name k : JsString) (fr : Fresh)
    (hname : name = .undefined ∨ name = .null ∨ name = .str "") :
    (∃ m, saveFetchedEquipment s (some { name := name, equipmentId := k }) fr = .error m) ∧
    (addToInventory s u (some { name := name, equipmentId := k }) fr).1.status = 500 ∧
    (addToInventory s u (some { name := name, equipmentId := k }) fr).2 = s := by
  rcases hname with h | h | h <;> subst h <;>
    simp [saveFetchedEquipment, addToInventory]

/-- C13.  The claim fails at an item without a name: `addToInventory`
answers 500, not 400, and the error that `saveFetchedEquipment` hands on is
the very error it gives when the store refuses the save of a named item, so
the two are not told apart.  Nothing is persisted.  The sibling handler
`createEquipment` answers 400 with `Name is required` to a body without a
name. -/
theorem addToInventory_name_missing :
    (addToInventory emptyStore 7 (some namelessItem) firstFresh).1 =
      { status := 500, item := none, message := some "Failed to add item to inventory" } ∧
    (addToInventory emptyStore 7 (some namelessItem) firstFresh).2 = emptyStore ∧
    saveFetchedEquipment emptyStore (some namelessItem) firstFresh =
      .error "Failed to save fetched equipment" ∧
    saveFetchedEquipment takenStore (some longsword) firstFresh =
      .error "Failed to save fetched equipment" ∧
    createEquipment emptyStore (.obj [("equipmentId", .str "longsword")]) firstFresh =
      ({ status := 400, body := .message "Name is required" }, emptyStore) :=
  ⟨rfl, rfl, rfl, rfl, rfl⟩

/-! ## Type checks of `updateEquipment` -/

/-- The test `typeof v === 'undefined'` says that `v` is not present. -/
theorem typeof_undefined_iff (v : JVal) : (v.typeof == "undefined") = !v.present := by
  cases v <;> rfl

/-- The test `typeof v === 'number'` says that `v` is a number. -/
theorem typeof_number_iff (v : JVal) : (v.typeof == "number") = v.isNumber := by
  cases v <;> rfl

/-- The guard on `cost.quantity` in the source and in the spec's words agree:
a falsy `cost` has no `quantity`. -/
theorem cost_guard_eq (c : JVal) :
    (c.truthy && !((c.prop "quantity").typeof == "undefined") &&
      !((c.prop "quantity").typeof == "number")) =
    ((c.optProp "quantity").present && !(c.optProp "quantity").isNumber) := by
  rw [typeof_undefined_iff, typeof_number_iff]
  cases c <;> simp [JVal.truthy, JVal.optProp, JVal.nullish, JVal.prop, JVal.present]

/-- C20.  For every patch with a non-empty name, `updateEquipment` answers 400
exactly when `cost.quantity` is present and not a number or `weight` is
present and not a number, and then the store is left as it was; in
particular a patch whose `cost.quantity` and `weight` are each absent or
numeric is not answered 400. -/
theorem updateEquipment_bad_types (s : Store) (id : ObjectId) (patch : JVal) (n : String)
    (hname : patch.prop "name" = .str n) (hn : n ≠ "") :
    ((updateEquipment s id patch).1.status = 400 ↔ badTypes patch = true) ∧
    (badTypes patch = true → (updateEquipment s id patch).2 = s) := by
  have hnull : patch.nullish = false := by
    cases patch with
    | obj fields => rfl
    | _ => simp [JVal.prop] at hname
  have htruthy : (JVal.str n).truthy = true := by simp [JVal.truthy, hn]
  have hcost := cost_guard_eq (patch.prop "cost")
  have hweight : (!((patch.prop "weight").typeof == "undefined") &&
      !((patch.prop "weight").typeof == "number")) =
      ((patch.prop "weight").present && !(patch.prop "weight").isNumber) := by
    rw [typeof_undefined_iff, typeof_number_iff, Bool.not_not]
  unfold updateEquipment
  simp only [JVal.member, hnull, Bool.false_eq_true, if_false, hname, htruthy, Bool.not_true,
    hcost, hweight, badTypes]
  by_cases h1 : (((patch.prop "cost").optProp "quantity").present &&
      !((patch.prop "cost").optProp "quantity").isNumber) = true
  · simp [h1]
  · have h1f : (((patch.prop "cost").optProp "quantity").present &&
        !((patch.prop "cost").optProp "quantity").isNumber) = false := by simpa using h1
    by_cases h2 : ((patch.prop "weight").present && !(patch.prop "weight").isNumber) = true
    · simp [h1f, h2]
    · have h2f : ((patch.prop "weight").present && !(patch.prop "weight").isNumber) = false := by
        simpa using h2
      simp only [h1f, h2f, Bool.false_eq_true, if_false, Bool.or_self, false_implies, and_true,
        iff_false]
      split
      · simp
      · split
        · simp
        · simp
        · simp

/-- C20 for a patch whose weight is sent as text. -/
theorem updateEquipment_bad_types_witness :
    ((updateEquipment sharedStore 1 textWeightPatch).1.status = 400 ↔
      badTypes textWeightPatch = true) ∧
    (badTypes textWeightPatch = true → (updateEquipment sharedStore 1 textWeightPatch).2 =
      sharedStore) :=
  updateEquipment_bad_types sharedStore 1 textWeightPatch "Rope" rfl (by decide)

/-! ## The records built by the two field mappings -/

/-- A bind in `Except` succeeds exactly when both steps do. -/
theorem except_bind_eq_ok {ε α β : Type} (x : Except ε α) (f : α → Except ε β) (b : β) :
    (x >>= f) = .ok b ↔ ∃ a, x = .ok a ∧ f a = .ok b := by
  cases x with
  | error e => simp [bind, Except.bind]
  | ok a => simp [bind, Except.bind]

/-- A successful schema cast, read path by path. -/
theorem castEquipment_ok {lit : JVal} {doc : EquipmentDoc} (h : castEquipment lit = .ok doc) :
    castRequiredName (lit.prop "name") = .ok doc.name ∧
    castStringPath "" (lit.prop "category_range") = .ok doc.category_range ∧
    castDamage lit "damage" = .ok doc.damage ∧
    castDamage lit "two_handed_damage" = .ok doc.two_handed_damage ∧
    castRange lit "range" = .ok doc.range ∧
    castRange lit "throw_range" = .ok doc.throw_range ∧
    castProperties lit = .ok doc.properties ∧
    castNamed lit "equipment_category" = .ok doc.equipment_category ∧
    castNamed lit "rarity" = .ok doc.rarity ∧
    castCost lit = .ok doc.cost ∧
    castEffects lit = .ok doc.effects := by
  simp only [castEquipment, except_bind_eq_ok] at h
  obtain ⟨name, hname, cr, hcr, dmg, hdmg, thd, hthd, rng, hrng, trg, htrg, props, hprops,
    ecat, hecat, rar, hrar, ra, _, w, _, cost, hcost, desc, _, mag, _, eff, heff, cid, _,
    hpure⟩ := h
  cases hpure
  exact ⟨hname, hcr, hdmg, hthd, hrng, htrg, hprops, hecat, hrar, hcost, heff⟩

/-- A record built by `saveFetchedEquipment`, read step by step: the name is
truthy, the three entries that can throw were evaluated, and the literal was
cast. -/
theorem fetchedRecord_ok {item : JVal} {tok : String} {doc : EquipmentDoc}
    (h : fetchedRecord item tok = .ok doc) :
    ∃ name range properties effects,
      item.member "name" = .ok name ∧ name.truthy = true ∧
      fetchedRange item = .ok range ∧ fetchedProperties item = .ok properties ∧
      fetchedEffects item = .ok effects ∧
      castEquipment (fetchedObject item tok name range properties effects) = .ok doc := by
  simp only [fetchedRecord, except_bind_eq_ok] at h
  obtain ⟨name, hname, hrest⟩ := h
  by_cases ht : name.truthy = true
  · simp only [ht, Bool.not_true, Bool.false_eq_true, if_false, fetchedLiteral,
      except_bind_eq_ok] at hrest
    obtain ⟨lit, ⟨name1, hname1, range, hrange, properties, hprops, effects, heff, hpure⟩,
      hcast⟩ := hrest
    cases hpure
    rw [hname] at hname1
    cases hname1
    exact ⟨name, range, properties, effects, hname, ht, hrange, hprops, heff, hcast⟩
  · simp [ht] at hrest

/-- A record built by `createEquipment`, read step by step. -/
theorem createdRecord_ok {body : JVal} {tok : String} {doc : EquipmentDoc}
    (h : createdRecord body tok = .ok doc) :
    ∃ name properties effects,
      body.member "name" = .ok name ∧
      createdProperties body = .ok properties ∧ createdEffects body = .ok effects ∧
      castEquipment (createdObject body tok name properties effects) = .ok doc := by
  simp only [createdRecord, createdLiteral, except_bind_eq_ok] at h
  obtain ⟨lit, ⟨name, hname, properties, hprops, effects, heff, hpure⟩, hcast⟩ := h
  cases hpure
  exact ⟨name, properties, effects, hname, hprops, heff, hcast⟩

/-- The four entries of the fetched literal that are read back below. -/
theorem fetchedObject_prop (item : JVal) (tok : String) (name range properties effects : JVal) :
    (fetchedObject item tok name range properties effects).prop "name" = name ∧
    (fetchedObject item tok name range properties effects).prop "range" = range ∧
    (fetchedObject item tok name range properties effects).prop "properties" = properties ∧
    (fetchedObject item tok name range properties effects).prop "effects" = effects :=
  ⟨rfl, rfl, rfl, rfl⟩

/-- The entries of the created literal that are read back below. -/
theorem createdObject_prop (body : JVal) (tok : String) (name properties effects : JVal) :
    (createdObject body tok name properties effects).prop "name" = name ∧
    (createdObject body tok name properties effects).prop "range" =
      .obj [("normal", ((body.prop "range").optProp "normal").orElse .null),
            ("long", ((body.prop "range").optProp "long").orElse .null)] ∧
    (createdObject body tok name properties effects).prop "properties" = properties ∧
    (createdObject body tok name properties effects).prop "effects" = effects :=
  ⟨rfl, rfl, rfl, rfl⟩

/-- The separator test on the first character of a text. -/
theorem afterSeparator_cons (c : Char) (l : List Char) :
    afterSeparator (c :: l) =
      if c = ':' ∧ l.head? = some ' ' then some l.tail else afterSeparator l := by
  conv_lhs => unfold afterSeparator
  split
  · rename_i heq; cases heq
  · rename_i rest heq
    cases heq
    simp
  · rename_i c1 rest hne heq
    cases heq
    have : ¬ (c = ':' ∧ l.head? = some ' ') := by
      rintro ⟨rfl, h2⟩
      cases l with
      | nil => simp at h2
      | cons d l2 =>
        simp at h2
        subst h2
        exact hne l2 rfl rfl
    rw [if_neg this]

/-- The text before the separator, read from the first character. -/
theorem beforeSeparator_cons (c : Char) (l : List Char) :
    beforeSeparator (c :: l) =
      if c = ':' ∧ l.head? = some ' ' then [] else c :: beforeSeparator l := by
  conv_lhs => unfold beforeSeparator
  split
  · rename_i heq; cases heq
  · rename_i rest heq
    cases heq
    simp
  · rename_i c1 rest hne heq
    cases heq
    have : ¬ (c = ':' ∧ l.head? = some ' ') := by
      rintro ⟨rfl, h2⟩
      cases l with
      | nil => simp at h2
      | cons d l2 =>
        simp at h2
        subst h2
        exact hne l2 rfl rfl
    rw [if_neg this]

/-- After a label without separator, the first separator is the one that
follows the label. -/
theorem afterSeparator_append (r : List Char) :
    ∀ l : List Char, afterSeparator l = none →
      afterSeparator (l ++ ':' :: ' ' :: r) = some r := by
  intro l
  induction l with
  | nil => intro _; rw [List.nil_append, afterSeparator_cons]; simp
  | cons c l ih =>
    intro h
    rw [afterSeparator_cons] at h
    rw [List.cons_append, afterSeparator_cons]
    by_cases hc : c = ':' ∧ l.head? = some ' '
    · rw [if_pos hc] at h; cases h
    · rw [if_neg hc] at h
      have hc2 : ¬ (c = ':' ∧ (l ++ ':' :: ' ' :: r).head? = some ' ') := by
        rintro ⟨h1, h2⟩
        cases l with
        | nil => simp at h2
        | cons d l2 => exact hc ⟨h1, by simpa using h2⟩
      rw [if_neg hc2]
      exact ih h

/-- A text without colon has no separator to stop at. -/
theorem beforeSeparator_of_no_colon :
    ∀ l : List Char, (∀ c ∈ l, c ≠ ':') → beforeSeparator l = l := by
  intro l
  induction l with
  | nil => intro _; rfl
  | cons c l ih =>
    intro h
    rw [beforeSeparator_cons]
    have hc : ¬ (c = ':' ∧ l.head? = some ' ') := fun hcon => h c (List.mem_cons_self _ _) hcon.1
    rw [if_neg hc, ih (fun d hd => h d (List.mem_cons_of_mem _ hd))]

/-- A text that spells a numeral is not empty and holds no colon. -/
theorem readNumeral_some {cs : List Char} {x : Numeral} (h : readNumeral cs = some x) :
    cs ≠ [] ∧ ∀ c ∈ cs, c ≠ ':' := by
  refine ⟨?_, ?_⟩
  · intro hnil
    rw [hnil] at h
    have hempty : readNumeral [] = none := by decide
    rw [hempty] at h
    cases h
  · intro c hc hcolon
    unfold readNumeral at h
    split at h
    · cases h
    · rename_i hall
      have hchars : cs.all numeralChar = true := by simpa using hall
      have := List.all_eq_true.mp hchars c hc
      rw [hcolon] at this
      exact absurd this (by decide)

/-- The second piece of `<label>: <numeral>` is the numeral. -/
theorem splitSecond_legacy (label text : String) (numeral : Numeral)
    (hlabel : afterSeparator label.data = none) (hnum : readNumeral text.data = some numeral) :
    splitSecond (label ++ ": " ++ text) = .str text := by
  have hdata : (label ++ ": " ++ text).data = label.data ++ ':' :: ' ' :: text.data := by
    simp [String.data_append]
  simp only [splitSecond, hdata, afterSeparator_append _ _ hlabel,
    beforeSeparator_of_no_colon _ (readNumeral_some hnum).2]

/-- The range literal and its cast for a legacy range string. -/
theorem castRange_legacy (item : JVal) (tok label text : String) (numeral : Numeral) (x : ℚ)
    (name range properties effects : JVal)
    (hrange : item.prop "range" = .str (label ++ ": " ++ text))
    (hlabel : afterSeparator label.data = none) (hnum : readNumeral text.data = some numeral)
    (hx : numeral.toNumber = some x)
    (hlit : fetchedRange item = .ok range) :
    castRange (fetchedObject item tok name range properties effects) "range" =
      .ok { normal := some x, long := none } := by
  have hne : (text == "") = false := by
    have h1 := (readNumeral_some hnum).1
    cases text with
    | mk data =>
      cases data with
      | nil => exact absurd rfl h1
      | cons c cs => rfl
  have hfr : fetchedRange item = .ok (.obj [("normal", .str text), ("long", .null)]) := by
    simp only [fetchedRange, hrange, JVal.typeof, splitSecond_legacy label text numeral hlabel hnum]
    rfl
  rw [hfr] at hlit
  cases hlit
  have hnested : nestedValue
      (fetchedObject item tok name (.obj [("normal", .str text), ("long", .null)])
        properties effects) "range" =
      .ok (.obj [("normal", .str text), ("long", .null)]) := rfl
  have hnormal : castNumberPath (.str text) = .ok (some x) := by
    simp only [castNumberPath, hne, hnum, Option.bind, hx]
    rfl
  unfold castRange
  rw [hnested]
  show (castNumberPath (.str text) >>= fun normal =>
    castNumberPath .null >>= fun long =>
      (pure { normal := normal, long := long } : Except BuildError RangeDoc)) = _
  rw [hnormal]
  rfl

/-- Zero has no binary digit. -/
theorem bitLength_zero (fuel : Nat) : bitLength fuel 0 = 0 := by
  cases fuel <;> simp [bitLength]

/-- With enough fuel, `bitLength` is the number of binary digits. -/
theorem bitLength_bounds : ∀ (fuel n : Nat), n ≤ fuel → 0 < n →
    1 ≤ bitLength fuel n ∧ 2 ^ (bitLength fuel n - 1) ≤ n ∧ n < 2 ^ bitLength fuel n := by
  intro fuel
  induction fuel with
  | zero => intro n h1 h2; omega
  | succ fuel ih =>
    intro n hle hpos
    have hne : n ≠ 0 := by omega
    simp only [bitLength, hne, if_false]
    by_cases hhalf : n / 2 = 0
    · have hn1 : n = 1 := by omega
      subst hn1
      simp [bitLength_zero]
    · have hpos2 : 0 < n / 2 := Nat.pos_of_ne_zero hhalf
      have hle2 : n / 2 ≤ fuel := by omega
      obtain ⟨h1, h2, h3⟩ := ih (n / 2) hle2 hpos2
      refine ⟨by omega, ?_, ?_⟩
      · have : bitLength fuel (n / 2) + 1 - 1 = (bitLength fuel (n / 2) - 1) + 1 := by omega
        rw [this, pow_succ]
        omega
      · rw [pow_succ]
        omega

/-- A whole number below 2^53 is a JavaScript number: rounding leaves it as it
is. -/
theorem nearestDouble_whole (negative : Bool) (n : Nat) (hn : n < 9007199254740992) :
    nearestDouble negative n 1 = some (if negative then -(n : ℚ) else (n : ℚ)) := by
  by_cases hzero : n = 0
  · subst hzero
    cases negative
    · simp [nearestDouble]
    · simp [nearestDouble]
  have hpos : 0 < n := Nat.pos_of_ne_zero hzero
  obtain ⟨hL1, hL2, hL3⟩ := bitLength_bounds n n (le_refl _) hpos
  have hL53 : bitLength n n ≤ 53 := by
    by_contra hcon
    have h54 : 54 ≤ bitLength n n := by omega
    have : 2 ^ 53 ≤ 2 ^ (bitLength n n - 1) :=
      Nat.pow_le_pow_right (by decide) (by omega)
    have h253 : (2 : Nat) ^ 53 = 9007199254740992 := by norm_num
    omega
  have hone : bitLength 1 1 = 1 := by decide
  obtain ⟨k, hk⟩ : ∃ k, bitLength n n + k = 53 := ⟨53 - bitLength n n, by omega⟩
  have he : ((bitLength n n : Nat) : Int) - ((bitLength 1 1 : Nat) : Int) - 53 + 1 =
      -(k : Int) := by
    rw [hone]; omega
  have hpow : 2 ^ 52 ≤ n * 2 ^ k := by
    have h1 : 2 ^ (bitLength n n - 1) * 2 ^ k ≤ n * 2 ^ k := Nat.mul_le_mul_right _ hL2
    have h2 : 2 ^ (bitLength n n - 1) * 2 ^ k = 2 ^ 52 := by
      rw [← pow_add]
      congr 1
      omega
    omega
  have hnum : scaledNum n (-(k : Int)) = n * 2 ^ k := by
    cases k with
    | zero => simp [scaledNum]
    | succ j =>
      have : ¬ (0 : Int) ≤ -((j + 1 : Nat) : Int) := by omega
      simp only [scaledNum, if_neg this, neg_neg, Int.toNat_ofNat]
  have hden : scaledDen 1 (-(k : Int)) = 1 := by
    cases k with
    | zero => simp [scaledDen]
    | succ j =>
      have : ¬ (0 : Int) ≤ -((j + 1 : Nat) : Int) := by omega
      simp only [scaledDen, if_neg this]
  have hexp : binaryExponent n 1 = -(k : Int) := by
    unfold binaryExponent
    simp only [he, hnum, hden, Nat.mul_one, hpow, if_true]
    exact max_eq_left (by omega)
  have hround : roundHalfEven (n * 2 ^ k) 1 = n * 2 ^ k := by
    simp [roundHalfEven, Nat.mod_one]
  unfold nearestDouble
  rw [if_neg hzero]
  simp only [hexp, hnum, hden, hround]
  have hno : ¬ (971 < -(k : Int) ∨ (-(k : Int) = 971 ∧ n * 2 ^ k = 2 ^ 53)) := by omega
  rw [if_neg hno]
  cases k with
  | zero =>
    cases negative
    · simp
    · simp
  | succ j =>
    have hneg : ¬ (0 : Int) ≤ -((j + 1 : Nat) : Int) := by omega
    rw [if_neg hneg]
    cases negative
    · simp [Rat.mkRat_eq_div]
    · simp [Rat.mkRat_eq_div]
      field_simp

/-- An item that has nothing but a name and a legacy range is built into a
record: every other path is at its default. -/
theorem fetchedRecord_legacy_built (tok n label text : String) (numeral : Numeral) (x : ℚ)
    (hn : n ≠ "")
    (hlabel : afterSeparator label.data = none)
    (hnum : readNumeral text.data = some numeral)
    (hx : numeral.toNumber = some x) :
    fetchedRecord (.obj [("name", .str n), ("range", .str (label ++ ": " ++ text))]) tok =
      .ok { defaultRecord n tok with range := { normal := some x, long := none } } := by
  have hne : (n == "") = false := by simpa using hn
  have htruthy : (JVal.str n).truthy = true := by simp [JVal.truthy, hn]
  have hfr : fetchedRange (.obj [("name", .str n), ("range", .str (label ++ ": " ++ text))]) =
      .ok (.obj [("normal", .str text), ("long", .null)]) := by
    have hprop : JVal.prop (.obj [("name", .str n), ("range", .str (label ++ ": " ++ text))])
        "range" = .str (label ++ ": " ++ text) := rfl
    simp only [fetchedRange, hprop, JVal.typeof,
      splitSecond_legacy label text numeral hlabel hnum]
    rfl
  have hlit : fetchedLiteral
      (.obj [("name", .str n), ("range", .str (label ++ ": " ++ text))]) tok =
      .ok (fetchedObject (.obj [("name", .str n), ("range", .str (label ++ ": " ++ text))])
        tok (.str n) (.obj [("normal", .str text), ("long", .null)]) (.arr []) (.arr [])) := by
    have hmember : JVal.member
        (.obj [("name", .str n), ("range", .str (label ++ ": " ++ text))]) "name" =
        .ok (.str n) := rfl
    have hprops : fetchedProperties
        (.obj [("name", .str n), ("range", .str (label ++ ": " ++ text))]) = .ok (.arr []) :=
      rfl
    have heffects : fetchedEffects
        (.obj [("name", .str n), ("range", .str (label ++ ": " ++ text))]) = .ok (.arr []) :=
      rfl
    simp only [fetchedLiteral, hmember, hfr, hprops, heffects]
    rfl
  have hname2 : castRequiredName (JVal.str n) = .ok n := by
    simp [castRequiredName, castStringPath, hne]
  have hrange := castRange_legacy
    (.obj [("name", .str n), ("range", .str (label ++ ": " ++ text))]) tok label text numeral x
    (.str n) (.obj [("normal", .str text), ("long", .null)]) (.arr []) (.arr []) rfl
    hlabel hnum hx hfr
  have hcast : castEquipment
      (fetchedObject (.obj [("name", .str n), ("range", .str (label ++ ": " ++ text))])
        tok (.str n) (.obj [("normal", .str text), ("long", .null)]) (.arr []) (.arr [])) =
      .ok { defaultRecord n tok with range := { normal := some x, long := none } } := by
    have hnameprop : JVal.prop
        (fetchedObject (.obj [("name", .str n), ("range", .str (label ++ ": " ++ text))])
          tok (.str n) (.obj [("normal", .str text), ("long", .null)]) (.arr []) (.arr []))
        "name" = .str n := rfl
    simp only [castEquipment, hnameprop, hname2, hrange, bind, Except.bind]
    rfl
  unfold fetchedRecord
  have hmember : JVal.member
      (.obj [("name", .str n), ("range", .str (label ++ ": " ++ text))]) "name" =
      .ok (.str n) := rfl
  rw [hmember]
  show (if (!(JVal.str n).truthy) = true then _ else _) = _
  rw [htruthy]
  show (fetchedLiteral _ tok >>= fun lit => castEquipment lit) = _
  rw [hlit]
  exact hcast

/-- C14.  Let a legacy range be `<label>: <number>`: a label without the
separator, then a decimal numeral as `Number` reads it (an optional sign,
digits with an optional point, an optional exponent).  For every raw item with
this range, the record that `saveFetchedEquipment` builds has `range.normal`
equal to the JavaScript number that the numeral denotes and `range.long` null;
for an item that has nothing but a non-empty name and this range, the record
is built, every other path at its default; and for a whole numeral below 2^53
that number is the value of its digits, with its sign. -/
theorem fetchedRecord_legacy_range (tok label text : String) (numeral : Numeral) (x : ℚ)
    (hlabel : afterSeparator label.data = none)
    (hnum : readNumeral text.data = some numeral)
    (hx : numeral.toNumber = some x) :
    (∀ (item : JVal) (doc : EquipmentDoc),
      item.prop "range" = .str (label ++ ": " ++ text) →
      fetchedRecord item tok = .ok doc →
      doc.range = { normal := some x, long := none }) ∧
    (∀ n : String, n ≠ "" →
      fetchedRecord (.obj [("name", .str n), ("range", .str (label ++ ": " ++ text))]) tok =
        .ok { defaultRecord n tok with range := { normal := some x, long := none } }) ∧
    (numeral.scale = 0 → numeral.digits < 9007199254740992 →
      x = if numeral.negative then -(numeral.digits : ℚ) else (numeral.digits : ℚ)) := by
  refine ⟨?_, ?_, ?_⟩
  · intro item doc hrange hdoc
    obtain ⟨name, range, properties, effects, _, _, hlit, _, _, hcast⟩ := fetchedRecord_ok hdoc
    have h1 := (castEquipment_ok hcast).2.2.2.2.1
    rw [castRange_legacy item tok label text numeral x name range properties effects hrange
      hlabel hnum hx hlit] at h1
    exact (Except.ok.inj h1).symm
  · intro n hn
    exact fetchedRecord_legacy_built tok n label text numeral x hn hlabel hnum hx
  · intro hscale hsafe
    have hwhole := nearestDouble_whole numeral.negative numeral.digits hsafe
    simp only [Numeral.toNumber, hscale, pow_zero, hwhole, Option.some.injEq] at hx
    exact hx.symm

/-- C14 for the range `Normal: 30`: the record is built, with range 30 and
null. -/
theorem fetchedRecord_legacy_range_witness :
    readNumeral "30".data = some { negative := false, digits := 30, scale := 0 } ∧
    fetchedRecord longbowItem "3f9a1c0b7d2e4a5f6b8c" =
      .ok { defaultRecord "Longbow" "3f9a1c0b7d2e4a5f6b8c" with
            range := { normal := some 30, long := none } } :=
  ⟨rfl, (fetchedRecord_legacy_range "3f9a1c0b7d2e4a5f6b8c" "Normal" "30"
    { negative := false, digits := 30, scale := 0 } 30 rfl rfl rfl).2.1 "Longbow"
    (by decide)⟩

/-- The number cast on three more legacy ranges: a negative numeral with a
fraction, a numeral that is not a binary fraction, and a whole numeral beyond
2^53, which is rounded. -/
theorem legacy_range_rounding :
    (∃ doc, fetchedRecord (.obj [("name", .str "Whip"), ("range", .str "Reach: -2.5")])
        "3f9a1c0b7d2e4a5f6b8c" = .ok doc ∧
      doc.range = { normal := some (mkRat (-5) 2), long := none }) ∧
    (∃ doc, fetchedRecord (.obj [("name", .str "Dart"), ("range", .str "Normal: 0.1")])
        "3f9a1c0b7d2e4a5f6b8c" = .ok doc ∧
      doc.range =
        { normal := some (mkRat 3602879701896397 36028797018963968), long := none }) ∧
    (∃ doc, fetchedRecord
        (.obj [("name", .str "Ballista"), ("range", .str "Normal: 9007199254740993")])
        "3f9a1c0b7d2e4a5f6b8c" = .ok doc ∧
      doc.range = { normal := some 9007199254740992, long := none }) :=
  ⟨⟨_, rfl, rfl⟩, ⟨_, rfl, rfl⟩, ⟨_, rfl, rfl⟩⟩

/-- The numerals that `Number` reads, on examples: a missing digit before or
after the point, an exponent, whitespace around the numeral; and texts that
are no numeral. -/
theorem readNumeral_examples :
    (readNumeral ".5".data).bind Numeral.toNumber = some (mkRat 1 2) ∧
    (readNumeral "5.".data).bind Numeral.toNumber = some 5 ∧
    (readNumeral "1e3".data).bind Numeral.toNumber = some 1000 ∧
    (readNumeral "2.5E-1".data).bind Numeral.toNumber = some (mkRat 1 4) ∧
    (readNumeral " 30\t".data).bind Numeral.toNumber = some 30 ∧
    (readNumeral "+7".data).bind Numeral.toNumber = some 7 ∧
    (readNumeral "-0".data).bind Numeral.toNumber = some 0 ∧
    readNumeral ".".data = none ∧
    readNumeral "1e".data = none ∧
    readNumeral "- 5".data = none ∧
    readNumeral "3 0".data = none ∧
    readNumeral "30ft".data = none ∧
    readNumeral "".data = none :=
  by decide

/-- The cast of a number path gives back a number or null. -/
theorem castNumberPath_json (a : Option ℚ) : castNumberPath (jsonOfNumber a) = .ok a := by
  cases a <;> rfl

/-- The default `v || null` of `createEquipment` on a number or null: zero is
falsy and becomes null. -/
theorem orElse_null_json (a : Option ℚ) (ha : a ≠ some 0) :
    (jsonOfNumber a).orElse .null = jsonOfNumber a := by
  cases a with
  | none => rfl
  | some q =>
    have hq : q ≠ 0 := fun h => ha (by rw [h])
    simp [jsonOfNumber, JVal.orElse, JVal.truthy, hq]

/-- C15, amended.  For every input whose range is an object with `normal` and
`long` each a number or null, the record built by `saveFetchedEquipment` has
`range.normal` and `range.long` equal to the input's, and so has the record
built by `createEquipment` when neither of the two is the number 0. -/
theorem range_object_kept (input : JVal) (tok : String) (fields : List (String × JVal))
    (a b : Option ℚ)
    (hrange : input.prop "range" = .obj fields)
    (hnormal : (JVal.obj fields).prop "normal" = jsonOfNumber a)
    (hlong : (JVal.obj fields).prop "long" = jsonOfNumber b) :
    (∀ doc, fetchedRecord input tok = .ok doc → doc.range = { normal := a, long := b }) ∧
    (∀ doc, createdRecord input tok = .ok doc → a ≠ some 0 → b ≠ some 0 →
      doc.range = { normal := a, long := b }) := by
  constructor
  · intro doc hdoc
    obtain ⟨name, range, properties, effects, _, _, hlit, _, _, hcast⟩ := fetchedRecord_ok hdoc
    have hfr : fetchedRange input =
        .ok (.obj [("normal", jsonOfNumber a), ("long", jsonOfNumber b)]) := by
      simp only [fetchedRange, hrange, JVal.typeof, JVal.member, JVal.nullish, hnormal, hlong]
      rfl
    rw [hfr] at hlit
    cases hlit
    have h1 := (castEquipment_ok hcast).2.2.2.2.1
    have hnested : nestedValue
        (fetchedObject input tok name
          (.obj [("normal", jsonOfNumber a), ("long", jsonOfNumber b)]) properties effects)
        "range" = .ok (.obj [("normal", jsonOfNumber a), ("long", jsonOfNumber b)]) := rfl
    unfold castRange at h1
    rw [hnested] at h1
    have h2 : (castNumberPath (jsonOfNumber a) >>= fun normal =>
        castNumberPath (jsonOfNumber b) >>= fun long =>
          (pure { normal := normal, long := long } : Except BuildError RangeDoc)) =
        .ok doc.range := h1
    rw [castNumberPath_json, castNumberPath_json] at h2
    exact (Except.ok.inj h2).symm
  · intro doc hdoc ha hb
    obtain ⟨name, properties, effects, _, _, _, hcast⟩ := createdRecord_ok hdoc
    have h1 := (castEquipment_ok hcast).2.2.2.2.1
    have hn : ((input.prop "range").optProp "normal").orElse .null = jsonOfNumber a := by
      rw [hrange]
      show ((JVal.obj fields).prop "normal").orElse .null = _
      rw [hnormal, orElse_null_json a ha]
    have hl : ((input.prop "range").optProp "long").orElse .null = jsonOfNumber b := by
      rw [hrange]
      show ((JVal.obj fields).prop "long").orElse .null = _
      rw [hlong, orElse_null_json b hb]
    have hnested : nestedValue (createdObject input tok name properties effects) "range" =
        .ok (.obj [("normal", ((input.prop "range").optProp "normal").orElse .null),
                   ("long", ((input.prop "range").optProp "long").orElse .null)]) := rfl
    unfold castRange at h1
    rw [hnested, hn, hl] at h1
    have h2 : (castNumberPath (jsonOfNumber a) >>= fun normal =>
        castNumberPath (jsonOfNumber b) >>= fun long =>
          (pure { normal := normal, long := long } : Except BuildError RangeDoc)) =
        .ok doc.range := h1
    rw [castNumberPath_json, castNumberPath_json] at h2
    exact (Except.ok.inj h2).symm

/-- C15 for the range `{ normal: 30, long: 120 }`: both records are built and
both keep the range. -/
theorem range_object_kept_witness :
    (∃ doc, fetchedRecord shortbowBody "3f9a1c0b7d2e4a5f6b8c" = .ok doc ∧
      doc.range = { normal := some 30, long := some 120 }) ∧
    (∃ doc, createdRecord shortbowBody "3f9a1c0b7d2e4a5f6b8c" = .ok doc ∧
      doc.range = { normal := some 30, long := some 120 }) :=
  have h := range_object_kept shortbowBody "3f9a1c0b7d2e4a5f6b8c"
    [("normal", .num 30), ("long", .num 120)] (some 30) (some 120) rfl rfl rfl
  ⟨⟨_, rfl, h.1 _ rfl⟩, ⟨_, rfl, h.2 _ rfl (by decide) (by decide)⟩⟩

/-- C15 fails as stated.  For the range `{ normal: 0, long: 120 }` the record
built by `createEquipment` has `range.normal` null, not 0. -/
theorem range_object_kept_counterexample :
    ∃ doc, createdRecord zeroRangeBody "3f9a1c0b7d2e4a5f6b8c" = .ok doc ∧
      doc.range = { normal := none, long := some 120 } ∧
      doc.range ≠ { normal := some 0, long := some 120 } :=
  ⟨_, rfl, rfl, by decide⟩

/-- Mapping a step that succeeds on every element succeeds, with the list of
the results. -/
theorem mapM_ok_of_related {α β γ ε : Type} (f : α → Except ε β) (g : γ → β) :
    ∀ (l : List α) (ys : List γ), List.Forall₂ (fun x y => f x = .ok (g y)) l ys →
      l.mapM f = .ok (ys.map g) := by
  intro l ys h
  induction h with
  | nil => rfl
  | cons hxy _ ih =>
    rw [List.mapM_cons, hxy, ih]
    rfl

/-- Mapping over the image of a list, each step succeeding. -/
theorem mapM_map_ok {α β γ ε : Type} (f : α → Except ε β) (h : γ → α) (g : γ → β)
    (hstep : ∀ y, f (h y) = .ok (g y)) :
    ∀ ys : List γ, (ys.map h).mapM f = .ok (ys.map g) := by
  intro ys
  induction ys with
  | nil => rfl
  | cons y ys ih =>
    rw [List.map_cons, List.mapM_cons, hstep y, ih]
    rfl

/-- The cast of `properties` when the literal holds one `{ name: s }` object
per name. -/
theorem castProperties_names (lit : JVal) (names : List String)
    (hprop : lit.prop "properties" =
      .arr (names.map (fun s => JVal.obj [("name", JVal.str s)]))) :
    castProperties lit = .ok (names.map some) := by
  have hentries : documentArrayEntries lit "properties" =
      .ok (names.map (fun s => JVal.obj [("name", JVal.str s)])) := by
    simp only [documentArrayEntries, hprop]
    have := mapM_map_ok (ε := BuildError)
      (fun entry : JVal =>
        match entry with
        | .obj fields => (.ok (.obj fields) : Except BuildError JVal)
        | .null => .error .notModelled
        | _ => .error .validationError)
      (fun s : String => JVal.obj [("name", JVal.str s)])
      (fun s : String => JVal.obj [("name", JVal.str s)]) (fun _ => rfl) names
    exact this
  unfold castProperties
  rw [hentries]
  show (names.map (fun s => JVal.obj [("name", JVal.str s)])).mapM
    (fun entry => castStringPath "" (entry.prop "name")) = _
  exact mapM_map_ok (fun entry : JVal => castStringPath "" (entry.prop "name"))
    (fun s : String => JVal.obj [("name", JVal.str s)]) some (fun _ => rfl) names

/-- C16, amended.  The record built by `saveFetchedEquipment` for an input
whose properties is an array of strings, and the record built by
`createEquipment` for an input whose properties is an array of objects each
bearing a string name, have properties equal to the sequence of `{ name: s }`
entries, one per input entry and in the input's order; absent properties give
the empty sequence in both. -/
theorem properties_normalized (input : JVal) (tok : String) (names : List String) :
    (input.prop "properties" = .arr (names.map JVal.str) →
      ∀ doc, fetchedRecord input tok = .ok doc → doc.properties = names.map some) ∧
    (∀ objs, input.prop "properties" = .arr objs →
      List.Forall₂ (fun o s => o.prop "name" = JVal.str s) objs names →
      ∀ doc, createdRecord input tok = .ok doc → doc.properties = names.map some) ∧
    (input.prop "properties" = .undefined →
      (∀ doc, fetchedRecord input tok = .ok doc → doc.properties = []) ∧
      (∀ doc, createdRecord input tok = .ok doc → doc.properties = [])) := by
  refine ⟨?_, ?_, ?_⟩
  · intro hprops doc hdoc
    obtain ⟨name, range, properties, effects, _, _, _, hlit, _, hcast⟩ := fetchedRecord_ok hdoc
    have hfp : fetchedProperties input =
        .ok (.arr (names.map (fun s => JVal.obj [("name", JVal.str s)]))) := by
      simp only [fetchedProperties, hprops, JVal.truthy, if_true, mapArray]
      rw [mapM_map_ok (ε := BuildError) _ JVal.str
        (fun s => JVal.obj [("name", JVal.str s)]) (fun _ => rfl) names]
      rfl
    rw [hfp] at hlit
    cases hlit
    have h1 := (castEquipment_ok hcast).2.2.2.2.2.2.1
    rw [castProperties_names _ names (fetchedObject_prop input tok name range _ effects).2.2.1]
      at h1
    exact (Except.ok.inj h1).symm
  · intro objs hprops hrel doc hdoc
    obtain ⟨name, properties, effects, _, hlit, _, hcast⟩ := createdRecord_ok hdoc
    have hrel2 : List.Forall₂
        (fun (o : JVal) (s : String) =>
          (o.member "name" >>= fun name =>
            (pure (JVal.obj [("name", name)]) : Except BuildError JVal)) =
            .ok (JVal.obj [("name", JVal.str s)])) objs names := by
      refine hrel.imp ?_
      intro o s hos
      have hnull : o.nullish = false := by
        cases o with
        | obj fields => rfl
        | _ => simp [JVal.prop] at hos
      simp only [JVal.member, hnull, Bool.false_eq_true, if_false, hos]
      rfl
    have hcp : createdProperties input =
        .ok (.arr (names.map (fun s => JVal.obj [("name", JVal.str s)]))) := by
      simp only [createdProperties, hprops, JVal.truthy, if_true, mapArray]
      rw [mapM_ok_of_related _ (fun s => JVal.obj [("name", JVal.str s)]) objs names hrel2]
      rfl
    rw [hcp] at hlit
    cases hlit
    have h1 := (castEquipment_ok hcast).2.2.2.2.2.2.1
    rw [castProperties_names _ names (createdObject_prop input tok name _ effects).2.2.1] at h1
    exact (Except.ok.inj h1).symm
  · intro hprops
    constructor
    · intro doc hdoc
      obtain ⟨name, range, properties, effects, _, _, _, hlit, _, hcast⟩ := fetchedRecord_ok hdoc
      have hfp : fetchedProperties input = .ok (.arr []) := by
        simp only [fetchedProperties, hprops, JVal.truthy]
        rfl
      rw [hfp] at hlit
      cases hlit
      have h1 := (castEquipment_ok hcast).2.2.2.2.2.2.1
      have h2 : castProperties (fetchedObject input tok name range (.arr []) effects) =
          .ok [] := castProperties_names _ [] rfl
      rw [h2] at h1
      exact (Except.ok.inj h1).symm
    · intro doc hdoc
      obtain ⟨name, properties, effects, _, hlit, _, hcast⟩ := createdRecord_ok hdoc
      have hcp : createdProperties input = .ok (.arr []) := by
        simp only [createdProperties, hprops, JVal.truthy]
        rfl
      rw [hcp] at hlit
      cases hlit
      have h1 := (castEquipment_ok hcast).2.2.2.2.2.2.1
      have h2 : castProperties (createdObject input tok name (.arr []) effects) =
          .ok [] := castProperties_names _ [] rfl
      rw [h2] at h1
      exact (Except.ok.inj h1).symm

/-- C16 on two inputs, one per shape: each record is built and holds the two
names in order. -/
theorem properties_normalized_witness :
    (∃ doc, fetchedRecord whipWithNames "3f9a1c0b7d2e4a5f6b8c" = .ok doc ∧
      doc.properties = ["Finesse", "Reach"].map some) ∧
    (∃ doc, createdRecord whipWithObjects "3f9a1c0b7d2e4a5f6b8c" = .ok doc ∧
      doc.properties = ["Finesse", "Reach"].map some) :=
  ⟨⟨_, rfl, (properties_normalized whipWithNames "3f9a1c0b7d2e4a5f6b8c"
      ["Finesse", "Reach"]).1 rfl _ rfl⟩,
   ⟨_, rfl, (properties_normalized whipWithObjects "3f9a1c0b7d2e4a5f6b8c"
      ["Finesse", "Reach"]).2.1 _ rfl
      (List.Forall₂.cons rfl (List.Forall₂.cons rfl List.Forall₂.nil)) _ rfl⟩⟩

/-- C16 fails as stated.  For an array of strings `createEquipment` reads
`prop.name` of each string, which is undefined, and stores empty names; for an
array of objects bearing a name `saveFetchedEquipment` puts each object where
the schema wants a string, and the record fails validation. -/
theorem properties_normalized_counterexample :
    (∃ doc, createdRecord whipWithNames "3f9a1c0b7d2e4a5f6b8c" = .ok doc ∧
      doc.properties = [some "", some ""]) ∧
    fetchedRecord whipWithObjects "3f9a1c0b7d2e4a5f6b8c" = .error .validationError :=
  ⟨⟨_, rfl, rfl⟩, rfl⟩

/-- C17, evaluated at the failing input.  For an item with the one effect
`{ effectName: 'Glow', effectDescription: 'Sheds light' }` the record built by
`saveFetchedEquipment` has one effect whose `effectName` and
`effectDescription` are both empty: the mapping reads and writes the keys
`name` and `description`, which are not paths of the schema.  The record built
by `createEquipment` for the same input keeps both values. -/
theorem fetched_effects_lose_values :
    (∃ doc, fetchedRecord wandItem "3f9a1c0b7d2e4a5f6b8c" = .ok doc ∧
      doc.effects = [{ effectName := some "", effectDescription := some "" }]) ∧
    (∃ doc, createdRecord wandItem "3f9a1c0b7d2e4a5f6b8c" = .ok doc ∧
      doc.effects = [{ effectName := some "Glow", effectDescription := some "Sheds light" }]) :=
  ⟨⟨_, rfl, rfl⟩, ⟨_, rfl, rfl⟩⟩

/-- C19, evaluated at the failing input.  For an item whose range is null the
mapping of `saveFetchedEquipment` throws a TypeError (`typeof null` is
`'object'`, and `.normal` is read on null), while `createEquipment` builds the
record with the defaults, as `saveFetchedEquipment` does when the range is
absent. -/
theorem fetched_null_range_throws :
    fetchedRecord nullRangeItem "3f9a1c0b7d2e4a5f6b8c" = .error .typeError ∧
    createdRecord nullRangeItem "3f9a1c0b7d2e4a5f6b8c" =
      .ok (defaultRecord "Dagger" "3f9a1c0b7d2e4a5f6b8c") ∧
    fetchedRecord bareItem "3f9a1c0b7d2e4a5f6b8c" =
      .ok (defaultRecord "Longsword" "3f9a1c0b7d2e4a5f6b8c") :=
  ⟨rfl, rfl, rfl⟩

/-! ## Re-applying the fetched mapping to a canonical record -/

/-- A required name that passed validation is not empty. -/
theorem castRequiredName_ok {v : JVal} {s : String} (h : castRequiredName v = .ok s) :
    s ≠ "" := by
  unfold castRequiredName at h
  split at h
  · cases h
  · split at h
    · split at h
      · cases h
      · rename_i hne
        cases h
        simpa using hne
    · cases h
    · cases h

/-- A string path set to a value that is not null does not come out null. -/
theorem castStringPath_not_null {d : String} {v : JVal} {r : Option String}
    (hv : v.nullish = false) (h : castStringPath d v = .ok r) : ∃ s, r = some s := by
  cases v with
  | undefined => simp [JVal.nullish] at hv
  | null => simp [JVal.nullish] at hv
  | str s => exact ⟨s, by simp [castStringPath] at h; exact h.symm⟩
  | bool b => exact ⟨_, by simp [castStringPath] at h; exact h.symm⟩
  | num q =>
    simp only [castStringPath] at h
    split at h
    · exact ⟨_, (Except.ok.inj h).symm⟩
    · cases h
  | arr items => simp [castStringPath] at h
  | obj fields =>
    simp only [castStringPath] at h
    split at h
    · split at h
      · cases h
      · exact ⟨_, (Except.ok.inj h).symm⟩
    · cases h

/-- The default `v || ''` is never null or undefined. -/
theorem orElse_text_not_nullish (v : JVal) : (v.orElse (.str "")).nullish = false := by
  by_cases hv : v.truthy = true
  · rw [JVal.orElse, if_pos hv]
    cases v with
    | undefined => simp [JVal.truthy] at hv
    | null => simp [JVal.truthy] at hv
    | _ => rfl
  · rw [JVal.orElse, if_neg hv]
    rfl

/-- The default `s || undefined || ''` on a stored string gives the string
back. -/
theorem orElse_text_of_string (s : String) :
    ((JVal.str s).orElse .undefined).orElse (.str "") = .str s := by
  by_cases hs : s = ""
  · subst hs; rfl
  · simp [JVal.orElse, JVal.truthy, hs]

/-- The literal that the fetched mapping builds from a canonical record. -/
theorem fetchedLiteral_toJson (doc : EquipmentDoc) (tok : String) :
    fetchedLiteral doc.toJson tok =
      .ok (fetchedObject doc.toJson tok (.str doc.name) doc.range.toJson
        (.arr (doc.properties.map (fun n =>
          JVal.obj [("name", JVal.obj [("name", jsonOfString n)])])))
        (.arr (doc.effects.map (fun _ =>
          JVal.obj [("name", JVal.str ""), ("description", JVal.str "")])))) := by
  have hname : doc.toJson.member "name" = .ok (.str doc.name) := rfl
  have hrange : fetchedRange doc.toJson = .ok doc.range.toJson := rfl
  have hprops : fetchedProperties doc.toJson =
      .ok (.arr (doc.properties.map (fun n =>
        JVal.obj [("name", JVal.obj [("name", jsonOfString n)])]))) := by
    have hp : doc.toJson.prop "properties" =
        .arr (doc.properties.map (fun n => JVal.obj [("name", jsonOfString n)])) := rfl
    simp only [fetchedProperties, hp, JVal.truthy, if_true, mapArray]
    rw [mapM_map_ok (ε := BuildError)
      (fun prop : JVal => (pure (JVal.obj [("name", prop)]) : Except BuildError JVal))
      (fun n : Option String => JVal.obj [("name", jsonOfString n)])
      (fun n => JVal.obj [("name", JVal.obj [("name", jsonOfString n)])])
      (fun _ => rfl) doc.properties]
    rfl
  have heffects : fetchedEffects doc.toJson =
      .ok (.arr (doc.effects.map (fun _ =>
        JVal.obj [("name", JVal.str ""), ("description", JVal.str "")]))) := by
    have hp : doc.toJson.prop "effects" =
        .arr (doc.effects.map (fun e =>
          JVal.obj [("effectName", jsonOfString e.effectName),
                    ("effectDescription", jsonOfString e.effectDescription)])) := rfl
    simp only [fetchedEffects, hp, JVal.truthy, if_true, mapArray]
    rw [mapM_map_ok (ε := BuildError)
      (fun effect : JVal => do
        let name ← effect.member "name"
        let description ← effect.member "description"
        (pure (JVal.obj [("name", name.orElse (.str "")),
                         ("description", description.orElse (.str ""))]) :
          Except BuildError JVal))
      (fun e : EffectDoc =>
        JVal.obj [("effectName", jsonOfString e.effectName),
                  ("effectDescription", jsonOfString e.effectDescription)])
      (fun _ => JVal.obj [("name", JVal.str ""), ("description", JVal.str "")])
      (fun _ => rfl) doc.effects]
    rfl
  simp only [fetchedLiteral, hname, hrange, hprops, heffects]
  rfl

/-- The schema cast fails as soon as the `damage` path is refused, the two
paths before it being accepted. -/
theorem castEquipment_damage_refused (lit : JVal) (n : String) (cr : Option String)
    (h1 : castRequiredName (lit.prop "name") = .ok n)
    (h2 : castStringPath "" (lit.prop "category_range") = .ok cr)
    (h4 : castDamage lit "damage" = .error .validationError) :
    castEquipment lit = .error .validationError := by
  simp only [castEquipment, h1, h2, h4, bind, Except.bind]

/-- C18, amended.  For every raw item for which `saveFetchedEquipment` builds
a canonical record, applying its field mapping to that record reproduces the
record's name, category_range and range, but does not yield the record: the
mapping reads `damage` as the dice string, so the record's nested damage
object fails the schema cast and the re-normalized record fails validation. -/
theorem renormalize_canonical (item : JVal) (tok tok2 : String) (doc : EquipmentDoc)
    (hdoc : fetchedRecord item tok = .ok doc) :
    fetchedRecord doc.toJson tok2 = .error .validationError ∧
    ∃ lit, fetchedLiteral doc.toJson tok2 = .ok lit ∧
      castRequiredName (lit.prop "name") = .ok doc.name ∧
      castStringPath "" (lit.prop "category_range") = .ok doc.category_range ∧
      castRange lit "range" = .ok doc.range ∧
      castDamage lit "damage" = .error .validationError := by
  obtain ⟨name, range, properties, effects, _, _, _, _, _, hcast⟩ := fetchedRecord_ok hdoc
  have hfields := castEquipment_ok hcast
  have hname : doc.name ≠ "" := castRequiredName_ok hfields.1
  obtain ⟨cr, hcr⟩ := castStringPath_not_null (orElse_text_not_nullish _) hfields.2.1
  have hlit := fetchedLiteral_toJson doc tok2
  have hn : (doc.name == "") = false := by simpa using hname
  have h1 : castRequiredName (JVal.str doc.name) = .ok doc.name := by
    simp [castRequiredName, castStringPath, hn]
  have h2 : castStringPath ""
      (((jsonOfString doc.category_range).orElse .undefined).orElse (.str "")) =
      .ok doc.category_range := by
    rw [hcr]
    show castStringPath "" (((JVal.str cr).orElse .undefined).orElse (.str "")) = _
    rw [orElse_text_of_string]
    rfl
  have h3 : castRange
      (fetchedObject doc.toJson tok2 (.str doc.name) doc.range.toJson
        (.arr (doc.properties.map (fun n =>
          JVal.obj [("name", JVal.obj [("name", jsonOfString n)])])))
        (.arr (doc.effects.map (fun _ =>
          JVal.obj [("name", JVal.str ""), ("description", JVal.str "")])))) "range" =
      .ok doc.range := by
    show (castNumberPath (jsonOfNumber doc.range.normal) >>= fun normal =>
      castNumberPath (jsonOfNumber doc.range.long) >>= fun long =>
        (pure { normal := normal, long := long } : Except BuildError RangeDoc)) = _
    rw [castNumberPath_json, castNumberPath_json]
    rfl
  have h4 : castDamage
      (fetchedObject doc.toJson tok2 (.str doc.name) doc.range.toJson
        (.arr (doc.properties.map (fun n =>
          JVal.obj [("name", JVal.obj [("name", jsonOfString n)])])))
        (.arr (doc.effects.map (fun _ =>
          JVal.obj [("name", JVal.str ""), ("description", JVal.str "")])))) "damage" =
      .error .validationError := rfl
  refine ⟨?_, _, hlit, h1, h2, h3, h4⟩
  have hmember : doc.toJson.member "name" = .ok (.str doc.name) := rfl
  have htruthy : (JVal.str doc.name).truthy = true := by simp [JVal.truthy, hname]
  simp only [fetchedRecord, hmember, hlit]
  show (if (!(JVal.str doc.name).truthy) = true then .error .nameRequired
    else castEquipment _) = _
  rw [htruthy]
  exact castEquipment_damage_refused _ _ _ h1 h2 h4

/-- C18 for an item that holds nothing but a name. -/
theorem renormalize_canonical_witness :
    fetchedRecord (defaultRecord "Longsword" "3f9a1c0b7d2e4a5f6b8c").toJson
        "a1b2c3d4e5f60718293a" = .error .validationError ∧
    ∃ lit, fetchedLiteral (defaultRecord "Longsword" "3f9a1c0b7d2e4a5f6b8c").toJson
        "a1b2c3d4e5f60718293a" = .ok lit ∧
      castRequiredName (lit.prop "name") =
        .ok (defaultRecord "Longsword" "3f9a1c0b7d2e4a5f6b8c").name ∧
      castStringPath "" (lit.prop "category_range") =
        .ok (defaultRecord "Longsword" "3f9a1c0b7d2e4a5f6b8c").category_range ∧
      castRange lit "range" = .ok (defaultRecord "Longsword" "3f9a1c0b7d2e4a5f6b8c").range ∧
      castDamage lit "damage" = .error .validationError :=
  renormalize_canonical bareItem "3f9a1c0b7d2e4a5f6b8c" "a1b2c3d4e5f60718293a" _ rfl

/-- C18 fails as stated.  The record built for an item that holds nothing but
a name is not reproduced when the mapping is applied to it: the second
application fails. -/
theorem renormalize_canonical_counterexample :
    fetchedRecord bareItem "3f9a1c0b7d2e4a5f6b8c" =
      .ok (defaultRecord "Longsword" "3f9a1c0b7d2e4a5f6b8c") ∧
    fetchedRecord (defaultRecord "Longsword" "3f9a1c0b7d2e4a5f6b8c").toJson
        "3f9a1c0b7d2e4a5f6b8c" ≠
      .ok (defaultRecord "Longsword" "3f9a1c0b7d2e4a5f6b8c") :=
  ⟨rfl, fun h => by
    have h2 : fetchedRecord (defaultRecord "Longsword" "3f9a1c0b7d2e4a5f6b8c").toJson
        "3f9a1c0b7d2e4a5f6b8c" = .error .validationError := rfl
    rw [h2] at h
    cases h⟩

/-! ## Defaults for missing nested fields -/

/-- Optional chaining on null or undefined gives undefined. -/
theorem optProp_of_nullish {v : JVal} (h : v.nullish = true) (key : String) :
    v.optProp key = .undefined := by
  simp [JVal.optProp, h]

/-- Null and undefined are falsy. -/
theorem truthy_of_nullish {v : JVal} (h : v.nullish = true) : v.truthy = false := by
  cases v <;> simp [JVal.nullish] at h <;> rfl

/-- The default `v || d` on null or undefined is `d`. -/
theorem orElse_of_nullish {v : JVal} (h : v.nullish = true) (d : JVal) : v.orElse d = d := by
  simp [JVal.orElse, truthy_of_nullish h]

/-- What `createEquipment` does for missing nested data: when every nested
field is missing or null (and the plain fields are absent), the record is built
and every sub-field is at its default. -/
theorem createdRecord_defaults (body : JVal) (tok n : String)
    (hname : body.prop "name" = .str n) (hn : n ≠ "")
    (hnested : ∀ k ∈ ["damage", "two_handed_damage", "range", "throw_range", "cost",
      "equipment_category", "rarity", "properties", "effects"], (body.prop k).nullish = true)
    (hplain : ∀ k ∈ ["category_range", "requires_attunement", "weight", "desc", "magical"],
      body.prop k = .undefined) :
    createdRecord body tok = .ok (defaultRecord n tok) := by
  have hbody : body.nullish = false := by
    cases body with
    | obj fields => rfl
    | _ => simp [JVal.prop] at hname
  have hd := hnested "damage" (by simp)
  have ht := hnested "two_handed_damage" (by simp)
  have hr := hnested "range" (by simp)
  have htr := hnested "throw_range" (by simp)
  have hc := hnested "cost" (by simp)
  have he := hnested "equipment_category" (by simp)
  have hra := hnested "rarity" (by simp)
  have hp := hnested "properties" (by simp)
  have hef := hnested "effects" (by simp)
  have h1 := hplain "category_range" (by simp)
  have h2 := hplain "requires_attunement" (by simp)
  have h3 := hplain "weight" (by simp)
  have h4 := hplain "desc" (by simp)
  have h5 := hplain "magical" (by simp)
  have hne : (n == "") = false := by simpa using hn
  have hprops : createdProperties body = .ok (.arr []) := by
    simp only [createdProperties, truthy_of_nullish hp]
    rfl
  have heffects : createdEffects body = .ok (.arr []) := by
    simp only [createdEffects, truthy_of_nullish hef]
    rfl
  have hlit : createdLiteral body tok =
      .ok (createdObject body tok (.str n) (.arr []) (.arr [])) := by
    simp only [createdLiteral, JVal.member, hbody, hname, hprops, heffects]
    rfl
  have hobj : createdObject body tok (.str n) (.arr []) (.arr []) =
      createdObject (.obj []) tok (.str n) (.arr []) (.arr []) := by
    simp only [createdObject, optProp_of_nullish hd, optProp_of_nullish ht,
      optProp_of_nullish hr, optProp_of_nullish htr, optProp_of_nullish hc,
      optProp_of_nullish he, optProp_of_nullish hra, h1, h2, h3, h4, h5]
    rfl
  have hname2 : castRequiredName (JVal.str n) = .ok n := by
    simp [castRequiredName, castStringPath, hne]
  simp only [createdRecord, hlit, hobj]
  show (castRequiredName (JVal.str n) >>= fun name => _) = _
  rw [hname2]
  rfl

/-- What `saveFetchedEquipment` does for missing nested data: when the range
is absent and every other field read by the mapping is missing or null, the
record is built and every sub-field is at its default. -/
theorem fetchedRecord_defaults (item : JVal) (tok n : String)
    (hname : item.prop "name" = .str n) (hn : n ≠ "")
    (hrange : item.prop "range" = .undefined)
    (hrest : ∀ k ∈ ["category_range", "equipmentCategory", "damage", "damageType",
      "two_handed_damage", "throw_range", "properties", "equipment_category", "rarity",
      "requires_attunement", "weight", "cost", "desc", "magical", "effects"],
      (item.prop k).nullish = true) :
    fetchedRecord item tok = .ok (defaultRecord n tok) := by
  have hitem : item.nullish = false := by
    cases item with
    | obj fields => rfl
    | _ => simp [JVal.prop] at hname
  have h1 := hrest "category_range" (by simp)
  have h2 := hrest "equipmentCategory" (by simp)
  have h3 := hrest "damage" (by simp)
  have h4 := hrest "damageType" (by simp)
  have h5 := hrest "two_handed_damage" (by simp)
  have h6 := hrest "throw_range" (by simp)
  have h7 := hrest "properties" (by simp)
  have h8 := hrest "equipment_category" (by simp)
  have h9 := hrest "rarity" (by simp)
  have h10 := hrest "requires_attunement" (by simp)
  have h11 := hrest "weight" (by simp)
  have h12 := hrest "cost" (by simp)
  have h13 := hrest "desc" (by simp)
  have h14 := hrest "magical" (by simp)
  have h15 := hrest "effects" (by simp)
  have hne : (n == "") = false := by simpa using hn
  have htruthy : (JVal.str n).truthy = true := by simp [JVal.truthy, hn]
  have hfr : fetchedRange item = .ok (.obj [("normal", .null), ("long", .null)]) := by
    simp only [fetchedRange, hrange]
    rfl
  have hprops : fetchedProperties item = .ok (.arr []) := by
    simp only [fetchedProperties, truthy_of_nullish h7]
    rfl
  have heffects : fetchedEffects item = .ok (.arr []) := by
    simp only [fetchedEffects, truthy_of_nullish h15]
    rfl
  have hlit : fetchedLiteral item tok =
      .ok (fetchedObject item tok (.str n) (.obj [("normal", .null), ("long", .null)])
        (.arr []) (.arr [])) := by
    simp only [fetchedLiteral, JVal.member, hitem, hname, hfr, hprops, heffects]
    rfl
  have hobj : fetchedObject item tok (.str n) (.obj [("normal", .null), ("long", .null)])
        (.arr []) (.arr []) =
      fetchedObject (.obj []) tok (.str n) (.obj [("normal", .null), ("long", .null)])
        (.arr []) (.arr []) := by
    have hu : ∀ d : JVal, JVal.orElse .undefined d = d := fun _ => rfl
    simp only [fetchedObject, orElse_of_nullish h1, orElse_of_nullish h2,
      orElse_of_nullish h3, orElse_of_nullish h4, optProp_of_nullish h5,
      optProp_of_nullish h6, optProp_of_nullish h8, orElse_of_nullish h9,
      orElse_of_nullish h10, orElse_of_nullish h11, optProp_of_nullish h12,
      orElse_of_nullish h13, orElse_of_nullish h14, hu]
    rfl
  have hname2 : castRequiredName (JVal.str n) = .ok n := by
    simp [castRequiredName, castStringPath, hne]
  have hcast : castEquipment
      (fetchedObject (.obj []) tok (.str n) (.obj [("normal", .null), ("long", .null)])
        (.arr []) (.arr [])) = .ok (defaultRecord n tok) := by
    show (castRequiredName (JVal.str n) >>= fun name => _) = _
    rw [hname2]
    rfl
  have hmember : item.member "name" = .ok (.str n) := by
    simp [JVal.member, hitem, hname]
  unfold fetchedRecord
  rw [hmember]
  show (if (!(JVal.str n).truthy) = true then _ else _) = _
  rw [htruthy]
  show (fetchedLiteral item tok >>= fun lit => castEquipment lit) = _
  rw [hlit, hobj]
  exact hcast


/-! ## The patch that `updateEquipment` hands to the store -/

/-- Reading a key that was just deleted gives `undefined`. -/
theorem prop_delete_self (v : JVal) (key : String) : (v.delete key).prop key = .undefined := by
  cases v with
  | obj fields =>
    have h : (fields.filter (fun p => !(p.1 == key))).lookup key = none := by
      induction fields with
      | nil => rfl
      | cons a rest ih =>
        by_cases ha : a.1 = key
        · simp only [List.filter, ha, beq_self_eq_true, Bool.not_true]
          simpa [ha] using ih
        · have hb : (a.1 == key) = false := by simpa using ha
          have hc : (key == a.1) = false := by simpa using fun h => ha h.symm
          simp only [List.filter, hb, Bool.not_false, List.lookup, hc]
          exact ih
    simp only [JVal.delete, JVal.prop, h, Option.getD]
  | _ => rfl

/-- Deleting a key leaves the value read at every other key. -/
theorem prop_delete_ne (v : JVal) (k key : String) (hk : k ≠ key) :
    (v.delete key).prop k = v.prop k := by
  cases v with
  | obj fields =>
    have h : (fields.filter (fun p => !(p.1 == key))).lookup k = fields.lookup k := by
      induction fields with
      | nil => rfl
      | cons a rest ih =>
        obtain ⟨ak, av⟩ := a
        by_cases ha : ak = key
        · have hc : (k == ak) = false := by
            rw [ha]; simpa using hk
          simp only [List.filter, ha, beq_self_eq_true, Bool.not_true, List.lookup]
          rw [ha] at hc
          simp only [hc]
          exact ih
        · have hb : (ak == key) = false := by simpa using ha
          simp only [List.filter, hb, Bool.not_false]
          by_cases hka : k = ak
          · simp [List.lookup, hka]
          · have hc : (k == ak) = false := by simpa using hka
            simp only [List.lookup, hc]
            exact ih
    simp only [JVal.delete, JVal.prop, h]
  | _ => rfl

/-- After `delete data._id` no property of the object is called `_id`. -/
theorem delete_no_key (v : JVal) (key : String) (fields : List (String × JVal))
    (h : v.delete key = .obj fields) : ∀ p ∈ fields, p.1 ≠ key := by
  cases v with
  | obj fs =>
    simp only [JVal.delete, JVal.obj.injEq] at h
    subst h
    intro p hp
    have := (List.mem_filter.mp hp).2
    simpa using this
  | _ => simp [JVal.delete] at h

/-- A single-document update whose replacement keeps the key keeps the keys of
the whole collection, in order. -/
theorem map_updateFirst_key {α β : Type} (p : α → Bool) (f : α → α) (key : α → β)
    (hkey : ∀ y, p y = true → key (f y) = key y) :
    ∀ l : List α, (updateFirst p f l).map key = l.map key := by
  intro l
  induction l with
  | nil => rfl
  | cons a rest ih =>
    by_cases ha : p a = true
    · simp only [updateFirst, ha, if_true, List.map_cons, hkey a ha]
    · have ha2 : p a = false := by simpa using ha
      simp only [updateFirst, ha2, Bool.false_eq_true, if_false, List.map_cons, ih]

/-- The store's update never changes an `_id`: the document it returns has the
id that was asked for, and the ids of the collection are what they were. -/
theorem findByIdAndUpdate_ids (db db1 : List Equipment) (id : ObjectId) (patch : EquipmentPatch)
    (r : Option Equipment)
    (h : Equipment.findByIdAndUpdate db id patch = .ok (r, db1)) :
    db1.map (fun e => e._id) = db.map (fun e => e._id) ∧ ∀ e, r = some e → e._id = id := by
  simp only [Equipment.findByIdAndUpdate] at h
  split at h
  · cases h
  · split at h
    · cases h
      exact ⟨rfl, fun e he => by cases he⟩
    · rename_i e0 hfind
      have hid : e0._id = id := by
        have := List.find?_some hfind
        simpa using this
      split at h
      · cases h
      · cases h
        have h2 : ∀ (e1 : Equipment), e1._id = id →
            (match patch.customId with
              | some c => { e1 with customId := c }
              | none => e1)._id = id := by
          intro e1 h1
          cases patch.customId <;> exact h1
        have h1 : (match patch.name with
              | .str n => { e0 with name := n }
              | _ => e0)._id = id := by
          cases patch.name <;> exact hid
        refine ⟨?_, ?_⟩
        · apply map_updateFirst_key
          intro y hy
          have hy2 : y._id = id := by simpa using hy
          rw [hy2]
          exact h2 _ h1
        · intro e he
          cases he
          exact h2 _ h1

/-- What `updateEquipment` leaves of the store: the ids of the Equipment
collection and the whole inventory; and a document it answers with has the id
of the request path. -/
theorem updateEquipment_frame (s : Store) (id : ObjectId) (patch : JVal) :
    (∀ e, (updateEquipment s id patch).1.body = .updated e → e._id = id) ∧
    (updateEquipment s id patch).2.equipment.map (fun e => e._id) =
      s.equipment.map (fun e => e._id) ∧
    (updateEquipment s id patch).2.inventory = s.inventory := by
  unfold updateEquipment
  split
  · exact ⟨(fun e he => by cases he), rfl, rfl⟩
  · split
    · exact ⟨(fun e he => by cases he), rfl, rfl⟩
    · split
      · exact ⟨(fun e he => by cases he), rfl, rfl⟩
      · split
        · exact ⟨(fun e he => by cases he), rfl, rfl⟩
        · split
          · exact ⟨(fun e he => by cases he), rfl, rfl⟩
          · split
            · exact ⟨(fun e he => by cases he), rfl, rfl⟩
            · exact ⟨(fun e he => by cases he), rfl, rfl⟩
            · rename_i p e1 db1 hupd
              have hids := findByIdAndUpdate_ids _ _ _ _ _ hupd
              refine ⟨?_, hids.1, rfl⟩
              intro e he
              simp only [EquipmentBody.updated.injEq] at he
              exact hids.2 e (by rw [he])

/-- C25.  For every patch (a JSON body, so neither null nor undefined) whose
name is missing, null or the empty string, `updateEquipment` answers 400 with
the message `Name is required` and leaves the store as it was, whatever else
the patch carries. -/
theorem updateEquipment_name_required (s : Store) (id : ObjectId) (patch : JVal)
    (hbody : patch.nullish = false)
    (hname : patch.prop "name" = .undefined ∨ patch.prop "name" = .null ∨
      patch.prop "name" = .str "") :
    updateEquipment s id patch = ({ status := 400, body := .message "Name is required" }, s) := by
  have hfalsy : (patch.prop "name").truthy = false := by
    rcases hname with h | h | h <;> rw [h] <;> rfl
  simp [updateEquipment, JVal.member, hbody, hfalsy]

/-- C25 for a well-typed partial update of the stored longsword that has no name. -/
theorem updateEquipment_name_required_witness :
    Equipment.findById sharedStore.equipment 1 = some storedLongsword ∧
    badTypes namelessPatch = false ∧
    updateEquipment sharedStore 1 namelessPatch =
      ({ status := 400, body := .message "Name is required" }, sharedStore) :=
  ⟨by decide, by decide,
    updateEquipment_name_required sharedStore 1 namelessPatch rfl (Or.inl rfl)⟩

/-- C22.  For every patch, the data `updateEquipment` hands to the store has
no `_id` field; the document it answers with has the id of the request path,
the ids of the Equipment collection are what they were, and the inventory is
untouched. -/
theorem updateEquipment_keeps_id (s : Store) (id : ObjectId) (patch : JVal) :
    (cleanedPatch patch).prop "_id" = .undefined ∧
    (∀ fields, cleanedPatch patch = .obj fields → ∀ p ∈ fields, p.1 ≠ "_id") ∧
    (∀ e, (updateEquipment s id patch).1.body = .updated e → e._id = id) ∧
    (updateEquipment s id patch).2.equipment.map (fun e => e._id) =
      s.equipment.map (fun e => e._id) ∧
    (updateEquipment s id patch).2.inventory = s.inventory :=
  ⟨prop_delete_self _ _, fun fields h => delete_no_key _ _ fields h,
    updateEquipment_frame s id patch⟩

/-- C22 for a patch that names another `_id`: the update is applied to the
document of the request path, which keeps its id. -/
theorem updateEquipment_keeps_id_witness :
    idPatch.prop "_id" = .str "64f0c0ffee0000000000beef" ∧
    (updateEquipment sharedStore 1 idPatch).1 =
      { status := 200,
        body := .updated { _id := 1, customId := "3f9a1c0b7d2e4a5f6b8c", name := "Greatsword" } } ∧
    ((cleanedPatch idPatch).prop "_id" = .undefined ∧
     (∀ fields, cleanedPatch idPatch = .obj fields → ∀ p ∈ fields, p.1 ≠ "_id") ∧
     (∀ e, (updateEquipment sharedStore 1 idPatch).1.body = .updated e → e._id = 1) ∧
     (updateEquipment sharedStore 1 idPatch).2.equipment.map (fun e => e._id) =
       sharedStore.equipment.map (fun e => e._id) ∧
     (updateEquipment sharedStore 1 idPatch).2.inventory = sharedStore.inventory) :=
  ⟨rfl, by decide, updateEquipment_keeps_id sharedStore 1 idPatch⟩

/-- A patch that is not answered 400 has a truthy name and passes the guard on
`cost.quantity`. -/
theorem updateEquipment_passes_guards (s : Store) (id : ObjectId) (patch : JVal)
    (hbody : patch.nullish = false)
    (hvalid : (updateEquipment s id patch).1.status ≠ 400) :
    (patch.prop "name").truthy = true ∧
    ((patch.prop "cost").truthy &&
      !(((patch.prop "cost").prop "quantity").typeof == "undefined") &&
      !(((patch.prop "cost").prop "quantity").typeof == "number")) = false := by
  refine ⟨?_, ?_⟩
  · by_contra hn
    have hfalsy : (patch.prop "name").truthy = false := by simpa using hn
    exact hvalid (by simp [updateEquipment, JVal.member, hbody, hfalsy])
  · by_contra hg
    have hguard : ((patch.prop "cost").truthy &&
        !(((patch.prop "cost").prop "quantity").typeof == "undefined") &&
        !(((patch.prop "cost").prop "quantity").typeof == "number")) = true :=
      Bool.of_not_eq_false hg
    apply hvalid
    unfold updateEquipment
    simp only [JVal.member, hbody, Bool.false_eq_true, if_false]
    by_cases hn : (patch.prop "name").truthy = true
    · simp only [hn, Bool.not_true, Bool.false_eq_true, if_false, hguard, if_true]
    · have hfalsy : (patch.prop "name").truthy = false := by simpa using hn
      simp only [hfalsy, Bool.not_false, if_true]

/-- A value that is absent or a number is falsy exactly when it is absent or
zero. -/
theorem falsy_of_guard (q : JVal)
    (h : (!(q.typeof == "undefined") && !(q.typeof == "number")) = false) :
    q.truthy = false ↔ (q = .undefined ∨ q = .num 0) := by
  cases q with
  | undefined => simp [JVal.truthy]
  | num r => simp [JVal.truthy]
  | null => simp [JVal.typeof] at h
  | bool b => simp [JVal.typeof] at h
  | str t => simp [JVal.typeof] at h
  | arr items => simp [JVal.typeof] at h
  | obj fields => simp [JVal.typeof] at h

/-- The cost of the cleaned patch: gone when the test of line 216 holds, the
patch's own otherwise; every key but `cost` and `_id` reads as in the patch. -/
theorem cleanedPatch_prop (patch : JVal) :
    (((patch.prop "cost").truthy && !((patch.prop "cost").prop "quantity").truthy &&
        !((patch.prop "cost").prop "unit").truthy) = true →
      (cleanedPatch patch).prop "cost" = .undefined) ∧
    (((patch.prop "cost").truthy && !((patch.prop "cost").prop "quantity").truthy &&
        !((patch.prop "cost").prop "unit").truthy) = false →
      (cleanedPatch patch).prop "cost" = patch.prop "cost") ∧
    (∀ k, k ≠ "cost" → k ≠ "_id" → (cleanedPatch patch).prop k = patch.prop k) := by
  have hne : ("cost" : String) ≠ "_id" := by decide
  refine ⟨?_, ?_, ?_⟩
  · intro h
    simp only [cleanedPatch, h, if_true]
    rw [prop_delete_ne _ _ _ hne, prop_delete_self]
  · intro h
    simp only [cleanedPatch, h, Bool.false_eq_true, if_false]
    rw [prop_delete_ne _ _ _ hne]
  · intro k hk1 hk2
    unfold cleanedPatch
    simp only
    split
    · rw [prop_delete_ne _ _ _ hk2, prop_delete_ne _ _ _ hk1]
    · rw [prop_delete_ne _ _ _ hk2]

/-- What line 216 does, in general.  For every patch that `updateEquipment` does not answer 400,
the cost is removed from the patch handed to the store when it is truthy, its
quantity is absent or zero and its unit is falsy (absent, null or the empty
string); in every other case the cost is handed to the store as it came; and
every other field but `_id` is handed on unchanged. -/
theorem cleanedPatch_cost_cases (s : Store) (id : ObjectId) (patch : JVal)
    (hbody : patch.nullish = false)
    (hvalid : (updateEquipment s id patch).1.status ≠ 400) :
    ((patch.prop "cost").truthy = true ∧
        ((patch.prop "cost").prop "quantity" = .undefined ∨
          (patch.prop "cost").prop "quantity" = .num 0) ∧
        ((patch.prop "cost").prop "unit").truthy = false →
      (cleanedPatch patch).prop "cost" = .undefined) ∧
    (¬((patch.prop "cost").truthy = true ∧
        ((patch.prop "cost").prop "quantity" = .undefined ∨
          (patch.prop "cost").prop "quantity" = .num 0) ∧
        ((patch.prop "cost").prop "unit").truthy = false) →
      (cleanedPatch patch).prop "cost" = patch.prop "cost") ∧
    (∀ k, k ≠ "cost" → k ≠ "_id" → (cleanedPatch patch).prop k = patch.prop k) := by
  have hguard := (updateEquipment_passes_guards s id patch hbody hvalid).2
  have hprop := cleanedPatch_prop patch
  refine ⟨?_, ?_, hprop.2.2⟩
  · rintro ⟨hc, hq, hu⟩
    apply hprop.1
    have hqf : ((patch.prop "cost").prop "quantity").truthy = false := by
      rcases hq with h | h <;> rw [h] <;> simp [JVal.truthy]
    simp [hc, hqf, hu]
  · intro hnot
    apply hprop.2.1
    by_cases hc : (patch.prop "cost").truthy = true
    · have hg2 : (!(((patch.prop "cost").prop "quantity").typeof == "undefined") &&
          !(((patch.prop "cost").prop "quantity").typeof == "number")) = false := by
        simpa [hc] using hguard
      have hiff := falsy_of_guard _ hg2
      by_cases hq : ((patch.prop "cost").prop "quantity").truthy = true
      · simp [hq]
      · have hqf : ((patch.prop "cost").prop "quantity").truthy = false := by simpa using hq
        by_cases hu : ((patch.prop "cost").prop "unit").truthy = true
        · simp [hu]
        · have huf : ((patch.prop "cost").prop "unit").truthy = false := by simpa using hu
          exact absurd ⟨hc, hiff.mp hqf, huf⟩ hnot
    · have hcf : (patch.prop "cost").truthy = false := by simpa using hc
      simp [hcf]

/-- C21.  The claim fails at a cost whose quantity is present and zero: the
patch passes the validation and is answered 200, and the cost is removed from
the patch handed to the store although a quantity is present.  A cost that is
an empty object is removed, and a cost of zero with a unit is kept. -/
theorem cleanedPatch_cost :
    (updateEquipment sharedStore 1 zeroCostPatch).1.status = 200 ∧
    ((zeroCostPatch.prop "cost").prop "quantity").present = true ∧
    (zeroCostPatch.prop "cost").prop "quantity" = .num 0 ∧
    (cleanedPatch zeroCostPatch).prop "cost" = .undefined ∧
    (cleanedPatch emptyCostPatch).prop "cost" = .undefined ∧
    (cleanedPatch (.obj [("name", .str "Rope"),
        ("cost", .obj [("quantity", .num 0), ("unit", .str "gp")])])).prop "cost" =
      .obj [("quantity", .num 0), ("unit", .str "gp")] :=
  ⟨by decide, rfl, rfl, rfl, rfl, rfl⟩

/-! ## Referential integrity -/

/-- A reference resolves exactly when its id is among the ids of the
Equipment collection. -/
theorem findById_isSome_iff (db : List Equipment) (id : ObjectId) :
    (Equipment.findById db id).isSome = true ↔ id ∈ db.map (fun e => e._id) := by
  unfold Equipment.findById
  rw [List.find?_isSome, List.mem_map]
  constructor
  · rintro ⟨e, he, hid⟩
    exact ⟨e, he, by simpa using hid⟩
  · rintro ⟨e, he, hid⟩
    exact ⟨e, he, by simpa using hid⟩

/-- The item that the name scan finds is one of the scanned items, and its
reference resolves. -/
theorem findSameName_some (name : String) (db : List Equipment) (it : InventoryItem) :
    ∀ items : List InventoryItem,
      findSameName name (populate db items) = .ok (some it) →
      it ∈ items ∧ (Equipment.findById db it.equipmentId).isSome = true := by
  intro items
  induction items with
  | nil => intro h; cases h
  | cons a rest ih =>
    intro h
    simp only [populate, List.map_cons] at h
    cases hfind : Equipment.findById db a.equipmentId with
    | none =>
      rw [hfind] at h
      cases h
    | some d =>
      rw [hfind] at h
      simp only [findSameName] at h
      split at h
      · cases h
        exact ⟨List.mem_cons_self _ _, by rw [hfind]; rfl⟩
      · have := ih h
        exact ⟨List.mem_cons_of_mem _ this.1, this.2⟩

/-- The merge step of `addToInventory` keeps referential integrity, given
that the resolved Equipment document is in the store. -/
theorem mergeByName_refsResolve (s : Store) (u : UserId) (e : Equipment) (fr : Fresh)
    (h : refsResolve s) (he : e._id ∈ s.equipment.map (fun d => d._id)) :
    refsResolve (mergeByName s u e fr).2 := by
  unfold mergeByName
  simp only
  split
  · exact h
  · rename_i existingItem hscan
    have hres := (findSameName_some _ _ _ _ hscan).2
    split
    · intro j hj
      rcases mem_updateFirst _ _ j _ hj with hold | ⟨_, _, rfl⟩
      · exact h j hold
      · exact hres
    · exact h
  · split
    · rename_i inv hsave
      simp only [UserInventory.save] at hsave
      split at hsave
      · cases hsave
      · split at hsave
        · cases hsave
        · cases hsave
          intro j hj
          rcases List.mem_append.mp hj with hold | hnew
          · exact h j hold
          · rw [List.mem_singleton] at hnew
            rw [hnew]
            exact (findById_isSome_iff _ _).mpr he
    · exact h

/-- The controller `addToInventory` keeps referential integrity. -/
theorem addToInventory_refsResolve (s : Store) (u : UserId) (item : Option RawItem) (fr : Fresh)
    (h : refsResolve s) : refsResolve (addToInventory s u item fr).2 := by
  unfold addToInventory
  split
  · exact h
  · rename_i e s1 hres
    rcases saveFetchedEquipment_ok_cases hres with ⟨hmem, rfl⟩ | ⟨_, rfl⟩
    · exact mergeByName_refsResolve _ u e fr h (List.mem_map.mpr ⟨e, hmem, rfl⟩)
    · apply mergeByName_refsResolve
      · intro j hj
        rw [findById_isSome_iff]
        have := (findById_isSome_iff _ _).mp (h j hj)
        simp only [List.map_append, List.mem_append]
        exact Or.inl this
      · simp

/-- A validated inventory update keeps the `equipmentId` of every item, in
order. -/
theorem findByIdAndUpdate_equipmentIds (inv inv1 : List InventoryItem) (id : ObjectId)
    (quantity : JsNumber) (customizations : JsString) (r : Option InventoryItem)
    (hupd : UserInventory.findByIdAndUpdate inv id quantity customizations = .ok (r, inv1)) :
    inv1.map (fun j => j.equipmentId) = inv.map (fun j => j.equipmentId) := by
  simp only [UserInventory.findByIdAndUpdate] at hupd
  split at hupd
  · cases hupd
  · split at hupd
    · cases hupd; rfl
    · cases hupd
      apply map_updateFirst_key
      intro y _
      cases quantity <;> cases customizations <;> rfl

/-- Referential integrity depends only on the ids of the Equipment collection
and on the references of the inventory. -/
theorem refsResolve_of_same_keys (s s1 : Store) (h : refsResolve s)
    (hequ : s1.equipment.map (fun e => e._id) = s.equipment.map (fun e => e._id))
    (hinv : s1.inventory.map (fun j => j.equipmentId) =
      s.inventory.map (fun j => j.equipmentId)) :
    refsResolve s1 := by
  intro j hj
  rw [findById_isSome_iff, hequ]
  have hmem : j.equipmentId ∈ s1.inventory.map (fun j => j.equipmentId) :=
    List.mem_map.mpr ⟨j, hj, rfl⟩
  rw [hinv] at hmem
  obtain ⟨i, hi, hij⟩ := List.mem_map.mp hmem
  have := (findById_isSome_iff _ _).mp (h i hi)
  rw [← hij]
  exact this

/-- The controller `updateItemQuantity` keeps the references of the inventory
and the Equipment collection. -/
theorem updateItemQuantity_keys (s : Store) (id : ObjectId) (quantity : JsNumber) :
    (updateItemQuantity s id quantity).2.equipment = s.equipment ∧
    (updateItemQuantity s id quantity).2.inventory.map (fun j => j.equipmentId) =
      s.inventory.map (fun j => j.equipmentId) := by
  unfold updateItemQuantity
  split
  · exact ⟨rfl, rfl⟩
  · split
    · exact ⟨rfl, rfl⟩
    · exact ⟨rfl, rfl⟩
    · rename_i r inv1 hupd
      exact ⟨rfl, findByIdAndUpdate_equipmentIds _ _ _ _ _ _ hupd⟩

/-- The controller `updateInventoryItem` keeps the references of the inventory
and the ids of the Equipment collection. -/
theorem updateInventoryItem_keys (s : Store) (id : ObjectId) (quantity : JsNumber)
    (customizations : JsString) (equipmentData : Option EquipmentPatch) :
    (updateInventoryItem s id quantity customizations equipmentData).2.equipment.map
        (fun e => e._id) = s.equipment.map (fun e => e._id) ∧
    (updateInventoryItem s id quantity customizations equipmentData).2.inventory.map
        (fun j => j.equipmentId) = s.inventory.map (fun j => j.equipmentId) := by
  unfold updateInventoryItem
  split
  · exact ⟨rfl, rfl⟩
  · exact ⟨rfl, rfl⟩
  · rename_i r inv1 hupd
    have hinv := findByIdAndUpdate_equipmentIds _ _ _ _ _ _ hupd
    simp only
    split
    · exact ⟨rfl, hinv⟩
    · split
      · exact ⟨rfl, hinv⟩
      · exact ⟨rfl, hinv⟩
      · rename_i e1 db1 hequ
        exact ⟨(findByIdAndUpdate_ids _ _ _ _ _ hequ).1, hinv⟩

/-- A single-document delete only takes documents away. -/
theorem mem_of_mem_removeFirst {α : Type} (p : α → Bool) (x : α) :
    ∀ l : List α, x ∈ removeFirst p l → x ∈ l := by
  intro l
  induction l with
  | nil => intro h; cases h
  | cons a rest ih =>
    intro h
    by_cases ha : p a = true
    · simp only [removeFirst, ha, if_true] at h
      exact List.mem_cons_of_mem _ h
    · have ha2 : p a = false := by simpa using ha
      simp only [removeFirst, ha2, Bool.false_eq_true, if_false, List.mem_cons] at h
      rcases h with hxa | h
      · exact hxa ▸ List.mem_cons_self _ _
      · exact List.mem_cons_of_mem _ (ih h)

/-- A single-document delete keeps every document the test does not select. -/
theorem mem_removeFirst_of_not {α : Type} (p : α → Bool) (x : α) (hx : p x = false) :
    ∀ l : List α, x ∈ l → x ∈ removeFirst p l := by
  intro l
  induction l with
  | nil => intro h; cases h
  | cons a rest ih =>
    intro h
    by_cases ha : p a = true
    · simp only [removeFirst, ha, if_true]
      rcases List.mem_cons.mp h with hxa | h1
      · rw [hxa, ha] at hx
        cases hx
      · exact h1
    · have ha2 : p a = false := by simpa using ha
      simp only [removeFirst, ha2, Bool.false_eq_true, if_false, List.mem_cons]
      rcases List.mem_cons.mp h with hxa | h1
      · exact Or.inl hxa
      · exact Or.inr (ih h1)

/-- The controller `deleteItem` keeps referential integrity, and an Equipment
document that it removes is referenced by no remaining inventory item. -/
theorem deleteItem_refsResolve (s : Store) (itemId : ObjectId) (h : refsResolve s) :
    refsResolve (deleteItem s itemId).2 ∧
    (∀ j ∈ (deleteItem s itemId).2.inventory, j ∈ s.inventory) ∧
    (∀ e ∈ s.equipment, e ∉ (deleteItem s itemId).2.equipment →
      ∀ j ∈ (deleteItem s itemId).2.inventory, j.equipmentId ≠ e._id) := by
  unfold deleteItem
  split
  · exact ⟨h, fun j hj => hj, fun e he hne => absurd he hne⟩
  · rename_i inventoryResult inv hdel
    simp only [UserInventory.findByIdAndDelete] at hdel
    split at hdel
    · cases hdel
    · cases hdel
      simp only
      have hsub : ∀ j ∈ removeFirst (fun d => d._id == itemId) s.inventory, j ∈ s.inventory :=
        fun j hj => mem_of_mem_removeFirst _ j _ hj
      by_cases hothers : ((UserInventory.findByEquipment
          (removeFirst (fun d => d._id == itemId) s.inventory)
          inventoryResult.equipmentId).length == 0) = true
      · simp only [hothers, if_true]
        have hnone : ∀ j ∈ removeFirst (fun d => d._id == itemId) s.inventory,
            j.equipmentId ≠ inventoryResult.equipmentId := by
          intro j hj hid
          have hlen : (UserInventory.findByEquipment
              (removeFirst (fun d => d._id == itemId) s.inventory)
              inventoryResult.equipmentId).length = 0 := by simpa using hothers
          have hmem : j ∈ UserInventory.findByEquipment
              (removeFirst (fun d => d._id == itemId) s.inventory)
              inventoryResult.equipmentId := by
            simp only [UserInventory.findByEquipment, List.mem_filter, beq_iff_eq]
            exact ⟨hj, hid⟩
          rw [List.length_eq_zero] at hlen
          rw [hlen] at hmem
          cases hmem
        refine ⟨?_, hsub, ?_⟩
        · intro j hj
          rw [findById_isSome_iff]
          obtain ⟨e, he, hid⟩ := List.mem_map.mp ((findById_isSome_iff _ _).mp (h j (hsub j hj)))
          refine List.mem_map.mpr ⟨e, ?_, hid⟩
          apply mem_removeFirst_of_not _ _ _ _ he
          have hne : e._id ≠ inventoryResult.equipmentId := by
            rw [hid]; exact hnone j hj
          simpa using hne
        · intro e he hgone j hj hid
          apply hgone
          apply mem_removeFirst_of_not _ _ _ _ he
          have hne : e._id ≠ inventoryResult.equipmentId := by
            rw [← hid]; exact hnone j hj
          simpa using hne
      · have hf : ((UserInventory.findByEquipment
            (removeFirst (fun d => d._id == itemId) s.inventory)
            inventoryResult.equipmentId).length == 0) = false := by simpa using hothers
        simp only [hf, Bool.false_eq_true, if_false]
        exact ⟨fun j hj => h j (hsub j hj), hsub, fun e he hne => absurd he hne⟩

/-- C27.  If every inventory item references an Equipment document that
exists in the store, this still holds after any `addToInventory`,
`updateItemQuantity`, `updateInventoryItem` or `deleteItem` call.  The two
updates leave the stored references as they were, in order; `deleteItem`
leaves only items that were there, and an Equipment document it removes is
referenced by no remaining inventory item. -/
theorem referential_integrity_preserved (s : Store) (hrefs : refsResolve s) :
    (∀ u item fr, refsResolve (addToInventory s u item fr).2) ∧
    (∀ id quantity, refsResolve (updateItemQuantity s id quantity).2 ∧
      (updateItemQuantity s id quantity).2.inventory.map (fun j => j.equipmentId) =
        s.inventory.map (fun j => j.equipmentId)) ∧
    (∀ id quantity customizations equipmentData,
      refsResolve (updateInventoryItem s id quantity customizations equipmentData).2 ∧
      (updateInventoryItem s id quantity customizations equipmentData).2.inventory.map
        (fun j => j.equipmentId) = s.inventory.map (fun j => j.equipmentId)) ∧
    (∀ itemId, refsResolve (deleteItem s itemId).2 ∧
      (∀ j ∈ (deleteItem s itemId).2.inventory, j ∈ s.inventory) ∧
      (∀ e ∈ s.equipment, e ∉ (deleteItem s itemId).2.equipment →
        ∀ j ∈ (deleteItem s itemId).2.inventory, j.equipmentId ≠ e._id)) := by
  refine ⟨?_, ?_, ?_, ?_⟩
  · intro u item fr
    exact addToInventory_refsResolve s u item fr hrefs
  · intro id quantity
    have hk := updateItemQuantity_keys s id quantity
    exact ⟨refsResolve_of_same_keys s _ hrefs (by rw [hk.1]) hk.2, hk.2⟩
  · intro id quantity customizations equipmentData
    have hk := updateInventoryItem_keys s id quantity customizations equipmentData
    exact ⟨refsResolve_of_same_keys s _ hrefs hk.1 hk.2, hk.2⟩
  · intro itemId
    exact deleteItem_refsResolve s itemId hrefs

/-- C27 on a store in which two items reference the one Equipment document. -/
theorem referential_integrity_preserved_witness :
    refsResolve sharedStore ∧
    refsResolve (deleteItem sharedStore 1).2 ∧
    refsResolve (addToInventory sharedStore 9 (some longsword) secondFresh).2 :=
  have h : refsResolve sharedStore := by
    intro j hj
    simp only [sharedStore, List.mem_cons, List.mem_singleton, List.not_mem_nil, or_false] at hj
    rcases hj with rfl | rfl <;> rfl
  ⟨h, ((referential_integrity_preserved sharedStore h).2.2.2 1).1,
    (referential_integrity_preserved sharedStore h).1 9 (some longsword) secondFresh⟩

/-! ## The equipment step of `updateInventoryItem` -/

/-- A single-document update writes the image of the document that the
lookup finds. -/
theorem mem_updateFirst_of_find {α : Type} (p : α → Bool) (f : α → α) (x : α) :
    ∀ l : List α, l.find? p = some x → f x ∈ updateFirst p f l := by
  intro l
  induction l with
  | nil => intro h; cases h
  | cons a rest ih =>
    intro h
    by_cases ha : p a = true
    · simp only [List.find?, ha, Option.some.injEq] at h
      subst h
      simp only [updateFirst, ha, if_true]
      exact List.mem_cons_self _ _
    · have ha2 : p a = false := by simpa using ha
      simp only [List.find?, ha2] at h
      simp only [updateFirst, ha2, Bool.false_eq_true, if_false]
      exact List.mem_cons_of_mem _ (ih h)

/-- C28, amended.  When `updateInventoryItem` is given equipmentData for an
existing inventory item whose referenced Equipment document does not exist,
and the request passes the update validators (a quantity that is absent or
valid, a patch name that is absent or non-empty), it answers 404 with
`Equipment item not found`, and the store it leaves holds the inventory item
with the new quantity and customizations: the update is not rolled back. -/
theorem updateInventoryItem_not_atomic (s : Store) (id : ObjectId) (quantity : JsNumber)
    (customizations : JsString) (patch : EquipmentPatch) (it : InventoryItem)
    (hitem : s.inventory.find? (fun d => d._id == id) = some it)
    (hq : quantity = .undefined ∨ ∃ q, quantity = .num q ∧ quantityValid q = true)
    (hname : patch.name = .undefined ∨ ∃ n, patch.name = .str n ∧ n ≠ "")
    (hgone : Equipment.findById s.equipment it.equipmentId = none) :
    updateInventoryItem s id quantity customizations (some patch) =
      ({ status := 404, item := none, message := some "Equipment item not found" },
       { equipment := s.equipment,
         inventory := updateFirst (fun d => d._id == id)
           (applyInventoryUpdate quantity customizations) s.inventory }) ∧
    applyInventoryUpdate quantity customizations it ∈
      (updateInventoryItem s id quantity customizations (some patch)).2.inventory := by
  have hupd : UserInventory.findByIdAndUpdate s.inventory id quantity customizations =
      .ok (some (applyInventoryUpdate quantity customizations it),
        updateFirst (fun d => d._id == id) (applyInventoryUpdate quantity customizations)
          s.inventory) := by
    rcases hq with rfl | ⟨q, rfl, hv⟩
    · simp [UserInventory.findByIdAndUpdate, hitem]
    · simp [UserInventory.findByIdAndUpdate, hitem, hv]
  have hsame : (applyInventoryUpdate quantity customizations it).equipmentId =
      it.equipmentId := by
    cases quantity <;> cases customizations <;> rfl
  have hequ : Equipment.findByIdAndUpdate s.equipment
      (applyInventoryUpdate quantity customizations it).equipmentId patch =
      .ok (none, s.equipment) := by
    rw [hsame]
    rcases hname with h | ⟨n, h, hn⟩
    · simp [Equipment.findByIdAndUpdate, h, hgone]
    · simp [Equipment.findByIdAndUpdate, h, hn, hgone]
  have hres : updateInventoryItem s id quantity customizations (some patch) =
      ({ status := 404, item := none, message := some "Equipment item not found" },
       { equipment := s.equipment,
         inventory := updateFirst (fun d => d._id == id)
           (applyInventoryUpdate quantity customizations) s.inventory }) := by
    simp only [updateInventoryItem, hupd, hequ]
  refine ⟨hres, ?_⟩
  rw [hres]
  exact mem_updateFirst_of_find _ _ _ _ hitem

/-- C28, amended, on a store whose one inventory item references a document
that is gone: the item is engraved and its quantity is 5 after the 404. -/
theorem updateInventoryItem_not_atomic_witness :
    updateInventoryItem danglingStore 1 (.num 5) (.str "engraved") (some renamePatch) =
      ({ status := 404, item := none, message := some "Equipment item not found" },
       { equipment := danglingStore.equipment,
         inventory := updateFirst (fun d => d._id == 1)
           (applyInventoryUpdate (.num 5) (.str "engraved")) danglingStore.inventory }) ∧
    applyInventoryUpdate (.num 5) (.str "engraved") itemOfSeven ∈
      (updateInventoryItem danglingStore 1 (.num 5) (.str "engraved")
        (some renamePatch)).2.inventory :=
  updateInventoryItem_not_atomic danglingStore 1 (.num 5) (.str "engraved") renamePatch
    itemOfSeven rfl (Or.inr ⟨5, rfl, by decide⟩) (Or.inr ⟨"Greatsword", rfl, by decide⟩) rfl

/-- C28 as stated fails for a patch that the update validators refuse: the
inventory item exists, its Equipment document does not, and the answer is 400,
not 404. -/
theorem updateInventoryItem_not_atomic_counterexample :
    danglingStore.inventory.find? (fun d => d._id == 1) = some itemOfSeven ∧
    Equipment.findById danglingStore.equipment itemOfSeven.equipmentId = none ∧
    (updateInventoryItem danglingStore 1 .undefined (.str "engraved")
      (some emptyNamePatch)).1 =
      { status := 400, item := none, message := some "Failed to update inventory item" } :=
  ⟨rfl, rfl, by decide⟩

/-! ## Equipment records left behind by `addToInventory` -/

/-- C29.  The claim fails on the match-found path: user 7 holds a Longsword
item that references document 1; adding the catalog item `longsword` again
answers 200, stores a new Equipment document 2, and no inventory item
references document 2 when the call returns. -/
theorem addToInventory_orphan_record :
    (addToInventory sharedStore 7 (some longsword) secondFresh).1.status = 200 ∧
    sharedStore.equipment = [storedLongsword] ∧
    (addToInventory sharedStore 7 (some longsword) secondFresh).2.equipment =
      [storedLongsword, secondLongsword] ∧
    ∀ j ∈ (addToInventory sharedStore 7 (some longsword) secondFresh).2.inventory,
      j.equipmentId ≠ secondLongsword._id := by
  have h := addToInventory_increments sharedStore
    { equipment := [storedLongsword, secondLongsword],
      inventory := [itemOfSeven, itemOfEight] }
    7 (some longsword) secondFresh secondLongsword storedLongsword
    [] [itemOfEight] itemOfSeven rfl rfl (fun j hj => by cases hj) rfl rfl rfl
    (fun j hj => by cases hj) (by decide)
  rw [h]
  refine ⟨rfl, rfl, rfl, ?_⟩
  intro j hj
  simp only [List.nil_append, List.mem_cons, List.mem_singleton, List.not_mem_nil,
    or_false] at hj
  rcases hj with rfl | rfl <;> decide

/-! ## Store failures in the catch-all handlers -/

/-- C24.  The claim fails for two of the controllers: a refused insert in
`createEquipment` and a refused write of the equipment step in
`updateInventoryItem` are both answered 400, not 500.  The same refusals are
answered 500 by `addToInventory` and by `updateEquipment`. -/
theorem store_failure_answered_400 :
    Equipment.save takenStore.equipment
      { _id := firstFresh.equipmentOid, customId := firstFresh.customId, name := "Shortbow" } =
      .error "E11000 duplicate key error" ∧
    (createEquipment takenStore shortbowBody firstFresh).1 =
      { status := 400, body := .message "Failed to create new equipment" } ∧
    Equipment.findByIdAndUpdate twoRecordStore.equipment itemOfSeven.equipmentId clashPatch =
      .error "E11000 duplicate key error" ∧
    (updateInventoryItem twoRecordStore 1 .undefined .undefined (some clashPatch)).1 =
      { status := 400, item := none, message := some "Failed to update inventory item" } ∧
    (addToInventory takenStore 7 (some longsword) firstFresh).1.status = 500 ∧
    (updateEquipment twoRecordStore 1 clashData).1 =
      { status := 500, body := .message "Failed to update equipment" } :=
  ⟨rfl, by decide, rfl, by decide, by decide, by decide⟩

/-! ## The equipment patch of `updateInventoryItem` against the Store's update -/

/-- C23.  The claim fails: `updateInventoryItem` hands `equipmentData` to the
store without the checks of `updateEquipment`.  A patch whose weight is text
renames the referenced record, and a patch without a name rewrites its
`customId`, both answered 200; `updateEquipment` answers 400 to each and
writes nothing, which is what the spec's wording gives. -/
theorem updateInventoryItem_skips_store_checks :
    updateInventoryItemBody sharedStore 1 .undefined .undefined textWeightPatch =
      some ({ status := 200, item := some itemOfSeven, message := none },
            { equipment := [{ storedLongsword with name := "Rope" }],
              inventory := sharedStore.inventory }) ∧
    updateEquipment sharedStore itemOfSeven.equipmentId textWeightPatch =
      ({ status := 400, body := .message "Weight must be a number" }, sharedStore) ∧
    equipmentAfterUpdateBySpec sharedStore 1 .undefined .undefined textWeightPatch =
      sharedStore.equipment ∧
    updateInventoryItemBody sharedStore 1 .undefined .undefined tokenPatch =
      some ({ status := 200, item := some itemOfSeven, message := none },
            { equipment := [{ storedLongsword with customId := "0c1d2e3f4a5b6c7d8e9f" }],
              inventory := sharedStore.inventory }) ∧
    updateEquipment sharedStore itemOfSeven.equipmentId tokenPatch =
      ({ status := 400, body := .message "Name is required" }, sharedStore) ∧
    equipmentAfterUpdateBySpec sharedStore 1 .undefined .undefined tokenPatch =
      sharedStore.equipment := by
  decide

/-! ## The classification strings of a catalog item on their way to the record -/

/-- C26.  The claim fails for two of the three strings.  For the catalog's
longsword the record's `equipment_category.name` is the catalog's
`category_range`, not the catalog's `equipment_category.name`; for a magic
item the record's `rarity.name` and `equipment_category.name` are empty
although the catalog names both. -/
theorem classification_strings_lost :
    (∃ userItem doc,
      mapFetchedItemToUserItem longswordCatalog "2024-05-01T10:00:00.000Z" = .ok userItem ∧
      fetchedRecord (sentItem userItem) "3f9a1c0b7d2e4a5f6b8c" = .ok doc ∧
      (longswordCatalog.prop "equipment_category").prop "name" = .str "Weapon" ∧
      longswordCatalog.prop "category_range" = .str "Martial Melee" ∧
      doc.category_range = some "Martial Melee" ∧
      doc.equipment_category = some "Martial Melee") ∧
    (∃ userItem doc,
      mapFetchedItemToUserItem cloakCatalog "2024-05-01T10:00:00.000Z" = .ok userItem ∧
      fetchedRecord (sentItem userItem) "a1b2c3d4e5f60718293a" = .ok doc ∧
      (cloakCatalog.prop "equipment_category").prop "name" = .str "Wondrous Items" ∧
      (cloakCatalog.prop "rarity").prop "name" = .str "Uncommon" ∧
      doc.equipment_category = some "" ∧
      doc.rarity = some "") :=
  ⟨⟨_, _, rfl, rfl, rfl, rfl, rfl, rfl⟩, ⟨_, _, rfl, rfl, rfl, rfl, rfl, rfl⟩⟩
end CleanDepot
